import Mathlib

/-!
# OpenNIC server: resolver cache refresh controller

A shallow embedding of `src/server/opennicserver.cpp`.  The server object is an
explicit state record (`OpenNICServer`), every member function is a state
transformer, and everything the file obtains from a collaborator that is not
part of it (resolver pool item comparison, pool sorting and shuffling, the
liveness probe, the clock, the bootstrap lists) is read from an `Env` record.
Calls that leave the object (system resolver installation, liveness probes,
timers, settings writes, packets sent to sessions) are appended to
`OpenNICServer.trace`, in call order.
-/

namespace OpenNIC

/-! ## Constants -/

/-- The `DEFAULT_FAST_TIMER` constant, in seconds. -/
def DEFAULT_FAST_TIMER : Int := 10

/-- The `DEFAULT_REFRESH_TIMER_PERIOD` constant, in minutes. -/
def DEFAULT_REFRESH_TIMER_PERIOD : Int := 1

/-- The `DEFAULT_RESOLVER_CACHE_SIZE` constant. -/
def DEFAULT_RESOLVER_CACHE_SIZE : Int := 3

/-- The `DEFAULT_TCP_LISTEN_PORT` constant. -/
def DEFAULT_TCP_LISTEN_PORT : Int := 19803

/-- The `MAX_LOG_LINES` constant. -/
def MAX_LOG_LINES : Nat := 100

/-! ## Data model -/

/-- A resolver candidate, `OpenNICResolverPoolItem(QHostAddress(text), kind)`:
the address is kept as the text it was constructed from, the kind is the tier
label (`"T1"` or `"T2"`). -/
structure OpenNICResolverPoolItem where
  hostAddress : String
  kind : String
deriving DecidableEq, Repr

/-- A resolver pool, `OpenNICResolverPool`: an indexed sequence of items. -/
abbrev OpenNICResolverPool := List OpenNICResolverPoolItem

/-- A client session socket, with the two flags the server inspects. -/
structure QTcpSocket where
  descriptor : Nat
  isOpen : Bool
  isValid : Bool
deriving DecidableEq, Repr

/-- The persistent `QSettings("OpenNIC", "OpenNICService")` store; `none` is an
absent key, for which `value(key, default)` yields the default. -/
structure Settings where
  tcp_listen_port : Option Int
  refresh_timer_period : Option Int
  resolver_cache_size : Option Int
deriving DecidableEq, Repr

/-- A value of a wire message, `QVariant`: an integer, a string or a list of
strings. -/
inductive QVariant where
  | int (n : Int)
  | string (str : String)
  | stringList (list : List String)
deriving DecidableEq, Repr

/-- A wire message, `QMap<QString,QVariant>`: its entries in the order the map
keeps and iterates them, ascending by key. -/
abbrev Packet := List (String × QVariant)

/-- A call that leaves the server object, or the entry of `updateDNS`. -/
inductive Event where
  | insertSystemResolver (address : String) (index : Int)
  | alive (item : OpenNICResolverPoolItem)
  | updateDNS (resolverCount : Int)
  | startTimer (interval : Int)
  | killTimer (id : Int)
  | listen (port : Int)
  | writeSettings (settings : Settings)
  | send (session : QTcpSocket) (packet : Packet)
  | deleteSession (session : QTcpSocket)
  | saveBootstrapT1List (list : List String)
  | saveTestDomains (list : List String)
deriving DecidableEq, Repr

/-- What the file takes from its collaborators and from its environment during
one call. -/
structure Env where
  /-- Pool item `operator==`. -/
  itemEq : OpenNICResolverPoolItem → OpenNICResolverPoolItem → Bool
  /-- The order relation `OpenNICResolverPool::sort` sorts by. -/
  itemLe : OpenNICResolverPoolItem → OpenNICResolverPoolItem → Bool
  /-- The result of `OpenNICResolverPool::insort`. -/
  insort : OpenNICResolverPool → OpenNICResolverPoolItem → OpenNICResolverPool
  /-- The result of `OpenNICResolverPool::randomize`. -/
  randomize : OpenNICResolverPool → OpenNICResolverPool
  /-- The liveness probe `OpenNICResolverPoolItem::alive`. -/
  alive : OpenNICResolverPoolItem → Bool
  /-- The text of `OpenNICResolverPoolItem::toString`. -/
  itemToString : OpenNICResolverPoolItem → String
  /-- The time stamp `QDateTime::currentDateTime().toString("yyMMddhhmmss")`
  at the k-th reading of the clock. -/
  clock : Nat → String
  /-- The list `OpenNICSystem::getBootstrapT1List()`. -/
  bootstrapT1List : List String
  /-- The list `OpenNICSystem::getBootstrapT2List()`. -/
  bootstrapT2List : List String
  /-- The `VERSION_STRING` of the build. -/
  versionString : String
  /-- Whether `mServer.listen` succeeds. -/
  listenOk : Bool
  /-- The sockets `mServer.nextPendingConnection()` hands out, in order. -/
  pendingConnections : List QTcpSocket
  /-- The count `bytesAvailable()` of a session when `readyRead` visits it. -/
  bytesAvailable : QTcpSocket → Int
  /-- The map `stream >> clientPacket` reads from a session. -/
  clientPacket : QTcpSocket → Packet
  /-- The result of `OpenNICSystem::saveBootstrapT1List`. -/
  saveBootstrapT1List : List String → Bool
  /-- The result of `OpenNICSystem::saveTestDomains`. -/
  saveTestDomains : List String → Bool
  /-- The list `OpenNICSystem::getBootstrapT1List()` when a snapshot is built. -/
  snapshotT1List : List String
  /-- The list `OpenNICSystem::getTestDomains().toStringList()` when a snapshot
  is built. -/
  snapshotTestDomains : List String
  /-- The text `OpenNICSystem::getSystemResolverList()` when a snapshot is
  built. -/
  systemResolverList : String
  /-- The result of `QString::toInt` on the string of a variant. -/
  stringToInt : String → Int

/-- The server object together with the part of the world it acts on. -/
structure OpenNICServer where
  mRefreshTimerPeriod : Int
  mResolverCacheSize : Int
  mEnabled : Bool
  mRefreshTimer : Int
  mFastTimer : Int
  mResolversInitialized : Bool
  mTcpListenPort : Int
  mUpdatingDNS : Bool
  mResolverPool : OpenNICResolverPool
  mResolverCache : OpenNICResolverPool
  mLog : List String
  mAsyncMessage : String
  mSessions : List QTcpSocket
  /-- Whether `mServer.isListening()`. -/
  mServerListening : Bool
  /-- The persistent settings store. -/
  settings : Settings
  /-- The running timers, as (id, interval in milliseconds). -/
  timers : List (Int × Int)
  /-- The id the next `startTimer` returns. -/
  nextTimerId : Int
  /-- How often the clock has been read. -/
  clockReads : Nat
  /-- The calls issued so far, oldest first. -/
  trace : List Event
  /-- Ghost field, not in the source: `mResolverPool.count()` as it was when
  `replaceActiveResolvers` last ran. -/
  ghostPoolCountAtReplace : Nat
  /-- Ghost field, not in the source: how many calls of `updateDNS` have gone
  past the test `if ( !mUpdatingDNS )` into the body. -/
  ghostBodyRuns : Nat

/-! ## Resolver pool operations -/

/-- Modelled from the spec: `OpenNICResolverPool::contains`, absent from the
sources, is the membership test by the candidate's equality. -/
def OpenNICResolverPool.contains (e : Env) (pool : OpenNICResolverPool)
    (item : OpenNICResolverPoolItem) : Bool :=
  pool.any (fun c => e.itemEq c item)

/-- Modelled from the spec: `OpenNICResolverPool::sort`, absent from the
sources, is a stable sort by the candidate's order. -/
def OpenNICResolverPool.sort (e : Env) (pool : OpenNICResolverPool) : OpenNICResolverPool :=
  List.insertionSort (fun a b => e.itemLe a b = true) pool

/-! ## Logging -/

/-- The loop `while (mLog.count() > MAX_LOG_LINES) mLog.takeAt(0);`. -/
def pruneLines : List String → List String
  | [] => []
  | x :: xs => if (x :: xs).length > MAX_LOG_LINES then pruneLines xs else x :: xs

/-- The function `OpenNICServer::log`. -/
def log (e : Env) (s : OpenNICServer) (msg : String) : OpenNICServer :=
  let str := e.clock s.clockReads ++ "|" ++ msg
  { s with mLog := pruneLines (s.mLog ++ [str]), clockReads := s.clockReads + 1 }

/-- The text `QString::number(n)`. -/
def number (n : Int) : String := toString n

/-! ## The hysteresis policy -/

/-- The counting loop of `shouldReplaceWithProposed`: `diffCount` after the
remaining proposed items were visited. -/
def diffCountLoop (e : Env) (cache : OpenNICResolverPool) :
    OpenNICResolverPool → Nat → Nat
  | [], diffCount => diffCount
  | item :: rest, diffCount =>
    if !(OpenNICResolverPool.contains e cache item) then
      diffCountLoop e cache rest (diffCount + 1)
    else
      diffCountLoop e cache rest diffCount

/-- The function `OpenNICServer::shouldReplaceWithProposed`. -/
def shouldReplaceWithProposed (e : Env) (s : OpenNICServer)
    (proposed : OpenNICResolverPool) : Bool :=
  if proposed.length ≥ 2 ∧ proposed.length = s.mResolverCache.length then
    let diffCount := diffCountLoop e s.mResolverCache proposed 0
    decide (diffCount ≥ s.mResolverCache.length / 2)
  else if proposed.length = 1 ∧ s.mResolverCache.length = 1 then
    match proposed[0]?, s.mResolverCache[0]? with
    | some p, some a => e.itemEq p a
    | _, _ => true
  else
    true

/-! ## Replacing the active cache -/

/-- The call `OpenNICSystem::insertSystemResolver(address, index)`, recorded in
the trace. -/
def insertSystemResolver (s : OpenNICServer) (address : String) (index : Int) :
    OpenNICServer :=
  { s with trace := s.trace ++ [Event.insertSystemResolver address index] }

/-- The loop of `replaceActiveResolvers` over the sorted proposal, from index
`n` on: install the item at slot `n+1`, append it to the cache, log it. -/
def replaceLoop (e : Env) : OpenNICResolverPool → Nat → OpenNICServer → OpenNICServer
  | [], _, s => s
  | item :: rest, n, s =>
    let s1 := insertSystemResolver s item.hostAddress ((n : Int) + 1)
    let s2 := { s1 with mResolverCache := s1.mResolverCache ++ [item] }
    let s3 := log e s2 (" > " ++ e.itemToString item)
    replaceLoop e rest (n + 1) s3

/-- The function `OpenNICServer::replaceActiveResolvers`. -/
def replaceActiveResolvers (e : Env) (s : OpenNICServer) (proposed : OpenNICResolverPool) :
    OpenNICServer :=
  let s1 := { s with mResolverCache := [], ghostPoolCountAtReplace := s.mResolverPool.length }
  let sorted := OpenNICResolverPool.sort e proposed
  let s2 := log e s1
    ("Applying new resolver cache of (" ++ number sorted.length ++ ") items...")
  replaceLoop e sorted 0 s2

/-- The proposing loop of `updateDNS`: the proposal after the remaining pool
items were visited from index `n` on. -/
def proposeLoop (resolverCount : Int) :
    OpenNICResolverPool → Nat → OpenNICResolverPool → OpenNICResolverPool
  | [], _, proposed => proposed
  | item :: rest, n, proposed =>
    if (n : Int) < resolverCount then
      proposeLoop resolverCount rest (n + 1) (proposed ++ [item])
    else
      proposed

/-- The function `OpenNICServer::updateDNS`; its entry is recorded in the
trace, and the ghost counter counts the calls that enter the body. -/
def updateDNS (e : Env) (s : OpenNICServer) (resolverCount : Int) : OpenNICServer × Int :=
  let s0 := { s with trace := s.trace ++ [Event.updateDNS resolverCount] }
  if !s0.mUpdatingDNS then
    let s1 := log e { s0 with ghostBodyRuns := s0.ghostBodyRuns + 1 } "** UPDATE DNS **"
    let s2 := { s1 with mUpdatingDNS := true }
    let s3 := log e s2 "Sorting resolver pool."
    let s4 := { s3 with mResolverPool := OpenNICResolverPool.sort e s3.mResolverPool }
    let s5 := log e s4 ("Proposing (" ++ number resolverCount ++ ") candidates.")
    let proposed := proposeLoop resolverCount s5.mResolverPool 0 []
    if shouldReplaceWithProposed e s5 proposed then
      let s6 := replaceActiveResolvers e s5 proposed
      ({ s6 with mUpdatingDNS := false }, (s6.mResolverCache.length : Int))
    else
      ({ s5 with mUpdatingDNS := false }, 0)
  else
    (s0, 0)

/-! ## Settings -/

/-- A product of two `int` values as a 32-bit machine computes it. -/
def mulInt32 (a b : Int) : Int :=
  (a * b + 2147483648) % 4294967296 - 2147483648

/-- The call `killTimer(id)`. -/
def killTimer (s : OpenNICServer) (id : Int) : OpenNICServer :=
  { s with timers := s.timers.filter (fun t => t.1 != id),
           trace := s.trace ++ [Event.killTimer id] }

/-- The call `startTimer(interval)`: the new timer and its id. -/
def startTimer (s : OpenNICServer) (interval : Int) : OpenNICServer × Int :=
  ({ s with timers := s.timers ++ [(s.nextTimerId, interval)],
            nextTimerId := s.nextTimerId + 1,
            trace := s.trace ++ [Event.startTimer interval] }, s.nextTimerId)

/-- The function `OpenNICServer::setRefreshPeriod`. -/
def setRefreshPeriod (e : Env) (s : OpenNICServer) (period : Int) : OpenNICServer :=
  if s.mRefreshTimerPeriod ≠ period ∧ period ≥ 0 then
    let s1 := { s with mRefreshTimerPeriod := period }
    let s2 := if s1.mRefreshTimer ≥ 0 then
        { killTimer s1 s1.mRefreshTimer with mRefreshTimer := -1 }
      else s1
    let s3 := log e s2
      ("** DNS REFRESH IN " ++ number s2.mRefreshTimerPeriod ++ " MINUTES **")
    let r := startTimer s3 (mulInt32 (mulInt32 s3.mRefreshTimerPeriod 60) 1000)
    { r.1 with mRefreshTimer := r.2 }
  else
    s

/-- The function `OpenNICServer::setResolverCacheSize`. -/
def setResolverCacheSize (e : Env) (s : OpenNICServer) (size : Int) : OpenNICServer :=
  if s.mResolverCacheSize ≠ size ∧ size ≥ 0 then
    let s1 := { s with mResolverCacheSize := size }
    let s2 := log e s1
      ("** ACTIVE CACHE SET TO " ++ number s1.mResolverCacheSize ++ " RESOLVERS **")
    (updateDNS e s2 s2.mResolverCacheSize).1
  else
    s

/-- The function `OpenNICServer::readSettings`. -/
def readSettings (e : Env) (s : OpenNICServer) : OpenNICServer :=
  let s1 := { s with
    mTcpListenPort := s.settings.tcp_listen_port.getD DEFAULT_TCP_LISTEN_PORT }
  let s2 := setRefreshPeriod e s1
    (s1.settings.refresh_timer_period.getD DEFAULT_REFRESH_TIMER_PERIOD)
  setResolverCacheSize e s2
    (s2.settings.resolver_cache_size.getD DEFAULT_RESOLVER_CACHE_SIZE)

/-! ## Server start -/

/-- The function `OpenNICServer::initializeServer`; the message written to the
diagnostic stream when `listen` fails is not part of the state. -/
def initializeServer (e : Env) (s : OpenNICServer) : OpenNICServer × Int :=
  if !s.mServerListening then
    let s1 := { s with trace := s.trace ++ [Event.listen DEFAULT_TCP_LISTEN_PORT] }
    if e.listenOk then
      (log e { s1 with mServerListening := true }
        ("listening on port " ++ number s1.mTcpListenPort), 0)
    else
      (s1, 0)
  else
    (s, 0)

/-- The function `OpenNICServer::copyright`. -/
def copyright (e : Env) : String :=
  "OpenNICServer V" ++ e.versionString ++
    " (c) 2012 Mike Sharkey <michael_sharkey@firstclass.com>"

/-- The function `OpenNICServer::license`. -/
def license (e : Env) : String :=
  copyright e ++
    ("\"THE BEER-WARE LICENSE\" (Revision 42):\n" ++
     "Mike Sharkey wrote this thing. As long as you retain this notice you\n" ++
     "can do whatever you want with this stuff. If we meet some day, and you think\n" ++
     "this stuff is worth it, you can buy me a beer in return.\n")

/-! ## Bootstrap -/

/-- Whether `QChar::isSpace` holds of the character. -/
def isSpace (c : Char) : Bool :=
  c.toNat = 0x20 || (0x09 ≤ c.toNat && c.toNat ≤ 0x0d) || c.toNat = 0x85 || c.toNat = 0xa0 ||
  c.toNat = 0x1680 || (0x2000 ≤ c.toNat && c.toNat ≤ 0x200a) || c.toNat = 0x2028 ||
  c.toNat = 0x2029 || c.toNat = 0x202f || c.toNat = 0x205f || c.toNat = 0x3000

/-- The text `QString::trimmed()`: white space removed at both ends. -/
def trimmed (str : String) : String :=
  String.mk (((str.toList.dropWhile isSpace).reverse.dropWhile isSpace).reverse)

/-- The first loop of `bootstrapResolvers` over the tier-1 address list. -/
def bootstrapT1Loop (e : Env) : List String → OpenNICServer → OpenNICServer
  | [], s => s
  | address :: rest, s =>
    let resolver := trimmed address
    if !resolver.isEmpty then
      let item : OpenNICResolverPoolItem := ⟨resolver, "T1"⟩
      let s1 := { s with mResolverPool := e.insort s.mResolverPool item }
      bootstrapT1Loop e rest (log e s1 (e.itemToString item))
    else
      bootstrapT1Loop e rest s

/-- The second loop of `bootstrapResolvers`, from index `n` on while
`n < nBootstrapResolvers`: install the pool item at index `n` at slot `n+1` and
log it.  The result carries the final value of `n`. -/
def bootstrapApplyLoop (e : Env) (nBootstrapResolvers : Int) :
    OpenNICResolverPool → Nat → OpenNICServer → OpenNICServer × Nat
  | [], n, s => (s, n)
  | item :: rest, n, s =>
    if (n : Int) < nBootstrapResolvers then
      let s1 := insertSystemResolver s item.hostAddress ((n : Int) + 1)
      bootstrapApplyLoop e nBootstrapResolvers rest (n + 1)
        (log e s1 (" > " ++ e.itemToString item))
    else
      (s, n)

/-- The third loop of `bootstrapResolvers` over the tier-2 address list. -/
def bootstrapT2Loop (e : Env) : List String → OpenNICServer → OpenNICServer
  | [], s => s
  | address :: rest, s =>
    let resolver := trimmed address
    if !resolver.isEmpty then
      let item : OpenNICResolverPoolItem := ⟨resolver, "T2"⟩
      bootstrapT2Loop e rest
        { s with mResolverPool := e.insort s.mResolverPool item,
                 mResolversInitialized := true }
    else
      bootstrapT2Loop e rest s

/-- The function `OpenNICServer::bootstrapResolvers`. -/
def bootstrapResolvers (e : Env) (s : OpenNICServer) : OpenNICServer × Int :=
  let s1 := { s with mResolversInitialized := false, mResolverPool := [] }
  let bootstrapList := e.bootstrapT1List
  let s2 := log e s1 ("Found " ++ number bootstrapList.length ++ " T1 resolvers")
  let s3 := bootstrapT1Loop e bootstrapList s2
  let s4 := log e s3 "Randomizing T1 list..."
  let s5 := { s4 with mResolverPool := e.randomize s4.mResolverPool }
  let nBootstrapResolvers : Int :=
    if s5.mResolverCacheSize ≤ (s5.mResolverPool.length : Int) then s5.mResolverCacheSize
    else (s5.mResolverPool.length : Int)
  let s6 := log e s5 ("Applying " ++ number nBootstrapResolvers ++ " T1 resolvers...")
  let r := bootstrapApplyLoop e nBootstrapResolvers s6.mResolverPool 0 s6
  let rc : Int := (r.2 : Int)
  let s7 := log e r.1 "Fetching T2 resolvers..."
  let t2List := e.bootstrapT2List
  let s8 := bootstrapT2Loop e t2List s7
  let s9 := log e s8 ("Found " ++ number t2List.length ++ " T2 resolvers")
  let s10 := log e s9
    ("mResolversInitialized=" ++ (if s9.mResolversInitialized then "TRUE" else "FALSE"))
  (s10, rc)

/-- The function `OpenNICServer::coldBoot`. -/
def coldBoot (e : Env) (s : OpenNICServer) : OpenNICServer :=
  let s1 := log e s "** COLD BOOT **"
  let s2 := log e s1 (copyright e)
  let s3 := log e s2 (license e)
  let s4 := readSettings e s3
  let s5 := (bootstrapResolvers e s4).1
  if s5.mResolversInitialized then
    (initializeServer e s5).1
  else
    s5

/-! ## Refresh -/

/-- The loop of `testResolverCache` over the remaining cache items: each probe
is recorded in the trace, the first dead item ends the loop. -/
def testResolverCacheLoop (e : Env) : OpenNICResolverPool → OpenNICServer → OpenNICServer × Bool
  | [], s => (s, true)
  | item :: rest, s =>
    let s1 := { s with trace := s.trace ++ [Event.alive item] }
    if !e.alive item then
      (log e s1 ("** ACTIVE RESOLVER " ++ item.hostAddress ++ "' NOT RESPONDING **"), false)
    else
      testResolverCacheLoop e rest s1

/-- The function `OpenNICServer::testResolverCache`. -/
def testResolverCache (e : Env) (s : OpenNICServer) : OpenNICServer × Bool :=
  testResolverCacheLoop e s.mResolverCache s

/-- The function `OpenNICServer::refreshResolvers`. -/
def refreshResolvers (e : Env) (s : OpenNICServer) (force : Bool) : OpenNICServer :=
  let s1 := if !s.mResolversInitialized then coldBoot e s else s
  if force ∨ s1.mResolverCache.length = 0 ∨
      (s1.mResolverCache.length : Int) < s1.mResolverCacheSize then
    (updateDNS e s1 s1.mResolverCacheSize).1
  else if s1.mResolverCache.length ≠ 0 then
    let r := testResolverCache e s1
    if !r.2 then
      (updateDNS e r.1 r.1.mResolverCacheSize).1
    else
      r.1
  else
    s1

/-! ## Sessions -/

/-- The value `QVariant::toInt()`. -/
def QVariant.toInt (e : Env) : QVariant → Int
  | QVariant.int n => n
  | QVariant.string str => e.stringToInt str
  | QVariant.stringList _ => 0

/-- The value `QVariant::toStringList()`. -/
def QVariant.toStringList : QVariant → List String
  | QVariant.int _ => []
  | QVariant.string str => [str]
  | QVariant.stringList list => list

/-- Modelled from the spec: `OpenNICResolverPool::toStringList`, absent from
the sources, serialises the pool as the texts of its candidates. -/
def OpenNICResolverPool.toStringList (e : Env) (pool : OpenNICResolverPool) : List String :=
  pool.map e.itemToString

/-- The function `OpenNICServer::pruneLog`. -/
def pruneLog (s : OpenNICServer) : OpenNICServer :=
  { s with mLog := pruneLines s.mLog }

/-- The function `OpenNICServer::logPurge`. -/
def logPurge (s : OpenNICServer) : OpenNICServer :=
  { s with mLog := [] }

/-- The function `OpenNICServer::writeSettings`; the write is recorded in the
trace. -/
def writeSettings (s : OpenNICServer) : OpenNICServer :=
  let stored : Settings :=
    ⟨some s.mTcpListenPort, some s.mRefreshTimerPeriod, some s.mResolverCacheSize⟩
  { s with settings := stored, trace := s.trace ++ [Event.writeSettings stored] }

/-- The loop of `newConnection` over the pending connections. -/
def newConnectionLoop (e : Env) : List QTcpSocket → OpenNICServer → OpenNICServer
  | [], s => s
  | client :: rest, s =>
    newConnectionLoop e rest
      (log e { s with mSessions := s.mSessions ++ [client] } "** client session created **")

/-- The function `OpenNICServer::newConnection`. -/
def newConnection (e : Env) (s : OpenNICServer) : OpenNICServer :=
  newConnectionLoop e e.pendingConnections s

/-- The body of the key loop of `readyRead` for one entry of the client
packet. -/
def readyReadKey (e : Env) (s : OpenNICServer) (key : String) (value : QVariant) :
    OpenNICServer :=
  if key = "resolver_cache_size" then
    let s1 := if s.mResolverCacheSize ≠ QVariant.toInt e value then
        { s with mAsyncMessage := "Settings Applied" }
      else s
    setResolverCacheSize e s1 (QVariant.toInt e value)
  else if key = "refresh_timer_period" then
    let s1 := if s.mRefreshTimerPeriod ≠ QVariant.toInt e value then
        { s with mAsyncMessage := "Settings Applied" }
      else s
    setRefreshPeriod e s1 (QVariant.toInt e value)
  else if key = "bootstrap_t1_list" then
    let s1 := { s with
      trace := s.trace ++ [Event.saveBootstrapT1List (QVariant.toStringList value)] }
    if e.saveBootstrapT1List (QVariant.toStringList value) then
      { s1 with mAsyncMessage := "Bootstrap T1 List Saved" }
    else
      { s1 with mAsyncMessage := "There was a problem saving the T1 bootstrap list" }
  else if key = "bootstrap_domains" then
    let s1 := { s with
      trace := s.trace ++ [Event.saveTestDomains (QVariant.toStringList value)] }
    if e.saveTestDomains (QVariant.toStringList value) then
      { s1 with mAsyncMessage := "Domain List Saved" }
    else
      { s1 with mAsyncMessage := "There was a problem saving the domains list" }
  else if key = "update_dns" then
    (updateDNS e s s.mResolverCacheSize).1
  else
    s

/-- The key loop of `readyRead` over the entries of one client packet. -/
def readyReadPacket (e : Env) : Packet → OpenNICServer → OpenNICServer
  | [], s => s
  | entry :: rest, s => readyReadPacket e rest (readyReadKey e s entry.1 entry.2)

/-- The session loop of `readyRead`: every open and valid session is logged
and its packet is read and processed. -/
def readyReadLoop (e : Env) : List QTcpSocket → OpenNICServer → OpenNICServer
  | [], s => s
  | session :: rest, s =>
    if session.isOpen && session.isValid then
      let s1 := log e s ("got " ++ number (e.bytesAvailable session) ++ " bytes from client")
      readyReadLoop e rest (readyReadPacket e (e.clientPacket session) s1)
    else
      readyReadLoop e rest s

/-- The function `OpenNICServer::makeServerPacket`: the snapshot map. -/
def makeServerPacket (e : Env) (s : OpenNICServer) : Packet :=
  [("async_message", QVariant.string s.mAsyncMessage),
   ("bootstrap_domains", QVariant.stringList e.snapshotTestDomains),
   ("bootstrap_t1_list", QVariant.stringList e.snapshotT1List),
   ("journal_text", QVariant.stringList s.mLog),
   ("refresh_timer_period", QVariant.int s.mRefreshTimerPeriod),
   ("resolver_cache", QVariant.stringList (OpenNICResolverPool.toStringList e s.mResolverCache)),
   ("resolver_cache_size", QVariant.int s.mResolverCacheSize),
   ("resolver_pool", QVariant.stringList (OpenNICResolverPool.toStringList e s.mResolverPool)),
   ("system_text", QVariant.string e.systemResolverList),
   ("tcp_listen_port", QVariant.int s.mTcpListenPort)]

/-- The session loop of `announcePackets`: the packet is sent to every open
and valid session. -/
def announceLoop (packet : Packet) : List QTcpSocket → OpenNICServer → OpenNICServer
  | [], s => s
  | session :: rest, s =>
    if session.isOpen && session.isValid then
      announceLoop packet rest { s with trace := s.trace ++ [Event.send session packet] }
    else
      announceLoop packet rest s

/-- The function `OpenNICServer::announcePackets`. -/
def announcePackets (e : Env) (s : OpenNICServer) : OpenNICServer :=
  if s.mSessions.length ≠ 0 then
    let packet := makeServerPacket e s
    let s1 := announceLoop packet s.mSessions s
    let s2 := logPurge s1
    { s2 with mAsyncMessage := "" }
  else
    s

/-- The function `OpenNICServer::readyRead`. -/
def readyRead (e : Env) (s : OpenNICServer) : OpenNICServer :=
  let s0 := { s with mAsyncMessage := "" }
  let s1 := readyReadLoop e s0.mSessions s0
  let s2 := writeSettings s1
  if !s2.mAsyncMessage.isEmpty then
    announcePackets e s2
  else
    s2

/-- The loop of `purgeDeadSesssions` from index `n` on, for at most `fuel`
rounds: while `n < mSessions.count()`, a session at index `n` that is not open
or not valid is logged, taken out of the list and deleted, and in either case
`n` is incremented. -/
def purgeLoop (e : Env) : Nat → Nat → OpenNICServer → OpenNICServer
  | 0, _, s => s
  | fuel + 1, n, s =>
    if n < s.mSessions.length then
      match s.mSessions[n]? with
      | some session =>
        if !session.isOpen || !session.isValid then
          let s1 := log e s "** CLIENT SESSION DISPOSED **"
          let s2 := { s1 with
            mSessions := s1.mSessions.eraseIdx n,
            trace := s1.trace ++ [Event.deleteSession session] }
          purgeLoop e fuel (n + 1) s2
        else
          purgeLoop e fuel (n + 1) s
      | none => s
    else
      s

/-- The function `OpenNICServer::purgeDeadSesssions`; the loop takes at most
one round per session of the list it starts with. -/
def purgeDeadSesssions (e : Env) (s : OpenNICServer) : OpenNICServer :=
  purgeLoop e s.mSessions.length 0 s

/-- The function `OpenNICServer::runOnce`; it calls `refreshResolvers()` with
the default argument of the header, which is not forced. -/
def runOnce (e : Env) (s : OpenNICServer) : OpenNICServer :=
  let s1 := readSettings e s
  let s2 := refreshResolvers e s1 false
  if s2.mSessions.length ≠ 0 then
    pruneLog (announcePackets e (purgeDeadSesssions e s2))
  else
    s2

/-- The function `OpenNICServer::timerEvent` for the timer with the given id;
an id of neither timer is left to the base class. -/
def timerEvent (e : Env) (s : OpenNICServer) (timerId : Int) : OpenNICServer :=
  if timerId = s.mFastTimer then
    runOnce e s
  else if timerId = s.mRefreshTimer then
    refreshResolvers e s true
  else
    s

/-! ## Sample data -/

/-- A tier-1 sample candidate with the given address text. -/
def sampleItem (address : String) : OpenNICResolverPoolItem := ⟨address, "T1"⟩

/-- A sample order key: the number the address text spells in base 256. -/
def sampleKey (item : OpenNICResolverPoolItem) : Nat :=
  item.hostAddress.toList.foldl (fun k c => 256 * k + c.toNat) 0

/-- A sample environment: items are equal when their addresses are, they are
ordered by `sampleKey`, ordered insertion follows that order, the shuffle
reverses the pool and every probe succeeds. -/
def sampleEnv : Env where
  itemEq := fun a b => a.hostAddress == b.hostAddress
  itemLe := fun a b => decide (sampleKey a ≤ sampleKey b)
  insort := fun pool item => List.orderedInsert (fun a b => sampleKey a ≤ sampleKey b) item pool
  randomize := List.reverse
  alive := fun _ => true
  itemToString := fun item => item.hostAddress
  clock := fun _ => "120101000000"
  bootstrapT1List := ["10.0.0.2", " 10.0.0.1 ", "", "10.0.0.3"]
  bootstrapT2List := ["10.0.1.1"]
  versionString := "0.1"
  listenOk := true
  pendingConnections := []
  bytesAvailable := fun _ => 0
  clientPacket := fun _ => []
  saveBootstrapT1List := fun _ => true
  saveTestDomains := fun _ => true
  snapshotT1List := ["10.0.0.2", " 10.0.0.1 ", "", "10.0.0.3"]
  snapshotTestDomains := ["opennic.glue"]
  systemResolverList := ""
  stringToInt := fun _ => 0

/-- The sample environment with a candidate `b` whose probe fails. -/
def sampleEnvDead : Env :=
  { sampleEnv with alive := fun item => item.hostAddress != "b" }

/-- The server object as the member initialisers of the constructor leave it,
before the constructor body runs, over a given settings store. -/
def constructed (settings : Settings) : OpenNICServer where
  mRefreshTimerPeriod := 0
  mResolverCacheSize := 0
  mEnabled := true
  mRefreshTimer := -1
  mFastTimer := -1
  mResolversInitialized := false
  mTcpListenPort := DEFAULT_TCP_LISTEN_PORT
  mUpdatingDNS := false
  mResolverPool := []
  mResolverCache := []
  mLog := []
  mAsyncMessage := ""
  mSessions := []
  mServerListening := false
  settings := settings
  timers := []
  nextTimerId := 1
  clockReads := 0
  trace := []
  ghostPoolCountAtReplace := 0
  ghostBodyRuns := 0

/-- The constructor `OpenNICServer::OpenNICServer`: the member initialisers
and then the body. -/
def construct (e : Env) (settings : Settings) : OpenNICServer :=
  let s1 := readSettings e (constructed settings)
  let s2 := (initializeServer e s1).1
  let r := startTimer s2 (mulInt32 1000 DEFAULT_FAST_TIMER)
  { r.1 with mFastTimer := r.2 }

/-- A sample session: open or closed, and valid. -/
def sampleSession (descriptor : Nat) (isOpen : Bool) : QTcpSocket :=
  ⟨descriptor, isOpen, true⟩

/-- The sample environment in which the session with descriptor 7 delivers the
given packet and every other session delivers an empty one. -/
def sampleClientEnv (packet : Packet) : Env :=
  { sampleEnv with clientPacket := fun session =>
      if session.descriptor = 7 then packet else [] }

/-- The sample environment with the given bootstrap lists. -/
def sampleBootEnv (t1List t2List : List String) : Env :=
  { sampleEnv with bootstrapT1List := t1List, bootstrapT2List := t2List }

/-- A sample state: initialised, guard clear, with the given target size, pool
and active cache. -/
def sampleServer (size : Int) (pool cache : OpenNICResolverPool) : OpenNICServer :=
  { constructed ⟨none, none, some size⟩ with
    mResolverCacheSize := size, mResolversInitialized := true,
    mResolverPool := pool, mResolverCache := cache }

/-! ## Vocabulary of the statements -/

/-- The install calls for the given items, in order, the first one at slot
`n+1`. -/
def installEvents : OpenNICResolverPool → Nat → List Event
  | [], _ => []
  | item :: rest, n =>
    Event.insertSystemResolver item.hostAddress ((n : Int) + 1) :: installEvents rest (n + 1)

/-- The proposal of `updateDNS`: the first `min(resolverCount, poolSize)`
candidates of the sorted universe pool. -/
def proposal (e : Env) (s : OpenNICServer) (resolverCount : Int) : OpenNICResolverPool :=
  (OpenNICResolverPool.sort e s.mResolverPool).take resolverCount.toNat

/-- The candidates a health check probes: those up to and including the first
one whose probe fails. -/
def probedItems (e : Env) : OpenNICResolverPool → OpenNICResolverPool
  | [] => []
  | item :: rest => if e.alive item then item :: probedItems e rest else [item]

/-- The arguments of the `updateDNS` calls recorded in a trace, in call order. -/
def updateDNSCalls (tr : List Event) : List Int :=
  tr.filterMap (fun ev => match ev with
    | Event.updateDNS resolverCount => some resolverCount
    | _ => none)

/-- The install calls recorded in a trace, in call order. -/
def installCalls (tr : List Event) : List (String × Int) :=
  tr.filterMap (fun ev => match ev with
    | Event.insertSystemResolver address index => some (address, index)
    | _ => none)

/-- The candidates probed according to a trace, in call order. -/
def probeCalls (tr : List Event) : OpenNICResolverPool :=
  tr.filterMap (fun ev => match ev with
    | Event.alive item => some item
    | _ => none)

/-- The pool after the non-empty trimmed addresses of a bootstrap list were
inserted, in list order, as candidates of the given tier. -/
def insortAll (e : Env) (kind : String) : List String → OpenNICResolverPool → OpenNICResolverPool
  | [], pool => pool
  | address :: rest, pool =>
    if !(trimmed address).isEmpty then
      insortAll e kind rest (e.insort pool ⟨trimmed address, kind⟩)
    else
      insortAll e kind rest pool

/-- The universe pool of `bootstrapResolvers` after the tier-1 candidates were
inserted and shuffled. -/
def bootstrapPool (e : Env) : OpenNICResolverPool :=
  e.randomize (insortAll e "T1" e.bootstrapT1List [])

/-- The operations of the refresh controller that change the active cache or
its target size. -/
inductive Op where
  | setResolverCacheSize (size : Int)
  | refreshResolvers (force : Bool)
  | bootstrapResolvers
  | coldBoot
  | updateDNS
deriving DecidableEq, Repr

/-- One operation, run in the environment it meets; `updateDNS` is called with
`resolverCacheSize()`, as every caller in the file does. -/
def step (s : OpenNICServer) (c : Env × Op) : OpenNICServer :=
  match c.2 with
  | Op.setResolverCacheSize size => setResolverCacheSize c.1 s size
  | Op.refreshResolvers force => refreshResolvers c.1 s force
  | Op.bootstrapResolvers => (bootstrapResolvers c.1 s).1
  | Op.coldBoot => coldBoot c.1 s
  | Op.updateDNS => (updateDNS c.1 s s.mResolverCacheSize).1

/-- A sequence of operations, run from a given state. -/
def run (s : OpenNICServer) (ops : List (Env × Op)) : OpenNICServer :=
  ops.foldl step s

/-- The invariant of the active cache: the guard is clear, the target size is
not negative, and the cache is no larger than the target size and than the
universe pool was at the last replacement. -/
def CacheInv (s : OpenNICServer) : Prop :=
  s.mUpdatingDNS = false ∧ 0 ≤ s.mResolverCacheSize ∧
  (s.mResolverCache.length : Int) ≤ s.mResolverCacheSize ∧
  s.mResolverCache.length ≤ s.ghostPoolCountAtReplace

/-- The fields the cache invariant reads. -/
def cacheView (s : OpenNICServer) : Bool × Int × OpenNICResolverPool × Nat :=
  (s.mUpdatingDNS, s.mResolverCacheSize, s.mResolverCache, s.ghostPoolCountAtReplace)

/-- The last `MAX_LOG_LINES` lines of a list of lines (all of them when there
are no more). -/
def keepLast (lines : List String) : List String :=
  lines.drop (lines.length - MAX_LOG_LINES)

/-- The lines that logging the given messages appends, the first one stamped
at the clock reading `c`. -/
def logLines (e : Env) : Nat → List String → List String
  | _, [] => []
  | c, msg :: rest => (e.clock c ++ "|" ++ msg) :: logLines e (c + 1) rest

/-- The log `later` is the log `earlier` after at most `k` further lines were
appended to it by `log`. -/
def LogExt (k : Nat) (earlier later : List String) : Prop :=
  later = earlier ∨ ∃ lines : List String, lines.length ≤ k ∧ later = keepLast (earlier ++ lines)

/-- Whether a session is open and valid. -/
def openValid (session : QTcpSocket) : Bool :=
  session.isOpen && session.isValid

/-- The packets sent according to a trace, each with its session, in call
order. -/
def sentPackets (tr : List Event) : List (QTcpSocket × Packet) :=
  tr.filterMap (fun ev => match ev with
    | Event.send session packet => some (session, packet)
    | _ => none)

/-- The calls that can reach a constructed server. -/
inductive ServerOp where
  | updateDNS (resolverCount : Int)
  | setResolverCacheSize (size : Int)
  | setRefreshPeriod (period : Int)
  | refreshResolvers (force : Bool)
  | coldBoot
  | readyRead
  | runOnce
  | newConnection
  | timerEvent (timerId : Int)
deriving DecidableEq, Repr

/-- One completed call, run in the environment it meets. -/
def serverStep (s : OpenNICServer) (c : Env × ServerOp) : OpenNICServer :=
  match c.2 with
  | ServerOp.updateDNS resolverCount => (updateDNS c.1 s resolverCount).1
  | ServerOp.setResolverCacheSize size => setResolverCacheSize c.1 s size
  | ServerOp.setRefreshPeriod period => setRefreshPeriod c.1 s period
  | ServerOp.refreshResolvers force => refreshResolvers c.1 s force
  | ServerOp.coldBoot => coldBoot c.1 s
  | ServerOp.readyRead => readyRead c.1 s
  | ServerOp.runOnce => runOnce c.1 s
  | ServerOp.newConnection => newConnection c.1 s
  | ServerOp.timerEvent timerId => timerEvent c.1 s timerId

/-- A sequence of completed calls, run from a given state. -/
def serverRun (s : OpenNICServer) (ops : List (Env × ServerOp)) : OpenNICServer :=
  ops.foldl serverStep s

/-- The fields the guard invariant reads: the guard bit, the number of
`updateDNS` calls that entered the body, and the `updateDNS` calls recorded. -/
def guardView (s : OpenNICServer) : Bool × Nat × List Int :=
  (s.mUpdatingDNS, s.ghostBodyRuns, updateDNSCalls s.trace)

/-- The guard invariant: the guard is clear, and as many calls of `updateDNS`
entered the body as were made, the calls made inside other member functions
included. -/
def GuardInv (s : OpenNICServer) : Prop :=
  s.mUpdatingDNS = false ∧ s.ghostBodyRuns = (updateDNSCalls s.trace).length

/-- A sequence of `refreshResolvers(force)` calls, each in the environment it
meets, run from a given state. -/
def refreshAll (s : OpenNICServer) (calls : List (Env × Bool)) : OpenNICServer :=
  calls.foldl (fun t c => refreshResolvers c.1 t c.2) s

/-- Along a sequence of `refreshResolvers(force)` calls the target cache size
stays 1 and the universe pool stays non-empty: both hold after every call. -/
def StaysSingle : OpenNICServer → List (Env × Bool) → Prop
  | _, [] => True
  | s, c :: rest =>
    (refreshResolvers c.1 s c.2).mResolverCacheSize = 1 ∧
    (refreshResolvers c.1 s c.2).mResolverPool ≠ [] ∧
    StaysSingle (refreshResolvers c.1 s c.2) rest

/-- The number of proposed candidates that the active cache does not contain. -/
def differenceCount (e : Env) (cache proposed : OpenNICResolverPool) : Nat :=
  proposed.countP (fun item => !(OpenNICResolverPool.contains e cache item))

/-- The number of proposed candidates that the active cache contains. -/
def sharedCount (e : Env) (cache proposed : OpenNICResolverPool) : Nat :=
  proposed.countP (fun item => OpenNICResolverPool.contains e cache item)

/-! ## The hysteresis policy: theorems -/

theorem diffCountLoop_eq (e : Env) (cache : OpenNICResolverPool) :
    ∀ (proposed : OpenNICResolverPool) (d : Nat),
      diffCountLoop e cache proposed d = d + differenceCount e cache proposed := by
  intro proposed
  induction proposed with
  | nil => intro d; simp [diffCountLoop, differenceCount]
  | cons item rest ih =>
    intro d
    unfold differenceCount at ih ⊢
    by_cases h : OpenNICResolverPool.contains e cache item = true
    · simp [diffCountLoop, h, ih]
    · simp only [Bool.not_eq_true] at h
      simp [diffCountLoop, h, ih]
      omega

theorem shared_add_difference (e : Env) (cache proposed : OpenNICResolverPool) :
    sharedCount e cache proposed + differenceCount e cache proposed = proposed.length := by
  unfold sharedCount differenceCount
  induction proposed with
  | nil => simp
  | cons item rest ih =>
    by_cases h : OpenNICResolverPool.contains e cache item = true
    · simp [List.countP_cons, h]; omega
    · simp only [Bool.not_eq_true] at h
      simp [List.countP_cons, h]; omega

/-- What the code computes in the first branch: with at least two proposed
candidates and as many cached ones, the answer is whether the difference count
reaches the integer quotient of the cache size by two. -/
theorem shouldReplace_churn_floor (e : Env) (s : OpenNICServer)
    (proposed : OpenNICResolverPool) (h2 : 2 ≤ proposed.length)
    (hn : proposed.length = s.mResolverCache.length) :
    shouldReplaceWithProposed e s proposed
      = decide (s.mResolverCache.length / 2 ≤ differenceCount e s.mResolverCache proposed) := by
  unfold shouldReplaceWithProposed
  rw [if_pos ⟨h2, hn⟩]
  simp [diffCountLoop_eq]

theorem shouldReplace_congr (e : Env) (s t : OpenNICServer)
    (h : s.mResolverCache = t.mResolverCache) (proposed : OpenNICResolverPool) :
    shouldReplaceWithProposed e s proposed = shouldReplaceWithProposed e t proposed := by
  unfold shouldReplaceWithProposed
  rw [h]

/-- C1, evaluated at the failing input: with the cache `[a, b, c]` and the
proposal `[a, b, x]` one proposed candidate in three is not in the cache, which
is less than half of the set, and the function still answers true. -/
theorem shouldReplace_one_of_three_different :
    shouldReplaceWithProposed sampleEnv
        (sampleServer 3 [] [sampleItem "a", sampleItem "b", sampleItem "c"])
        [sampleItem "a", sampleItem "b", sampleItem "x"] = true ∧
      differenceCount sampleEnv [sampleItem "a", sampleItem "b", sampleItem "c"]
        [sampleItem "a", sampleItem "b", sampleItem "x"] = 1 ∧
      ¬ (2 * 1 ≥ [sampleItem "a", sampleItem "b", sampleItem "c"].length) := by
  decide

theorem countP_or_of_disjoint {α : Type} (f g : α → Bool) :
    ∀ l : List α, (∀ a ∈ l, ¬ (f a = true ∧ g a = true)) →
      l.countP (fun a => f a || g a) = l.countP f + l.countP g := by
  intro l
  induction l with
  | nil => intro _; rfl
  | cons a rest ih =>
    intro h
    have hrest := ih (fun x hx => h x (List.mem_cons_of_mem a hx))
    have ha := h a (List.mem_cons_self a rest)
    cases hf : f a <;> cases hg : g a
    · simp [List.countP_cons, hf, hg, hrest]
    · simp [List.countP_cons, hf, hg, hrest]; omega
    · simp [List.countP_cons, hf, hg, hrest]; omega
    · exact absurd ⟨hf, hg⟩ ha

/-- Among pairwise different candidates at most one equals a given one. -/
theorem countP_itemEq_of_distinct (e : Env)
    (hsymm : ∀ a b, e.itemEq a b = true → e.itemEq b a = true)
    (htrans : ∀ a b c, e.itemEq a b = true → e.itemEq b c = true → e.itemEq a c = true)
    (p : OpenNICResolverPoolItem) :
    ∀ cache : OpenNICResolverPool, cache.Pairwise (fun a b => e.itemEq a b = false) →
      cache.countP (fun a => e.itemEq p a)
        = if OpenNICResolverPool.contains e cache p = true then 1 else 0 := by
  intro cache
  induction cache with
  | nil => intro _; rfl
  | cons a rest ih =>
    intro hd
    rw [List.pairwise_cons] at hd
    have hrest := ih hd.2
    cases hpa : e.itemEq p a with
    | true =>
      have hap : e.itemEq a p = true := hsymm p a hpa
      have hnone : OpenNICResolverPool.contains e rest p = false := by
        unfold OpenNICResolverPool.contains
        rw [List.any_eq_false]
        intro x hx hxp
        have hax : e.itemEq a x = true := htrans a p x hap (hsymm x p hxp)
        rw [hd.1 x hx] at hax
        exact Bool.noConfusion hax
      rw [hnone] at hrest
      have hc : OpenNICResolverPool.contains e (a :: rest) p = true := by
        simp [OpenNICResolverPool.contains, hap]
      rw [hc]
      simp only [if_true]
      rw [List.countP_cons, hrest, hpa]
      simp
    | false =>
      have hap : e.itemEq a p = false := by
        cases h : e.itemEq a p with
        | false => rfl
        | true => rw [hsymm a p h] at hpa; exact Bool.noConfusion hpa
      have hc : OpenNICResolverPool.contains e (a :: rest) p
          = OpenNICResolverPool.contains e rest p := by
        simp [OpenNICResolverPool.contains, hap]
      rw [hc, List.countP_cons, hrest, hpa]
      simp

/-- Over an equality that is symmetric and transitive, two pools of pairwise
different candidates share the same number of members whichever of them is
counted. -/
theorem sharedCount_comm (e : Env)
    (hsymm : ∀ a b, e.itemEq a b = true → e.itemEq b a = true)
    (htrans : ∀ a b c, e.itemEq a b = true → e.itemEq b c = true → e.itemEq a c = true)
    (cache : OpenNICResolverPool) (hc : cache.Pairwise (fun a b => e.itemEq a b = false)) :
    ∀ proposed : OpenNICResolverPool,
      proposed.Pairwise (fun a b => e.itemEq a b = false) →
      sharedCount e cache proposed = sharedCount e proposed cache := by
  intro proposed
  induction proposed with
  | nil =>
    intro _
    simp [sharedCount, OpenNICResolverPool.contains]
  | cons p rest ih =>
    intro hd
    rw [List.pairwise_cons] at hd
    have hrest := ih hd.2
    unfold sharedCount at hrest ⊢
    have hsplit : cache.countP (fun a => OpenNICResolverPool.contains e (p :: rest) a)
        = cache.countP (fun a => e.itemEq p a)
          + cache.countP (fun a => OpenNICResolverPool.contains e rest a) := by
      have hfun : (fun a => OpenNICResolverPool.contains e (p :: rest) a)
          = (fun a => e.itemEq p a || OpenNICResolverPool.contains e rest a) := by
        funext a
        simp [OpenNICResolverPool.contains]
      rw [hfun]
      apply countP_or_of_disjoint
      intro a _ hboth
      obtain ⟨hpa, hra⟩ := hboth
      unfold OpenNICResolverPool.contains at hra
      rw [List.any_eq_true] at hra
      obtain ⟨x, hx, hxa⟩ := hra
      have hpx : e.itemEq p x = true := htrans p a x hpa (hsymm x a hxa)
      rw [hd.1 x hx] at hpx
      exact Bool.noConfusion hpx
    rw [hsplit, countP_itemEq_of_distinct e hsymm htrans p cache hc, List.countP_cons, hrest]
    cases OpenNICResolverPool.contains e cache p
    · simp
    · simp
      omega

/-- C5: with four cached and four proposed candidates the function answers true
when the two sets share exactly two members, and false when they share exactly
three.  The shared members are counted as the proposed candidates that the
cache contains; when the candidates of each set are pairwise different (under a
symmetric and transitive equality) this is also the number of cached candidates
that the proposal contains. -/
theorem shouldReplace_size_four (e : Env) (s : OpenNICServer)
    (proposed : OpenNICResolverPool) (hp : proposed.length = 4)
    (ha : s.mResolverCache.length = 4) :
    (sharedCount e s.mResolverCache proposed = 2 →
        shouldReplaceWithProposed e s proposed = true) ∧
    (sharedCount e s.mResolverCache proposed = 3 →
        shouldReplaceWithProposed e s proposed = false) ∧
    ((∀ a b, e.itemEq a b = true → e.itemEq b a = true) →
      (∀ a b c, e.itemEq a b = true → e.itemEq b c = true → e.itemEq a c = true) →
      s.mResolverCache.Pairwise (fun a b => e.itemEq a b = false) →
      proposed.Pairwise (fun a b => e.itemEq a b = false) →
      sharedCount e s.mResolverCache proposed = sharedCount e proposed s.mResolverCache) := by
  have hsum := shared_add_difference e s.mResolverCache proposed
  rw [shouldReplace_churn_floor e s proposed (by omega) (by omega), ha]
  refine ⟨?_, ?_, ?_⟩
  · intro h
    have : differenceCount e s.mResolverCache proposed = 2 := by omega
    rw [this]; decide
  · intro h
    have : differenceCount e s.mResolverCache proposed = 1 := by omega
    rw [this]; decide
  · intro hsymm htrans hc hd
    exact sharedCount_comm e hsymm htrans s.mResolverCache hc proposed hd

theorem sampleEnv_itemEq_symm (a b : OpenNICResolverPoolItem) :
    sampleEnv.itemEq a b = true → sampleEnv.itemEq b a = true := by
  simp only [sampleEnv, beq_iff_eq]
  exact Eq.symm

theorem sampleEnv_itemEq_trans (a b c : OpenNICResolverPoolItem) :
    sampleEnv.itemEq a b = true → sampleEnv.itemEq b c = true → sampleEnv.itemEq a c = true := by
  simp only [sampleEnv, beq_iff_eq]
  exact Eq.trans

theorem shouldReplace_size_four_witness :
    (sharedCount sampleEnv
          [sampleItem "a", sampleItem "b", sampleItem "c", sampleItem "d"]
          [sampleItem "a", sampleItem "b", sampleItem "x", sampleItem "y"] = 2 ∧
        shouldReplaceWithProposed sampleEnv
          (sampleServer 4 [] [sampleItem "a", sampleItem "b", sampleItem "c", sampleItem "d"])
          [sampleItem "a", sampleItem "b", sampleItem "x", sampleItem "y"] = true) ∧
    (sharedCount sampleEnv
          [sampleItem "a", sampleItem "b", sampleItem "c", sampleItem "d"]
          [sampleItem "a", sampleItem "b", sampleItem "c", sampleItem "y"] = 3 ∧
        shouldReplaceWithProposed sampleEnv
          (sampleServer 4 [] [sampleItem "a", sampleItem "b", sampleItem "c", sampleItem "d"])
          [sampleItem "a", sampleItem "b", sampleItem "c", sampleItem "y"] = false) ∧
    sharedCount sampleEnv
        [sampleItem "a", sampleItem "b", sampleItem "c", sampleItem "d"]
        [sampleItem "a", sampleItem "b", sampleItem "c", sampleItem "y"]
      = sharedCount sampleEnv
        [sampleItem "a", sampleItem "b", sampleItem "c", sampleItem "y"]
        [sampleItem "a", sampleItem "b", sampleItem "c", sampleItem "d"] :=
  ⟨⟨by decide,
    (shouldReplace_size_four sampleEnv
      (sampleServer 4 [] [sampleItem "a", sampleItem "b", sampleItem "c", sampleItem "d"])
      [sampleItem "a", sampleItem "b", sampleItem "x", sampleItem "y"]
      (by decide) (by decide)).1 (by decide)⟩,
   ⟨by decide,
    (shouldReplace_size_four sampleEnv
      (sampleServer 4 [] [sampleItem "a", sampleItem "b", sampleItem "c", sampleItem "d"])
      [sampleItem "a", sampleItem "b", sampleItem "c", sampleItem "y"]
      (by decide) (by decide)).2.1 (by decide)⟩,
   (shouldReplace_size_four sampleEnv
      (sampleServer 4 [] [sampleItem "a", sampleItem "b", sampleItem "c", sampleItem "d"])
      [sampleItem "a", sampleItem "b", sampleItem "c", sampleItem "y"]
      (by decide) (by decide)).2.2 sampleEnv_itemEq_symm sampleEnv_itemEq_trans
      (by decide) (by decide)⟩

/-- C6: when the proposal and the active cache hold one candidate each, the
function answers true exactly when the proposed candidate equals the cached
one. -/
theorem shouldReplace_single (e : Env) (s : OpenNICServer)
    (p a : OpenNICResolverPoolItem) (ha : s.mResolverCache = [a]) :
    (shouldReplaceWithProposed e s [p] = true ↔ e.itemEq p a = true) := by
  unfold shouldReplaceWithProposed
  rw [ha]
  simp

theorem shouldReplace_single_witness :
    (shouldReplaceWithProposed sampleEnv (sampleServer 1 [] [sampleItem "a"]) [sampleItem "a"]
        = true ↔ sampleEnv.itemEq (sampleItem "a") (sampleItem "a") = true) :=
  shouldReplace_single sampleEnv (sampleServer 1 [] [sampleItem "a"])
    (sampleItem "a") (sampleItem "a") rfl

theorem shouldReplace_of_length_ne (e : Env) (s : OpenNICServer)
    (proposed : OpenNICResolverPool) (h : proposed.length ≠ s.mResolverCache.length) :
    shouldReplaceWithProposed e s proposed = true := by
  unfold shouldReplaceWithProposed
  have h1 : ¬ (proposed.length ≥ 2 ∧ proposed.length = s.mResolverCache.length) :=
    fun hc => h hc.2
  have h2 : ¬ (proposed.length = 1 ∧ s.mResolverCache.length = 1) :=
    fun hc => h (hc.1.trans hc.2.symm)
  rw [if_neg h1, if_neg h2]

theorem shouldReplace_of_cache_nil (e : Env) (s : OpenNICServer)
    (proposed : OpenNICResolverPool) (h : s.mResolverCache = []) :
    shouldReplaceWithProposed e s proposed = true := by
  unfold shouldReplaceWithProposed
  rw [h]
  have h1 : ¬ (proposed.length ≥ 2 ∧ proposed.length = ([] : OpenNICResolverPool).length) := by
    simp only [List.length_nil]; omega
  have h2 : ¬ (proposed.length = 1 ∧ ([] : OpenNICResolverPool).length = 1) := by
    simp
  rw [if_neg h1, if_neg h2]

/-- When the function answers false, the proposal has the size of the cache. -/
theorem length_eq_of_not_shouldReplace (e : Env) (s : OpenNICServer)
    (proposed : OpenNICResolverPool) (h : shouldReplaceWithProposed e s proposed = false) :
    proposed.length = s.mResolverCache.length := by
  by_contra hne
  rw [shouldReplace_of_length_ne e s proposed hne] at h
  exact Bool.noConfusion h

/-- C7: when the proposal and the active cache differ in size, and also when
the active cache is empty, the function answers true. -/
theorem shouldReplace_count_mismatch (e : Env) (s : OpenNICServer)
    (proposed : OpenNICResolverPool)
    (h : proposed.length ≠ s.mResolverCache.length ∨ s.mResolverCache = []) :
    shouldReplaceWithProposed e s proposed = true := by
  rcases h with h | h
  · exact shouldReplace_of_length_ne e s proposed h
  · exact shouldReplace_of_cache_nil e s proposed h

theorem shouldReplace_count_mismatch_witness :
    shouldReplaceWithProposed sampleEnv (sampleServer 3 [] []) [] = true ∧
    shouldReplaceWithProposed sampleEnv (sampleServer 3 [] [sampleItem "a", sampleItem "b"])
      [sampleItem "a", sampleItem "b", sampleItem "c"] = true :=
  ⟨shouldReplace_count_mismatch sampleEnv (sampleServer 3 [] []) [] (Or.inr rfl),
   shouldReplace_count_mismatch sampleEnv (sampleServer 3 [] [sampleItem "a", sampleItem "b"])
      [sampleItem "a", sampleItem "b", sampleItem "c"] (Or.inl (by decide))⟩

/-! ## Loops in closed form -/

theorem replaceLoop_eq (e : Env) :
    ∀ (items : OpenNICResolverPool) (n : Nat) (s : OpenNICServer),
      ∃ l c, replaceLoop e items n s =
        { s with mResolverCache := s.mResolverCache ++ items,
                 trace := s.trace ++ installEvents items n,
                 mLog := l, clockReads := c } := by
  intro items
  induction items with
  | nil => intro n s; exact ⟨s.mLog, s.clockReads, by simp [replaceLoop, installEvents]⟩
  | cons item rest ih =>
    intro n s
    obtain ⟨l, c, h⟩ := ih (n + 1)
      (log e { insertSystemResolver s item.hostAddress ((n : Int) + 1) with
        mResolverCache :=
          (insertSystemResolver s item.hostAddress ((n : Int) + 1)).mResolverCache ++ [item] }
        (" > " ++ e.itemToString item))
    refine ⟨l, c, ?_⟩
    simp only [replaceLoop]
    rw [h]
    simp [log, insertSystemResolver, installEvents]

theorem proposeLoop_eq (resolverCount : Int) :
    ∀ (pool : OpenNICResolverPool) (n : Nat) (proposed : OpenNICResolverPool),
      proposeLoop resolverCount pool n proposed
        = proposed ++ pool.take (resolverCount - (n : Int)).toNat := by
  intro pool
  induction pool with
  | nil => intro n proposed; simp [proposeLoop]
  | cons item rest ih =>
    intro n proposed
    by_cases h : (n : Int) < resolverCount
    · have hk : (resolverCount - (n : Int)).toNat
          = (resolverCount - ((n + 1 : Nat) : Int)).toNat + 1 := by
        push_cast; omega
      simp only [proposeLoop, if_pos h, ih, hk, List.take_succ_cons]
      simp
    · have hk : (resolverCount - (n : Int)).toNat = 0 := by omega
      simp [proposeLoop, if_neg h, hk]

theorem proposeLoop_eq_proposal (e : Env) (s : OpenNICServer) (resolverCount : Int) :
    proposeLoop resolverCount (OpenNICResolverPool.sort e s.mResolverPool) 0 []
      = proposal e s resolverCount := by
  rw [proposeLoop_eq]
  simp [proposal]

/-! ## The effect of `updateDNS` -/

theorem replaceActiveResolvers_eq (e : Env) (s : OpenNICServer)
    (proposed : OpenNICResolverPool) :
    ∃ l c, replaceActiveResolvers e s proposed =
      { s with
          mResolverCache := OpenNICResolverPool.sort e proposed,
          ghostPoolCountAtReplace := s.mResolverPool.length,
          trace := s.trace ++ installEvents (OpenNICResolverPool.sort e proposed) 0,
          mLog := l, clockReads := c } := by
  unfold replaceActiveResolvers
  obtain ⟨l, c, h⟩ := replaceLoop_eq e (OpenNICResolverPool.sort e proposed) 0
    (log e { s with mResolverCache := [],
                    ghostPoolCountAtReplace := s.mResolverPool.length }
      ("Applying new resolver cache of (" ++
        number (OpenNICResolverPool.sort e proposed).length ++ ") items..."))
  refine ⟨l, c, ?_⟩
  simp only [h]
  simp [log]

theorem updateDNS_guarded (e : Env) (s : OpenNICServer) (resolverCount : Int)
    (hg : s.mUpdatingDNS = true) :
    updateDNS e s resolverCount
      = ({ s with trace := s.trace ++ [Event.updateDNS resolverCount] }, 0) := by
  simp [updateDNS, hg]

theorem updateDNS_accept (e : Env) (s : OpenNICServer) (resolverCount : Int)
    (hg : s.mUpdatingDNS = false)
    (ha : shouldReplaceWithProposed e s (proposal e s resolverCount) = true) :
    ∃ l c, updateDNS e s resolverCount =
      ({ s with
          mResolverPool := OpenNICResolverPool.sort e s.mResolverPool,
          mResolverCache := OpenNICResolverPool.sort e (proposal e s resolverCount),
          ghostPoolCountAtReplace := (OpenNICResolverPool.sort e s.mResolverPool).length,
          ghostBodyRuns := s.ghostBodyRuns + 1,
          trace := s.trace ++ Event.updateDNS resolverCount ::
            installEvents (OpenNICResolverPool.sort e (proposal e s resolverCount)) 0,
          mLog := l, clockReads := c },
       ((OpenNICResolverPool.sort e (proposal e s resolverCount)).length : Int)) := by
  unfold updateDNS
  simp only [hg, Bool.not_false, if_true]
  simp only [log, proposeLoop_eq_proposal]
  have hc : ∀ (s5 : OpenNICServer) (p : OpenNICResolverPool),
      s5.mResolverCache = s.mResolverCache →
      shouldReplaceWithProposed e s5 p = shouldReplaceWithProposed e s p :=
    fun s5 p h => shouldReplace_congr e s5 s h p
  rw [hc _ _ (by rfl), ha]
  simp only [if_true]
  obtain ⟨l, c, h⟩ := replaceActiveResolvers_eq e
    { s with
      mUpdatingDNS := true,
      mResolverPool := OpenNICResolverPool.sort e s.mResolverPool,
      mLog := pruneLines (pruneLines (pruneLines
        (s.mLog ++ [e.clock s.clockReads ++ "|" ++ "** UPDATE DNS **"]) ++
          [e.clock (s.clockReads + 1) ++ "|" ++ "Sorting resolver pool."]) ++
          [e.clock (s.clockReads + 1 + 1) ++ "|" ++
            ("Proposing (" ++ number resolverCount ++ ") candidates.")]),
      clockReads := s.clockReads + 1 + 1 + 1,
      trace := s.trace ++ [Event.updateDNS resolverCount],
      ghostBodyRuns := s.ghostBodyRuns + 1 }
    (proposal e s resolverCount)
  refine ⟨l, c, ?_⟩
  rw [h]
  simp [hg]

theorem updateDNS_reject (e : Env) (s : OpenNICServer) (resolverCount : Int)
    (hg : s.mUpdatingDNS = false)
    (hr : shouldReplaceWithProposed e s (proposal e s resolverCount) = false) :
    ∃ l c, updateDNS e s resolverCount =
      ({ s with
          mResolverPool := OpenNICResolverPool.sort e s.mResolverPool,
          ghostBodyRuns := s.ghostBodyRuns + 1,
          trace := s.trace ++ [Event.updateDNS resolverCount],
          mLog := l, clockReads := c }, 0) := by
  unfold updateDNS
  simp only [hg, Bool.not_false, if_true]
  simp only [log, proposeLoop_eq_proposal]
  have hc : ∀ (s5 : OpenNICServer) (p : OpenNICResolverPool),
      s5.mResolverCache = s.mResolverCache →
      shouldReplaceWithProposed e s5 p = shouldReplaceWithProposed e s p :=
    fun s5 p h => shouldReplace_congr e s5 s h p
  rw [hc _ _ (by rfl), hr]
  simp only [Bool.false_eq_true, if_false]
  exact ⟨_, _, rfl⟩

/-- C3: while the guard bit is set, `updateDNS` returns 0 and changes nothing:
the resulting state is the given one with only the entry of the call recorded,
so the pool and its order, the active cache, the guard bit and the log are as
before and the install calls issued so far are the same. -/
theorem updateDNS_reentrant_noop (e : Env) (s : OpenNICServer) (resolverCount : Int)
    (hg : s.mUpdatingDNS = true) :
    (updateDNS e s resolverCount).2 = 0 ∧
    (updateDNS e s resolverCount).1
      = { s with trace := s.trace ++ [Event.updateDNS resolverCount] } ∧
    (updateDNS e s resolverCount).1.mResolverPool = s.mResolverPool ∧
    (updateDNS e s resolverCount).1.mResolverCache = s.mResolverCache ∧
    (updateDNS e s resolverCount).1.mUpdatingDNS = true ∧
    (updateDNS e s resolverCount).1.mLog = s.mLog ∧
    (updateDNS e s resolverCount).1.trace = s.trace ++ [Event.updateDNS resolverCount] ∧
    installCalls (updateDNS e s resolverCount).1.trace = installCalls s.trace := by
  rw [updateDNS_guarded e s resolverCount hg]
  refine ⟨rfl, rfl, rfl, rfl, hg, rfl, rfl, ?_⟩
  simp [installCalls]

theorem updateDNS_reentrant_noop_witness :
    (updateDNS sampleEnv
        { sampleServer 3 [sampleItem "b", sampleItem "a"] [] with mUpdatingDNS := true } 3).2 = 0 ∧
    (updateDNS sampleEnv
        { sampleServer 3 [sampleItem "b", sampleItem "a"] [] with mUpdatingDNS := true } 3).1.mResolverPool
      = [sampleItem "b", sampleItem "a"] ∧
    (updateDNS sampleEnv
        { sampleServer 3 [sampleItem "b", sampleItem "a"] [] with mUpdatingDNS := true } 3).1.mResolverCache
      = [] :=
  have h := updateDNS_reentrant_noop sampleEnv
    { sampleServer 3 [sampleItem "b", sampleItem "a"] [] with mUpdatingDNS := true } 3 rfl
  ⟨h.1, h.2.2.1, h.2.2.2.1⟩

/-- C8: with the guard clear, when the policy accepts the proposal `updateDNS`
returns the size of the active cache as it is after the call, and the cache is
then the sorted proposal; when the policy rejects the proposal it returns 0
and the active cache is as before. -/
theorem updateDNS_return_value (e : Env) (s : OpenNICServer) (resolverCount : Int)
    (hg : s.mUpdatingDNS = false) :
    (shouldReplaceWithProposed e s (proposal e s resolverCount) = true →
      (updateDNS e s resolverCount).2
          = ((updateDNS e s resolverCount).1.mResolverCache.length : Int) ∧
      (updateDNS e s resolverCount).1.mResolverCache
          = OpenNICResolverPool.sort e (proposal e s resolverCount)) ∧
    (shouldReplaceWithProposed e s (proposal e s resolverCount) = false →
      (updateDNS e s resolverCount).2 = 0 ∧
      (updateDNS e s resolverCount).1.mResolverCache = s.mResolverCache) := by
  constructor
  · intro ha
    obtain ⟨l, c, h⟩ := updateDNS_accept e s resolverCount hg ha
    rw [h]
    exact ⟨rfl, rfl⟩
  · intro hr
    obtain ⟨l, c, h⟩ := updateDNS_reject e s resolverCount hg hr
    rw [h]
    exact ⟨rfl, rfl⟩

theorem updateDNS_return_value_witness :
    ((updateDNS sampleEnv (sampleServer 2
        [sampleItem "c", sampleItem "a", sampleItem "b"] []) 2).2 = 2 ∧
      (updateDNS sampleEnv (sampleServer 2
        [sampleItem "c", sampleItem "a", sampleItem "b"] []) 2).1.mResolverCache
        = [sampleItem "a", sampleItem "b"]) ∧
    ((updateDNS sampleEnv (sampleServer 4
        [sampleItem "y", sampleItem "a", sampleItem "c", sampleItem "b"]
        [sampleItem "a", sampleItem "b", sampleItem "c", sampleItem "d"]) 4).2 = 0 ∧
      (updateDNS sampleEnv (sampleServer 4
        [sampleItem "y", sampleItem "a", sampleItem "c", sampleItem "b"]
        [sampleItem "a", sampleItem "b", sampleItem "c", sampleItem "d"]) 4).1.mResolverCache
        = [sampleItem "a", sampleItem "b", sampleItem "c", sampleItem "d"]) :=
  ⟨by
    have h := (updateDNS_return_value sampleEnv (sampleServer 2
        [sampleItem "c", sampleItem "a", sampleItem "b"] []) 2 rfl).1 (by decide)
    exact ⟨h.1.trans (by rw [h.2]; decide), h.2.trans (by decide)⟩,
   (updateDNS_return_value sampleEnv (sampleServer 4
        [sampleItem "y", sampleItem "a", sampleItem "c", sampleItem "b"]
        [sampleItem "a", sampleItem "b", sampleItem "c", sampleItem "d"]) 4 rfl).2 (by decide)⟩

/-! ## Forced refresh -/

theorem sort_length (e : Env) (pool : OpenNICResolverPool) :
    (OpenNICResolverPool.sort e pool).length = pool.length :=
  List.length_insertionSort _ pool

theorem sort_sorted (e : Env)
    (htotal : ∀ a b, e.itemLe a b = true ∨ e.itemLe b a = true)
    (htrans : ∀ a b c, e.itemLe a b = true → e.itemLe b c = true → e.itemLe a c = true)
    (pool : OpenNICResolverPool) :
    List.Sorted (fun a b => e.itemLe a b = true) (OpenNICResolverPool.sort e pool) := by
  haveI : IsTotal OpenNICResolverPoolItem (fun a b => e.itemLe a b = true) := ⟨htotal⟩
  haveI : IsTrans OpenNICResolverPoolItem (fun a b => e.itemLe a b = true) := ⟨htrans⟩
  exact List.sorted_insertionSort _ pool

theorem sort_take_sort (e : Env)
    (htotal : ∀ a b, e.itemLe a b = true ∨ e.itemLe b a = true)
    (htrans : ∀ a b c, e.itemLe a b = true → e.itemLe b c = true → e.itemLe a c = true)
    (pool : OpenNICResolverPool) (k : Nat) :
    OpenNICResolverPool.sort e ((OpenNICResolverPool.sort e pool).take k)
      = (OpenNICResolverPool.sort e pool).take k := by
  have hs : List.Sorted (fun a b => e.itemLe a b = true)
      ((OpenNICResolverPool.sort e pool).take k) :=
    List.Pairwise.take (sort_sorted e htotal htrans pool)
  exact hs.insertionSort_eq

theorem installEvents_length :
    ∀ (items : OpenNICResolverPool) (n : Nat), (installEvents items n).length = items.length := by
  intro items
  induction items with
  | nil => intro n; rfl
  | cons item rest ih => intro n; simp [installEvents, ih]

theorem installEvents_getElem? :
    ∀ (items : OpenNICResolverPool) (n i : Nat),
      (installEvents items n)[i]? = items[i]?.map
        (fun item => Event.insertSystemResolver item.hostAddress (((n + i : Nat) : Int) + 1)) := by
  intro items
  induction items with
  | nil => intro n i; simp [installEvents]
  | cons item rest ih =>
    intro n i
    cases i with
    | zero => simp [installEvents]
    | succ j =>
      simp only [installEvents, List.getElem?_cons_succ, ih]
      have : n + 1 + j = n + (j + 1) := by omega
      rw [this]

theorem refreshResolvers_of_trigger (e : Env) (s : OpenNICServer) (force : Bool)
    (hinit : s.mResolversInitialized = true)
    (h : force = true ∨ s.mResolverCache.length = 0 ∨
      (s.mResolverCache.length : Int) < s.mResolverCacheSize) :
    refreshResolvers e s force = (updateDNS e s s.mResolverCacheSize).1 := by
  unfold refreshResolvers
  simp only [hinit, Bool.not_true, Bool.false_eq_true, if_false]
  rw [if_pos h]

/-- C2: in an initialised state with the guard clear and an empty active cache,
over a total and transitive candidate order, a forced refresh leaves the active
cache equal to the first `min(t, p)` candidates of the sorted universe pool (`t`
the target size, `p` the pool size), in sorted order, and issues, after entering
`updateDNS(t)`, exactly one install call per cached candidate, at slots
`1..min(t, p)` in that order (the call at position `i`, counted from 0, installs
the cached candidate at position `i` at slot `i+1`). -/
theorem refreshResolvers_forced (e : Env) (s : OpenNICServer)
    (hinit : s.mResolversInitialized = true) (hg : s.mUpdatingDNS = false)
    (hcache : s.mResolverCache = [])
    (htotal : ∀ a b, e.itemLe a b = true ∨ e.itemLe b a = true)
    (htrans : ∀ a b c, e.itemLe a b = true → e.itemLe b c = true → e.itemLe a c = true) :
    (refreshResolvers e s true).mResolverCache
      = (OpenNICResolverPool.sort e s.mResolverPool).take
          (min s.mResolverCacheSize.toNat s.mResolverPool.length) ∧
    (refreshResolvers e s true).mResolverCache.length
      = min s.mResolverCacheSize.toNat s.mResolverPool.length ∧
    List.Sorted (fun a b => e.itemLe a b = true) (refreshResolvers e s true).mResolverCache ∧
    (refreshResolvers e s true).trace
      = s.trace ++ Event.updateDNS s.mResolverCacheSize ::
          installEvents (refreshResolvers e s true).mResolverCache 0 ∧
    (installEvents (refreshResolvers e s true).mResolverCache 0).length
      = min s.mResolverCacheSize.toNat s.mResolverPool.length ∧
    (∀ i : Nat, (installEvents (refreshResolvers e s true).mResolverCache 0)[i]?
      = (refreshResolvers e s true).mResolverCache[i]?.map
          (fun item => Event.insertSystemResolver item.hostAddress ((i : Int) + 1))) := by
  rw [refreshResolvers_of_trigger e s true hinit (Or.inl rfl)]
  obtain ⟨l, c, h⟩ := updateDNS_accept e s s.mResolverCacheSize hg
    (shouldReplace_of_cache_nil e s _ hcache)
  rw [h]
  have hk : (OpenNICResolverPool.sort e s.mResolverPool).take
        (min s.mResolverCacheSize.toNat s.mResolverPool.length)
      = proposal e s s.mResolverCacheSize := by
    unfold proposal
    rw [← sort_length e s.mResolverPool, List.take_eq_take]
    simp
  have hsort : OpenNICResolverPool.sort e (proposal e s s.mResolverCacheSize)
      = proposal e s s.mResolverCacheSize := sort_take_sort e htotal htrans _ _
  have hlen : (proposal e s s.mResolverCacheSize).length
      = min s.mResolverCacheSize.toNat s.mResolverPool.length := by
    unfold proposal
    rw [List.length_take, sort_length]
  simp only [hsort, hk, installEvents_length, hlen]
  refine ⟨trivial, trivial, ?_, trivial, trivial, ?_⟩
  · exact List.Pairwise.take (sort_sorted e htotal htrans s.mResolverPool)
  · intro i
    rw [installEvents_getElem?]
    simp

theorem sampleEnv_total (a b : OpenNICResolverPoolItem) :
    sampleEnv.itemLe a b = true ∨ sampleEnv.itemLe b a = true := by
  simp only [sampleEnv, decide_eq_true_eq]
  exact Nat.le_total _ _

theorem sampleEnv_trans (a b c : OpenNICResolverPoolItem) :
    sampleEnv.itemLe a b = true → sampleEnv.itemLe b c = true → sampleEnv.itemLe a c = true := by
  simp only [sampleEnv, decide_eq_true_eq]
  exact Nat.le_trans

theorem refreshResolvers_forced_witness :
    (refreshResolvers sampleEnv (sampleServer 3
        [sampleItem "e", sampleItem "b", sampleItem "a", sampleItem "d", sampleItem "c"] [])
        true).mResolverCache = [sampleItem "a", sampleItem "b", sampleItem "c"] ∧
    (refreshResolvers sampleEnv (sampleServer 3
        [sampleItem "e", sampleItem "b", sampleItem "a", sampleItem "d", sampleItem "c"] [])
        true).mResolverCache.length = 3 ∧
    (refreshResolvers sampleEnv (sampleServer 3
        [sampleItem "e", sampleItem "b", sampleItem "a", sampleItem "d", sampleItem "c"] [])
        true).trace
      = [Event.updateDNS 3, Event.insertSystemResolver "a" 1,
          Event.insertSystemResolver "b" 2, Event.insertSystemResolver "c" 3] :=
  have h := refreshResolvers_forced sampleEnv (sampleServer 3
    [sampleItem "e", sampleItem "b", sampleItem "a", sampleItem "d", sampleItem "c"] [])
    rfl rfl rfl sampleEnv_total sampleEnv_trans
  ⟨h.1.trans (by decide), h.2.1.trans (by decide),
    h.2.2.2.1.trans (by rw [h.1]; decide)⟩

/-! ## The refresh decision -/

theorem testResolverCacheLoop_eq (e : Env) :
    ∀ (items : OpenNICResolverPool) (s : OpenNICServer),
      ∃ l c, testResolverCacheLoop e items s =
        ({ s with trace := s.trace ++ (probedItems e items).map Event.alive,
                  mLog := l, clockReads := c }, items.all e.alive) := by
  intro items
  induction items with
  | nil => intro s; exact ⟨s.mLog, s.clockReads, by simp [testResolverCacheLoop, probedItems]⟩
  | cons item rest ih =>
    intro s
    by_cases ha : e.alive item = true
    · obtain ⟨l, c, h⟩ := ih { s with trace := s.trace ++ [Event.alive item] }
      refine ⟨l, c, ?_⟩
      simp only [testResolverCacheLoop, ha, Bool.not_true, Bool.false_eq_true, if_false, h]
      simp [probedItems, ha]
    · simp only [Bool.not_eq_true] at ha
      refine ⟨pruneLines (s.mLog ++ [e.clock s.clockReads ++ "|" ++
        ("** ACTIVE RESOLVER " ++ item.hostAddress ++ "' NOT RESPONDING **")]),
        s.clockReads + 1, ?_⟩
      simp [testResolverCacheLoop, probedItems, ha, log]

theorem testResolverCacheLoop_alive (e : Env) :
    ∀ (items : OpenNICResolverPool) (s : OpenNICServer), items.all e.alive = true →
      testResolverCacheLoop e items s =
        ({ s with trace := s.trace ++ items.map Event.alive }, true) := by
  intro items
  induction items with
  | nil => intro s _; simp [testResolverCacheLoop]
  | cons item rest ih =>
    intro s hall
    simp only [List.all_cons, Bool.and_eq_true] at hall
    simp only [testResolverCacheLoop, hall.1, Bool.not_true, Bool.false_eq_true, if_false]
    rw [ih _ hall.2]
    simp

theorem updateDNS_trace (e : Env) (s : OpenNICServer) (resolverCount : Int) :
    ∃ items, (updateDNS e s resolverCount).1.trace
      = s.trace ++ Event.updateDNS resolverCount :: installEvents items 0 := by
  cases hg : s.mUpdatingDNS with
  | true =>
    rw [updateDNS_guarded e s resolverCount hg]
    exact ⟨[], rfl⟩
  | false =>
    cases ha : shouldReplaceWithProposed e s (proposal e s resolverCount) with
    | true =>
      obtain ⟨l, c, h⟩ := updateDNS_accept e s resolverCount hg ha
      rw [h]
      exact ⟨_, rfl⟩
    | false =>
      obtain ⟨l, c, h⟩ := updateDNS_reject e s resolverCount hg ha
      rw [h]
      exact ⟨[], rfl⟩

theorem updateDNSCalls_installEvents :
    ∀ (items : OpenNICResolverPool) (n : Nat), updateDNSCalls (installEvents items n) = [] := by
  intro items
  induction items with
  | nil => intro n; rfl
  | cons item rest ih =>
    intro n
    have := ih (n + 1)
    simpa [updateDNSCalls, installEvents] using this

theorem probeCalls_installEvents :
    ∀ (items : OpenNICResolverPool) (n : Nat), probeCalls (installEvents items n) = [] := by
  intro items
  induction items with
  | nil => intro n; rfl
  | cons item rest ih =>
    intro n
    have := ih (n + 1)
    simpa [probeCalls, installEvents] using this

theorem updateDNSCalls_alive (items : OpenNICResolverPool) :
    updateDNSCalls (items.map Event.alive) = [] := by
  induction items with
  | nil => rfl
  | cons item rest ih => simp [updateDNSCalls]

theorem installCalls_alive (items : OpenNICResolverPool) :
    installCalls (items.map Event.alive) = [] := by
  induction items with
  | nil => rfl
  | cons item rest ih => simp [installCalls]

theorem probeCalls_alive (items : OpenNICResolverPool) :
    probeCalls (items.map Event.alive) = items := by
  induction items with
  | nil => rfl
  | cons item rest ih => simpa [probeCalls] using ih

theorem updateDNSCalls_append (a b : List Event) :
    updateDNSCalls (a ++ b) = updateDNSCalls a ++ updateDNSCalls b := by
  simp [updateDNSCalls]

theorem installCalls_append (a b : List Event) :
    installCalls (a ++ b) = installCalls a ++ installCalls b := by
  simp [installCalls]

theorem probeCalls_append (a b : List Event) :
    probeCalls (a ++ b) = probeCalls a ++ probeCalls b := by
  simp [probeCalls]

/-- The calls one `updateDNS` adds to the trace: its own entry, once, and no
probe. -/
theorem updateDNS_calls (e : Env) (s : OpenNICServer) (resolverCount : Int) :
    updateDNSCalls (updateDNS e s resolverCount).1.trace
      = updateDNSCalls s.trace ++ [resolverCount] ∧
    probeCalls (updateDNS e s resolverCount).1.trace = probeCalls s.trace := by
  obtain ⟨items, h⟩ := updateDNS_trace e s resolverCount
  rw [h]
  constructor
  · rw [updateDNSCalls_append]
    have : updateDNSCalls (Event.updateDNS resolverCount :: installEvents items 0)
        = resolverCount :: updateDNSCalls (installEvents items 0) := by
      simp [updateDNSCalls]
    rw [this, updateDNSCalls_installEvents]
  · rw [probeCalls_append]
    have : probeCalls (Event.updateDNS resolverCount :: installEvents items 0)
        = probeCalls (installEvents items 0) := by
      simp [probeCalls]
    rw [this, probeCalls_installEvents, List.append_nil]

theorem refreshResolvers_of_dead (e : Env) (s : OpenNICServer) (force : Bool)
    (hinit : s.mResolversInitialized = true)
    (h : ¬ (force = true ∨ s.mResolverCache.length = 0 ∨
      (s.mResolverCache.length : Int) < s.mResolverCacheSize))
    (hdead : s.mResolverCache.all e.alive = false) :
    ∃ l c, refreshResolvers e s force =
      (updateDNS e
        { s with trace := s.trace ++ (probedItems e s.mResolverCache).map Event.alive,
                 mLog := l, clockReads := c }
        s.mResolverCacheSize).1 := by
  have hne : s.mResolverCache.length ≠ 0 := fun h0 => h (Or.inr (Or.inl h0))
  obtain ⟨l, c, hl⟩ := testResolverCacheLoop_eq e s.mResolverCache s
  refine ⟨l, c, ?_⟩
  unfold refreshResolvers
  simp only [hinit, Bool.not_true, Bool.false_eq_true, if_false]
  rw [if_neg h, if_pos hne]
  unfold testResolverCache
  simp only [hl, hdead, Bool.not_false, if_true]
  rw [hinit]

theorem refreshResolvers_of_healthy (e : Env) (s : OpenNICServer) (force : Bool)
    (hinit : s.mResolversInitialized = true)
    (h : ¬ (force = true ∨ s.mResolverCache.length = 0 ∨
      (s.mResolverCache.length : Int) < s.mResolverCacheSize))
    (halive : s.mResolverCache.all e.alive = true) :
    refreshResolvers e s force =
      { s with trace := s.trace ++ s.mResolverCache.map Event.alive } := by
  have hne : s.mResolverCache.length ≠ 0 := fun h0 => h (Or.inr (Or.inl h0))
  unfold refreshResolvers
  simp only [hinit, Bool.not_true, Bool.false_eq_true, if_false]
  rw [if_neg h, if_pos hne]
  unfold testResolverCache
  simp only [testResolverCacheLoop_alive e s.mResolverCache s halive, Bool.not_true,
    Bool.false_eq_true, if_false]
  rw [hinit]

/-- C9: in an initialised state `refreshResolvers(force)` calls
`updateDNS(target)` exactly once, without any probe, when `force` is set or the
active cache is empty or smaller than the target size; when none of these holds
it probes the cached candidates in order up to and including the first dead
one and, if there is a dead one, calls `updateDNS(target)` exactly once after
the probes; when every probe passes it calls neither `updateDNS` nor the
installer and leaves the universe pool and the active cache unchanged. -/
theorem refreshResolvers_decision (e : Env) (s : OpenNICServer) (force : Bool)
    (hinit : s.mResolversInitialized = true) :
    ((force = true ∨ s.mResolverCache.length = 0 ∨
        (s.mResolverCache.length : Int) < s.mResolverCacheSize) →
      refreshResolvers e s force = (updateDNS e s s.mResolverCacheSize).1 ∧
      updateDNSCalls (refreshResolvers e s force).trace
        = updateDNSCalls s.trace ++ [s.mResolverCacheSize] ∧
      probeCalls (refreshResolvers e s force).trace = probeCalls s.trace) ∧
    (¬ (force = true ∨ s.mResolverCache.length = 0 ∨
        (s.mResolverCache.length : Int) < s.mResolverCacheSize) →
      s.mResolverCache.all e.alive = false →
      updateDNSCalls (refreshResolvers e s force).trace
        = updateDNSCalls s.trace ++ [s.mResolverCacheSize] ∧
      probeCalls (refreshResolvers e s force).trace
        = probeCalls s.trace ++ probedItems e s.mResolverCache) ∧
    (¬ (force = true ∨ s.mResolverCache.length = 0 ∨
        (s.mResolverCache.length : Int) < s.mResolverCacheSize) →
      s.mResolverCache.all e.alive = true →
      updateDNSCalls (refreshResolvers e s force).trace = updateDNSCalls s.trace ∧
      installCalls (refreshResolvers e s force).trace = installCalls s.trace ∧
      probeCalls (refreshResolvers e s force).trace = probeCalls s.trace ++ s.mResolverCache ∧
      (refreshResolvers e s force).mResolverPool = s.mResolverPool ∧
      (refreshResolvers e s force).mResolverCache = s.mResolverCache) := by
  refine ⟨?_, ?_, ?_⟩
  · intro h
    rw [refreshResolvers_of_trigger e s force hinit h]
    exact ⟨rfl, updateDNS_calls e s s.mResolverCacheSize⟩
  · intro h hdead
    obtain ⟨l, c, hr⟩ := refreshResolvers_of_dead e s force hinit h hdead
    rw [hr]
    have hc := updateDNS_calls e
      { s with trace := s.trace ++ (probedItems e s.mResolverCache).map Event.alive,
               mLog := l, clockReads := c }
      s.mResolverCacheSize
    rw [hc.1, hc.2]
    simp only [updateDNSCalls_append, probeCalls_append, updateDNSCalls_alive,
      probeCalls_alive, List.append_nil]
    exact ⟨trivial, trivial⟩
  · intro h halive
    rw [refreshResolvers_of_healthy e s force hinit h halive]
    simp only [updateDNSCalls_append, probeCalls_append, installCalls_append,
      updateDNSCalls_alive, probeCalls_alive, installCalls_alive, List.append_nil]
    exact ⟨trivial, trivial, trivial, trivial, trivial⟩

theorem refreshResolvers_decision_witness :
    (updateDNSCalls (refreshResolvers sampleEnv
        (sampleServer 3 [sampleItem "b", sampleItem "a"] []) false).trace = [3] ∧
      probeCalls (refreshResolvers sampleEnv
        (sampleServer 3 [sampleItem "b", sampleItem "a"] []) false).trace = []) ∧
    (updateDNSCalls (refreshResolvers sampleEnvDead
        (sampleServer 3 [sampleItem "a", sampleItem "b", sampleItem "c"]
          [sampleItem "a", sampleItem "b", sampleItem "c"]) false).trace = [3] ∧
      probeCalls (refreshResolvers sampleEnvDead
        (sampleServer 3 [sampleItem "a", sampleItem "b", sampleItem "c"]
          [sampleItem "a", sampleItem "b", sampleItem "c"]) false).trace
        = [sampleItem "a", sampleItem "b"]) ∧
    (updateDNSCalls (refreshResolvers sampleEnv
        (sampleServer 2 [sampleItem "a", sampleItem "b", sampleItem "c"]
          [sampleItem "a", sampleItem "b"]) false).trace = [] ∧
      installCalls (refreshResolvers sampleEnv
        (sampleServer 2 [sampleItem "a", sampleItem "b", sampleItem "c"]
          [sampleItem "a", sampleItem "b"]) false).trace = [] ∧
      (refreshResolvers sampleEnv
        (sampleServer 2 [sampleItem "a", sampleItem "b", sampleItem "c"]
          [sampleItem "a", sampleItem "b"]) false).mResolverCache
        = [sampleItem "a", sampleItem "b"]) :=
  ⟨(fun h => ⟨h.2.1, h.2.2⟩)
    ((refreshResolvers_decision sampleEnv
      (sampleServer 3 [sampleItem "b", sampleItem "a"] []) false rfl).1 (by decide)),
   (refreshResolvers_decision sampleEnvDead
      (sampleServer 3 [sampleItem "a", sampleItem "b", sampleItem "c"]
        [sampleItem "a", sampleItem "b", sampleItem "c"]) false rfl).2.1
      (by decide) (by decide),
   (fun h => ⟨h.1, h.2.1, h.2.2.2.2⟩)
    ((refreshResolvers_decision sampleEnv
      (sampleServer 2 [sampleItem "a", sampleItem "b", sampleItem "c"]
        [sampleItem "a", sampleItem "b"]) false rfl).2.2 (by decide) (by decide))⟩

/-! ## Bootstrap -/

theorem bootstrapT1Loop_eq (e : Env) :
    ∀ (addresses : List String) (s : OpenNICServer),
      ∃ l c, bootstrapT1Loop e addresses s =
        { s with mResolverPool := insortAll e "T1" addresses s.mResolverPool,
                 mLog := l, clockReads := c } := by
  intro addresses
  induction addresses with
  | nil => intro s; exact ⟨s.mLog, s.clockReads, rfl⟩
  | cons address rest ih =>
    intro s
    by_cases hne : (trimmed address).isEmpty = true
    · obtain ⟨l, c, h⟩ := ih s
      refine ⟨l, c, ?_⟩
      simp only [bootstrapT1Loop, insortAll, hne, Bool.not_true, Bool.false_eq_true, if_false, h]
    · simp only [Bool.not_eq_true] at hne
      obtain ⟨l, c, h⟩ := ih (log e
        { s with mResolverPool := e.insort s.mResolverPool ⟨trimmed address, "T1"⟩ }
        (e.itemToString ⟨trimmed address, "T1"⟩))
      refine ⟨l, c, ?_⟩
      simp only [bootstrapT1Loop, insortAll, hne, Bool.not_false, if_true, h]
      simp [log]

theorem bootstrapApplyLoop_eq (e : Env) (nBootstrapResolvers : Int) :
    ∀ (items : OpenNICResolverPool) (n : Nat) (s : OpenNICServer),
      ∃ l c, bootstrapApplyLoop e nBootstrapResolvers items n s =
        ({ s with
            trace := s.trace ++
              installEvents (items.take (nBootstrapResolvers - (n : Int)).toNat) n,
            mLog := l, clockReads := c },
          n + (items.take (nBootstrapResolvers - (n : Int)).toNat).length) := by
  intro items
  induction items with
  | nil => intro n s; exact ⟨s.mLog, s.clockReads, by simp [bootstrapApplyLoop, installEvents]⟩
  | cons item rest ih =>
    intro n s
    by_cases h : (n : Int) < nBootstrapResolvers
    · have hk : (nBootstrapResolvers - (n : Int)).toNat
          = (nBootstrapResolvers - ((n + 1 : Nat) : Int)).toNat + 1 := by
        push_cast; omega
      obtain ⟨l, c, hl⟩ := ih (n + 1)
        (log e (insertSystemResolver s item.hostAddress ((n : Int) + 1))
          (" > " ++ e.itemToString item))
      refine ⟨l, c, ?_⟩
      simp only [bootstrapApplyLoop, if_pos h, hl, hk, List.take_succ_cons, installEvents,
        List.length_cons]
      simp [log, insertSystemResolver]
      omega
    · have hk : (nBootstrapResolvers - (n : Int)).toNat = 0 := by omega
      exact ⟨s.mLog, s.clockReads, by simp [bootstrapApplyLoop, if_neg h, hk, installEvents]⟩

theorem bootstrapT2Loop_eq (e : Env) :
    ∀ (addresses : List String) (s : OpenNICServer),
      bootstrapT2Loop e addresses s =
        { s with
          mResolverPool := insortAll e "T2" addresses s.mResolverPool,
          mResolversInitialized :=
            s.mResolversInitialized || addresses.any (fun a => !(trimmed a).isEmpty) } := by
  intro addresses
  induction addresses with
  | nil => intro s; simp [bootstrapT2Loop, insortAll]
  | cons address rest ih =>
    intro s
    by_cases hne : (trimmed address).isEmpty = true
    · simp [bootstrapT2Loop, insortAll, hne, ih]
    · simp only [Bool.not_eq_true] at hne
      simp [bootstrapT2Loop, insortAll, hne, ih]

theorem bootstrapT1Loop_frame (e : Env) (addresses : List String) (s : OpenNICServer) :
    bootstrapT1Loop e addresses s =
      { s with mResolverPool := insortAll e "T1" addresses s.mResolverPool,
               mLog := (bootstrapT1Loop e addresses s).mLog,
               clockReads := (bootstrapT1Loop e addresses s).clockReads } := by
  obtain ⟨l, c, h⟩ := bootstrapT1Loop_eq e addresses s
  rw [h]

theorem bootstrapApplyLoop_frame (e : Env) (nBootstrapResolvers : Int)
    (items : OpenNICResolverPool) (n : Nat) (s : OpenNICServer) :
    bootstrapApplyLoop e nBootstrapResolvers items n s =
      ({ s with
          trace := s.trace ++
            installEvents (items.take (nBootstrapResolvers - (n : Int)).toNat) n,
          mLog := (bootstrapApplyLoop e nBootstrapResolvers items n s).1.mLog,
          clockReads := (bootstrapApplyLoop e nBootstrapResolvers items n s).1.clockReads },
        n + (items.take (nBootstrapResolvers - (n : Int)).toNat).length) := by
  obtain ⟨l, c, h⟩ := bootstrapApplyLoop_eq e nBootstrapResolvers items n s
  rw [h]

/-- The effect of `bootstrapResolvers` on everything but the log. -/
theorem bootstrapResolvers_eq (e : Env) (s : OpenNICServer) :
    ∃ l c, bootstrapResolvers e s =
      ({ s with
          mResolversInitialized :=
            e.bootstrapT2List.any (fun a => !(trimmed a).isEmpty),
          mResolverPool := insortAll e "T2" e.bootstrapT2List (bootstrapPool e),
          trace := s.trace ++ installEvents
            ((bootstrapPool e).take
              (if s.mResolverCacheSize ≤ ((bootstrapPool e).length : Int)
                then s.mResolverCacheSize
                else ((bootstrapPool e).length : Int)).toNat)
            0,
          mLog := l, clockReads := c },
        (((bootstrapPool e).take
              (if s.mResolverCacheSize ≤ ((bootstrapPool e).length : Int)
                then s.mResolverCacheSize
                else ((bootstrapPool e).length : Int)).toNat
          ).length : Int)) := by
  unfold bootstrapResolvers bootstrapPool
  simp only [log]
  rw [bootstrapT1Loop_frame]
  simp only []
  rw [bootstrapApplyLoop_frame]
  simp only [bootstrapT2Loop_eq, Bool.false_or, Nat.cast_zero, sub_zero, zero_add]
  exact ⟨_, _, rfl⟩

theorem insortAll_kind (e : Env) (kind : String)
    (hins : ∀ pool item x, x ∈ e.insort pool item → x ∈ pool ∨ x = item) :
    ∀ (addresses : List String) (pool : OpenNICResolverPool),
      (∀ x ∈ pool, x.kind = kind) → ∀ x ∈ insortAll e kind addresses pool, x.kind = kind := by
  intro addresses
  induction addresses with
  | nil => intro pool hp x hx; exact hp x hx
  | cons address rest ih =>
    intro pool hp x hx
    by_cases hne : (trimmed address).isEmpty = true
    · simp only [insortAll, hne, Bool.not_true, Bool.false_eq_true, if_false] at hx
      exact ih pool hp x hx
    · simp only [Bool.not_eq_true] at hne
      simp only [insortAll, hne, Bool.not_false, if_true] at hx
      refine ih _ ?_ x hx
      intro y hy
      rcases hins _ _ _ hy with h | h
      · exact hp y h
      · rw [h]

/-- C10: with a target cache size `t ≥ 0`, `bootstrapResolvers` returns
`k = min(t, n1)`, `n1` the size of the shuffled tier-1 pool, and issues exactly
`k` install calls, the i-th of them installing the candidate at position `i-1`
of the shuffled pool at slot `i`; the calls do not depend on the tier-2 list,
and when insertion and shuffling add no members of their own every installed
candidate is a tier-1 candidate. -/
theorem bootstrapResolvers_installs (e : Env) (s : OpenNICServer)
    (ht : 0 ≤ s.mResolverCacheSize) :
    (bootstrapResolvers e s).2
      = ((min s.mResolverCacheSize.toNat (bootstrapPool e).length : Nat) : Int) ∧
    (bootstrapResolvers e s).1.trace = s.trace ++ installEvents
      ((bootstrapPool e).take (min s.mResolverCacheSize.toNat (bootstrapPool e).length)) 0 ∧
    (installEvents
      ((bootstrapPool e).take (min s.mResolverCacheSize.toNat (bootstrapPool e).length)) 0).length
      = min s.mResolverCacheSize.toNat (bootstrapPool e).length ∧
    (∀ i, i < min s.mResolverCacheSize.toNat (bootstrapPool e).length →
      (installEvents
        ((bootstrapPool e).take (min s.mResolverCacheSize.toNat (bootstrapPool e).length)) 0)[i]?
        = (bootstrapPool e)[i]?.map
          (fun item => Event.insertSystemResolver item.hostAddress ((i : Int) + 1))) ∧
    ((∀ pool item x, x ∈ e.insort pool item → x ∈ pool ∨ x = item) →
      (∀ pool x, x ∈ e.randomize pool → x ∈ pool) →
      ∀ item ∈ (bootstrapPool e).take (min s.mResolverCacheSize.toNat (bootstrapPool e).length),
        item.kind = "T1") := by
  have hk : (if s.mResolverCacheSize ≤ ((bootstrapPool e).length : Int)
        then s.mResolverCacheSize else ((bootstrapPool e).length : Int)).toNat
      = min s.mResolverCacheSize.toNat (bootstrapPool e).length := by
    split <;> omega
  obtain ⟨l, c, h⟩ := bootstrapResolvers_eq e s
  rw [h, hk]
  refine ⟨?_, rfl, ?_, ?_, ?_⟩
  · show ((List.take _ (bootstrapPool e)).length : Int) = _
    rw [List.length_take]
    simp
  · rw [installEvents_length, List.length_take]
    simp
  · intro i hi
    rw [installEvents_getElem?, List.getElem?_take_of_lt hi]
    simp
  · intro hins hrand item hitem
    have hmem : item ∈ bootstrapPool e := List.mem_of_mem_take hitem
    exact insortAll_kind e "T1" hins e.bootstrapT1List [] (by simp) item
      (hrand _ item hmem)

theorem sampleEnv_insort_mem (pool : OpenNICResolverPool) (item x : OpenNICResolverPoolItem)
    (h : x ∈ sampleEnv.insort pool item) : x ∈ pool ∨ x = item := by
  simp only [sampleEnv, List.mem_orderedInsert] at h
  exact h.symm

theorem sampleEnv_randomize_mem (pool : OpenNICResolverPool) (x : OpenNICResolverPoolItem)
    (h : x ∈ sampleEnv.randomize pool) : x ∈ pool := by
  simpa [sampleEnv] using h

theorem bootstrapResolvers_installs_witness :
    (0 : Int) ≤ (sampleServer 2 [] []).mResolverCacheSize ∧
    (bootstrapResolvers sampleEnv (sampleServer 2 [] [])).2 = 2 ∧
    (bootstrapResolvers sampleEnv (sampleServer 2 [] [])).1.trace
      = [Event.insertSystemResolver "10.0.0.3" 1, Event.insertSystemResolver "10.0.0.2" 2] ∧
    (∀ item ∈ (bootstrapPool sampleEnv).take 2, item.kind = "T1") :=
  have h := bootstrapResolvers_installs sampleEnv (sampleServer 2 [] []) (by decide)
  ⟨by decide, h.1.trans (by decide), h.2.1.trans (by decide),
    h.2.2.2.2 sampleEnv_insort_mem sampleEnv_randomize_mem⟩

/-! ## The size of the active cache -/

theorem CacheInv_of_view (s t : OpenNICServer) (hv : cacheView t = cacheView s)
    (h : CacheInv s) : CacheInv t := by
  simp only [cacheView, Prod.mk.injEq] at hv
  obtain ⟨h1, h2, h3, h4⟩ := hv
  unfold CacheInv at h ⊢
  rw [h1, h2, h3, h4]
  exact h

theorem cacheView_log (e : Env) (s : OpenNICServer) (msg : String) :
    cacheView (log e s msg) = cacheView s := rfl

theorem cacheView_setRefreshPeriod (e : Env) (s : OpenNICServer) (period : Int) :
    cacheView (setRefreshPeriod e s period) = cacheView s := by
  unfold setRefreshPeriod
  split
  · dsimp only
    split <;> rfl
  · rfl

theorem cacheView_initializeServer (e : Env) (s : OpenNICServer) :
    cacheView (initializeServer e s).1 = cacheView s := by
  unfold initializeServer
  split
  · split <;> rfl
  · rfl

theorem cacheView_bootstrapResolvers (e : Env) (s : OpenNICServer) :
    cacheView (bootstrapResolvers e s).1 = cacheView s := by
  obtain ⟨l, c, h⟩ := bootstrapResolvers_eq e s
  rw [h]
  rfl

theorem proposal_length (e : Env) (s : OpenNICServer) (resolverCount : Int) :
    (proposal e s resolverCount).length = min resolverCount.toNat s.mResolverPool.length := by
  unfold proposal
  rw [List.length_take, sort_length]

theorem CacheInv_updateDNS (e : Env) (s : OpenNICServer)
    (hg : s.mUpdatingDNS = false) (h0 : 0 ≤ s.mResolverCacheSize)
    (hgh : s.mResolverCache.length ≤ s.ghostPoolCountAtReplace) :
    CacheInv (updateDNS e s s.mResolverCacheSize).1 := by
  have hlen := proposal_length e s s.mResolverCacheSize
  cases ha : shouldReplaceWithProposed e s (proposal e s s.mResolverCacheSize) with
  | true =>
    obtain ⟨l, c, h⟩ := updateDNS_accept e s s.mResolverCacheSize hg ha
    rw [h]
    refine ⟨hg, h0, ?_, ?_⟩
    · show ((OpenNICResolverPool.sort e (proposal e s s.mResolverCacheSize)).length : Int)
        ≤ s.mResolverCacheSize
      rw [sort_length, hlen]
      omega
    · show (OpenNICResolverPool.sort e (proposal e s s.mResolverCacheSize)).length
        ≤ (OpenNICResolverPool.sort e s.mResolverPool).length
      rw [sort_length, sort_length, hlen]
      omega
  | false =>
    obtain ⟨l, c, h⟩ := updateDNS_reject e s s.mResolverCacheSize hg ha
    rw [h]
    have heq := length_eq_of_not_shouldReplace e s _ ha
    refine ⟨hg, h0, ?_, hgh⟩
    show (s.mResolverCache.length : Int) ≤ s.mResolverCacheSize
    rw [← heq, hlen]
    omega

theorem CacheInv_setResolverCacheSize (e : Env) (s : OpenNICServer) (size : Int)
    (h : CacheInv s) : CacheInv (setResolverCacheSize e s size) := by
  unfold setResolverCacheSize
  split
  · rename_i hc
    exact CacheInv_updateDNS e _ h.1 hc.2 h.2.2.2
  · exact h

theorem CacheInv_readSettings (e : Env) (s : OpenNICServer) (h : CacheInv s) :
    CacheInv (readSettings e s) := by
  unfold readSettings
  apply CacheInv_setResolverCacheSize
  apply CacheInv_of_view _ _ (cacheView_setRefreshPeriod e _ _)
  exact h

theorem CacheInv_coldBoot (e : Env) (s : OpenNICServer) (h : CacheInv s) :
    CacheInv (coldBoot e s) := by
  have h4 : CacheInv (readSettings e
      (log e (log e (log e s "** COLD BOOT **") (copyright e)) (license e))) :=
    CacheInv_readSettings e _ h
  have h5 := CacheInv_of_view _ _ (cacheView_bootstrapResolvers e _) h4
  unfold coldBoot
  simp only []
  split
  · exact CacheInv_of_view _ _ (cacheView_initializeServer e _) h5
  · exact h5

theorem cacheView_testResolverCache (e : Env) (s : OpenNICServer) :
    cacheView (testResolverCache e s).1 = cacheView s := by
  unfold testResolverCache
  obtain ⟨l, c, h⟩ := testResolverCacheLoop_eq e s.mResolverCache s
  rw [h]
  rfl

theorem CacheInv_refreshResolvers (e : Env) (s : OpenNICServer) (force : Bool)
    (h : CacheInv s) : CacheInv (refreshResolvers e s force) := by
  have h1 : CacheInv (if (!s.mResolversInitialized) = true then coldBoot e s else s) := by
    split
    · exact CacheInv_coldBoot e s h
    · exact h
  have key : ∀ s1 : OpenNICServer, CacheInv s1 →
      CacheInv (if force = true ∨ s1.mResolverCache.length = 0 ∨
          (s1.mResolverCache.length : Int) < s1.mResolverCacheSize then
        (updateDNS e s1 s1.mResolverCacheSize).1
      else if s1.mResolverCache.length ≠ 0 then
        if (!(testResolverCache e s1).2) = true then
          (updateDNS e (testResolverCache e s1).1
            (testResolverCache e s1).1.mResolverCacheSize).1
        else
          (testResolverCache e s1).1
      else
        s1) := by
    intro s1 hs1
    have ht := CacheInv_of_view _ _ (cacheView_testResolverCache e s1) hs1
    split
    · exact CacheInv_updateDNS e _ hs1.1 hs1.2.1 hs1.2.2.2
    · split
      · split
        · exact CacheInv_updateDNS e _ ht.1 ht.2.1 ht.2.2.2
        · exact ht
      · exact hs1
  exact key _ h1

theorem CacheInv_step (s : OpenNICServer) (c : Env × Op) (h : CacheInv s) :
    CacheInv (step s c) := by
  unfold step
  split
  · exact CacheInv_setResolverCacheSize _ _ _ h
  · exact CacheInv_refreshResolvers _ _ _ h
  · exact CacheInv_of_view _ _ (cacheView_bootstrapResolvers _ _) h
  · exact CacheInv_coldBoot _ _ h
  · exact CacheInv_updateDNS _ _ h.1 h.2.1 h.2.2.2

theorem CacheInv_run (ops : List (Env × Op)) :
    ∀ s : OpenNICServer, CacheInv s → CacheInv (run s ops) := by
  induction ops with
  | nil => intro s h; exact h
  | cons c rest ih => intro s h; exact ih _ (CacheInv_step s c h)

/-- C4: in every state reached from the constructed state (empty cache, target
size 0, guard clear) by a sequence of `setResolverCacheSize(s)`,
`refreshResolvers(force)`, `bootstrapResolvers`, `coldBoot` and
`updateDNS(resolverCacheSize())`, each in an environment of its own, the
active cache is no larger than the target cache size and no larger than the
universe pool was when the cache was last replaced. -/
theorem activeCache_size_bound (settings : Settings) (ops : List (Env × Op)) :
    ((run (constructed settings) ops).mResolverCache.length : Int)
      ≤ (run (constructed settings) ops).mResolverCacheSize ∧
    (run (constructed settings) ops).mResolverCache.length
      ≤ (run (constructed settings) ops).ghostPoolCountAtReplace := by
  have h0 : CacheInv (constructed settings) := by
    refine ⟨rfl, ?_, ?_, ?_⟩ <;> simp [constructed]
  have h := CacheInv_run ops (constructed settings) h0
  exact ⟨h.2.2.1, h.2.2.2⟩

/-! ## The log -/

theorem pruneLines_eq_keepLast (lines : List String) : pruneLines lines = keepLast lines := by
  induction lines with
  | nil => rfl
  | cons x xs ih =>
    unfold pruneLines
    split
    · rename_i h
      rw [ih]
      unfold keepLast
      simp only [List.length_cons, MAX_LOG_LINES] at h ⊢
      have : xs.length + 1 - 100 = (xs.length - 100) + 1 := by omega
      rw [this, List.drop_succ_cons]
    · rename_i h
      unfold keepLast
      simp only [List.length_cons, MAX_LOG_LINES] at h ⊢
      have : xs.length + 1 - 100 = 0 := by omega
      rw [this, List.drop_zero]

theorem keepLast_length (lines : List String) : (keepLast lines).length ≤ MAX_LOG_LINES := by
  unfold keepLast
  rw [List.length_drop]
  omega

theorem keepLast_append_keepLast (lines more : List String) :
    keepLast (keepLast lines ++ more) = keepLast (lines ++ more) := by
  unfold keepLast
  by_cases h : lines.length ≤ MAX_LOG_LINES
  · have : lines.length - MAX_LOG_LINES = 0 := by omega
    rw [this, List.drop_zero]
  · have h1 : (List.drop (lines.length - MAX_LOG_LINES) lines).length = MAX_LOG_LINES := by
      rw [List.length_drop]; omega
    rw [List.length_append, List.length_append, h1]
    have h2 : MAX_LOG_LINES + more.length - MAX_LOG_LINES = more.length := by omega
    have h3 : lines.length + more.length - MAX_LOG_LINES
        = (lines.length - MAX_LOG_LINES) + more.length := by omega
    have h4 : lines.length - MAX_LOG_LINES ≤ lines.length := by omega
    rw [h2, h3, ← List.drop_drop, List.drop_append_of_le_length h4]

theorem log_mLog (e : Env) (s : OpenNICServer) (msg : String) :
    (log e s msg).mLog = keepLast (s.mLog ++ [e.clock s.clockReads ++ "|" ++ msg]) := by
  unfold log
  exact pruneLines_eq_keepLast _

theorem keepLast_of_le (lines : List String) (h : lines.length ≤ MAX_LOG_LINES) :
    keepLast lines = lines := by
  unfold keepLast
  have : lines.length - MAX_LOG_LINES = 0 := by omega
  rw [this, List.drop_zero]

theorem foldl_log_mLog (e : Env) :
    ∀ (msgs : List String) (s : OpenNICServer), s.mLog.length ≤ MAX_LOG_LINES →
      (msgs.foldl (log e) s).mLog = keepLast (s.mLog ++ logLines e s.clockReads msgs) := by
  intro msgs
  induction msgs with
  | nil =>
    intro s h
    simp only [List.foldl_nil, logLines, List.append_nil]
    exact (keepLast_of_le _ h).symm
  | cons msg rest ih =>
    intro s _
    have hlen : (log e s msg).mLog.length ≤ MAX_LOG_LINES := by
      rw [log_mLog]
      exact keepLast_length _
    simp only [List.foldl_cons]
    rw [ih (log e s msg) hlen, log_mLog, keepLast_append_keepLast]
    have hc : (log e s msg).clockReads = s.clockReads + 1 := rfl
    rw [hc]
    simp [logLines]

/-- C12: from a log of at most 100 lines, after any sequence of `log(msg)`
calls the log holds at most 100 lines and is exactly the last lines (at most
100) of the old log followed by the appended lines, in append order; a single
call appends its line and, when the log was full, drops the oldest line. -/
theorem log_capacity (e : Env) (s : OpenNICServer) (msgs : List String)
    (h : s.mLog.length ≤ MAX_LOG_LINES) :
    (msgs.foldl (log e) s).mLog.length ≤ MAX_LOG_LINES ∧
    (msgs.foldl (log e) s).mLog = keepLast (s.mLog ++ logLines e s.clockReads msgs) ∧
    (∀ msg : String, (log e s msg).mLog
      = (if s.mLog.length < MAX_LOG_LINES then s.mLog else s.mLog.tail)
          ++ [e.clock s.clockReads ++ "|" ++ msg]) := by
  have h2 := foldl_log_mLog e msgs s h
  refine ⟨?_, h2, ?_⟩
  · rw [h2]
    exact keepLast_length _
  · intro msg
    rw [log_mLog]
    unfold keepLast
    simp only [List.length_append, List.length_singleton]
    split
    · rename_i hlt
      have : s.mLog.length + 1 - MAX_LOG_LINES = 0 := by omega
      rw [this, List.drop_zero]
    · rename_i hge
      have : s.mLog.length + 1 - MAX_LOG_LINES = 1 := by omega
      rw [this]
      cases hl : s.mLog with
      | nil =>
        rw [hl] at hge
        simp [MAX_LOG_LINES] at hge
      | cons x xs => simp

theorem log_capacity_witness :
    (["new"].foldl (log sampleEnv)
        { sampleServer 3 [] [] with mLog := List.replicate 100 "old" }).mLog.length
      ≤ MAX_LOG_LINES ∧
    (log sampleEnv { sampleServer 3 [] [] with mLog := List.replicate 100 "old" } "new").mLog
      = List.replicate 99 "old" ++ ["120101000000|new"] :=
  have h := log_capacity sampleEnv
    { sampleServer 3 [] [] with mLog := List.replicate 100 "old" } ["new"] (by decide)
  ⟨h.1, (h.2.2 "new").trans (by decide)⟩

/-! ## The initialised flag -/

/-- C16: after `bootstrapResolvers` the initialised flag is true exactly when
the tier-2 list holds an address that is not empty after trimming; the
universe pool is then the shuffled tier-1 pool with the tier-2 candidates
inserted.  Neither the tier-1 list nor the earlier value of the flag enters. -/
theorem bootstrapResolvers_initialized (e : Env) (s : OpenNICServer) :
    ((bootstrapResolvers e s).1.mResolversInitialized = true ↔
      ∃ address ∈ e.bootstrapT2List, (trimmed address).isEmpty = false) ∧
    (bootstrapResolvers e s).1.mResolverPool
      = insortAll e "T2" e.bootstrapT2List (bootstrapPool e) := by
  obtain ⟨l, c, h⟩ := bootstrapResolvers_eq e s
  rw [h]
  refine ⟨?_, rfl⟩
  show (e.bootstrapT2List.any (fun a => !(trimmed a).isEmpty)) = true ↔ _
  rw [List.any_eq_true]
  constructor
  · rintro ⟨a, ha, hne⟩
    exact ⟨a, ha, by simpa using hne⟩
  · rintro ⟨a, ha, hne⟩
    exact ⟨a, ha, by simp [hne]⟩

/-! ## The slow timer -/

/-- The interval of the slow timer is exact for an accepted period of at most
35791 minutes. -/
theorem setRefreshPeriod_exact (e : Env) (s : OpenNICServer) (period : Int)
    (hne : s.mRefreshTimerPeriod ≠ period) (h0 : 0 ≤ period) (hmax : period ≤ 35791) :
    (setRefreshPeriod e s period).mRefreshTimerPeriod = period ∧
    (setRefreshPeriod e s period).trace
      = s.trace ++ (if s.mRefreshTimer ≥ 0 then [Event.killTimer s.mRefreshTimer] else [])
          ++ [Event.startTimer (period * 60 * 1000)] := by
  have hm : mulInt32 (mulInt32 period 60) 1000 = period * 60 * 1000 := by
    unfold mulInt32
    omega
  unfold setRefreshPeriod
  rw [if_pos ⟨hne, h0⟩]
  by_cases ht : s.mRefreshTimer ≥ 0
  · simp [ht, startTimer, killTimer, log, hm]
  · simp [ht, startTimer, log, hm]

theorem setRefreshPeriod_rejected (e : Env) (s : OpenNICServer) (period : Int)
    (h : period < 0 ∨ period = s.mRefreshTimerPeriod) :
    setRefreshPeriod e s period = s := by
  unfold setRefreshPeriod
  rw [if_neg]
  rintro ⟨h1, h2⟩
  rcases h with h | h
  · omega
  · exact h1 h.symm

/-- C18, evaluated at the failing input: a period of 35792 minutes is accepted
and stored, and the one timer started gets the interval -2147447296, the
32-bit product, which is not 35792 * 60 * 1000 = 2147520000. -/
theorem setRefreshPeriod_overflow :
    (setRefreshPeriod sampleEnv (sampleServer 3 [] []) 35792).mRefreshTimerPeriod = 35792 ∧
    (setRefreshPeriod sampleEnv (sampleServer 3 [] []) 35792).trace
      = [Event.startTimer (-2147447296)] ∧
    (setRefreshPeriod sampleEnv (sampleServer 3 [] []) 35792).timers
      = [(1, -2147447296)] ∧
    (-2147447296 : Int) ≠ 35792 * 60 * 1000 := by
  decide

/-! ## Sessions -/

/-- The purge loop ends by its own condition: once the rounds allowed cover
the sessions from index `n` on, further rounds change nothing. -/
theorem purgeLoop_fuel (e : Env) :
    ∀ (fuel n : Nat) (s : OpenNICServer), s.mSessions.length ≤ n + fuel →
      ∀ extra : Nat, purgeLoop e (fuel + extra) n s = purgeLoop e fuel n s := by
  intro fuel
  induction fuel with
  | zero =>
    intro n s h extra
    cases extra with
    | zero => rfl
    | succ k =>
      have hn : ¬ n < s.mSessions.length := by omega
      simp only [Nat.zero_add, purgeLoop, if_neg hn]
  | succ fuel ih =>
    intro n s h extra
    have hf : fuel + 1 + extra = (fuel + extra) + 1 := by omega
    rw [hf]
    simp only [purgeLoop]
    split
    · split
      · split
        · apply ih
          simp only [log, List.length_eraseIdx]
          split <;> omega
        · apply ih
          omega
      · rfl
    · rfl

/-- C14, evaluated at the failing input: of two closed sessions in a row the
purge removes and releases the first only, the second stays in the list, also
when the loop is given more rounds than the list has sessions. -/
theorem purgeDeadSesssions_skips_neighbour :
    (purgeDeadSesssions sampleEnv
        { sampleServer 3 [] [] with
          mSessions := [sampleSession 1 false, sampleSession 2 false] }).mSessions
      = [sampleSession 2 false] ∧
    openValid (sampleSession 2 false) = false ∧
    (purgeDeadSesssions sampleEnv
        { sampleServer 3 [] [] with
          mSessions := [sampleSession 1 false, sampleSession 2 false] }).trace
      = [Event.deleteSession (sampleSession 1 false)] ∧
    (purgeLoop sampleEnv 10 0
        { sampleServer 3 [] [] with
          mSessions := [sampleSession 1 false, sampleSession 2 false] }).mSessions
      = [sampleSession 2 false] := by
  decide

theorem announceLoop_eq (packet : Packet) :
    ∀ (sessions : List QTcpSocket) (s : OpenNICServer),
      announceLoop packet sessions s =
        { s with trace := s.trace ++
            (sessions.filter openValid).map (fun session => Event.send session packet) } := by
  intro sessions
  induction sessions with
  | nil => intro s; simp [announceLoop]
  | cons session rest ih =>
    intro s
    by_cases h : (session.isOpen && session.isValid) = true
    · have ho : openValid session = true := h
      simp only [announceLoop, h, if_true, ih, List.filter_cons, ho]
      simp
    · have ho : ¬ openValid session = true := h
      simp only [announceLoop, h, if_false, ih, List.filter_cons, ho]
      simp

theorem filter_openValid_of_none (sessions : List QTcpSocket)
    (h : ∀ x ∈ sessions, openValid x = false) : sessions.filter openValid = [] := by
  rw [List.filter_eq_nil_iff]
  intro x hx
  rw [h x hx]
  exact Bool.false_ne_true

/-- What `announcePackets` does when no session of the list is open and valid:
it sends nothing; with an empty session list it returns the state as it is;
with a list that is not empty it runs `logPurge()` and `mAsyncMessage.clear()`
all the same. -/
theorem announcePackets_no_open_session (e : Env) (s : OpenNICServer)
    (h : ∀ x ∈ s.mSessions, openValid x = false) :
    (announcePackets e s).trace = s.trace ∧
    (s.mSessions = [] → announcePackets e s = s) ∧
    (s.mSessions ≠ [] →
      (announcePackets e s).mLog = [] ∧ (announcePackets e s).mAsyncMessage = "") := by
  unfold announcePackets
  refine ⟨?_, ?_, ?_⟩
  · split
    · simp only [announceLoop_eq, logPurge, filter_openValid_of_none _ h, List.map_nil,
        List.append_nil]
    · rfl
  · intro hnil
    rw [hnil]
    simp
  · intro hne
    have hlen : s.mSessions.length ≠ 0 := by
      intro h0
      exact hne (List.length_eq_zero.mp h0)
    rw [if_pos hlen]
    exact ⟨rfl, rfl⟩

theorem announcePackets_no_open_session_witness :
    (announcePackets sampleEnv
        { sampleServer 3 [] [] with mLog := ["line"], mAsyncMessage := "note" }).mLog
      = ["line"] ∧
    (announcePackets sampleEnv
        { sampleServer 3 [] [] with
          mSessions := [sampleSession 1 false], mLog := ["line"], mAsyncMessage := "note" }).mLog
      = [] ∧
    (announcePackets sampleEnv
        { sampleServer 3 [] [] with
          mSessions := [sampleSession 1 false], mLog := ["line"], mAsyncMessage := "note" }).trace
      = [] :=
  ⟨congrArg OpenNICServer.mLog
      ((announcePackets_no_open_session sampleEnv
        { sampleServer 3 [] [] with mLog := ["line"], mAsyncMessage := "note" }
        (by decide)).2.1 rfl),
   ((announcePackets_no_open_session sampleEnv
        { sampleServer 3 [] [] with
          mSessions := [sampleSession 1 false], mLog := ["line"], mAsyncMessage := "note" }
        (by decide)).2.2 (by decide)).1,
   (announcePackets_no_open_session sampleEnv
        { sampleServer 3 [] [] with
          mSessions := [sampleSession 1 false], mLog := ["line"], mAsyncMessage := "note" }
        (by decide)).1⟩

/-- C13, evaluated at the failing input: the session list holds one closed
session and no open one, the log buffer holds a line and a notice is pending.
`announcePackets` sends nothing and yet empties the log buffer and the notice,
while with an empty session list, where it sends nothing either, it keeps
both.  The fast tick reaches such a list: from two closed sessions `runOnce`
deletes only the first one, announces to the list that holds the second, and
the log buffer and the notice are emptied although no packet was sent. -/
theorem announcePackets_clears_without_open_session :
    (∀ x ∈ ({ sampleServer 3 [] [] with
          mSessions := [sampleSession 1 false], mLog := ["line"],
          mAsyncMessage := "note" } : OpenNICServer).mSessions, openValid x = false) ∧
    sentPackets (announcePackets sampleEnv
        { sampleServer 3 [] [] with
          mSessions := [sampleSession 1 false], mLog := ["line"],
          mAsyncMessage := "note" }).trace = [] ∧
    (announcePackets sampleEnv
        { sampleServer 3 [] [] with
          mSessions := [sampleSession 1 false], mLog := ["line"],
          mAsyncMessage := "note" }).mLog = [] ∧
    (announcePackets sampleEnv
        { sampleServer 3 [] [] with
          mSessions := [sampleSession 1 false], mLog := ["line"],
          mAsyncMessage := "note" }).mAsyncMessage = "" ∧
    (announcePackets sampleEnv
        { sampleServer 3 [] [] with
          mSessions := [], mLog := ["line"], mAsyncMessage := "note" }).mLog = ["line"] ∧
    (announcePackets sampleEnv
        { sampleServer 3 [] [] with
          mSessions := [], mLog := ["line"], mAsyncMessage := "note" }).mAsyncMessage = "note" ∧
    (runOnce sampleEnv
        { sampleServer 3 [] [] with
          mSessions := [sampleSession 1 false, sampleSession 2 false], mLog := ["line"],
          mAsyncMessage := "note" }).mSessions = [sampleSession 2 false] ∧
    sentPackets (runOnce sampleEnv
        { sampleServer 3 [] [] with
          mSessions := [sampleSession 1 false, sampleSession 2 false], mLog := ["line"],
          mAsyncMessage := "note" }).trace = [] ∧
    (runOnce sampleEnv
        { sampleServer 3 [] [] with
          mSessions := [sampleSession 1 false, sampleSession 2 false], mLog := ["line"],
          mAsyncMessage := "note" }).mLog = [] ∧
    (runOnce sampleEnv
        { sampleServer 3 [] [] with
          mSessions := [sampleSession 1 false, sampleSession 2 false], mLog := ["line"],
          mAsyncMessage := "note" }).mAsyncMessage = "" := by
  decide

/-- C17, evaluated at the failing input: with the target size 3 a client sends
`resolver_cache_size = -1`; the value is rejected, so the target size stays 3
and `updateDNS` is not called, and still the notice is marked: the snapshot
sent carries the notice "Settings Applied". -/
theorem readyRead_notice_on_rejected_size :
    (readyRead (sampleClientEnv [("resolver_cache_size", QVariant.int (-1))])
        { sampleServer 3 [] [] with mSessions := [sampleSession 7 true] }).mResolverCacheSize
      = 3 ∧
    updateDNSCalls (readyRead (sampleClientEnv [("resolver_cache_size", QVariant.int (-1))])
        { sampleServer 3 [] [] with mSessions := [sampleSession 7 true] }).trace = [] ∧
    (sentPackets (readyRead (sampleClientEnv [("resolver_cache_size", QVariant.int (-1))])
        { sampleServer 3 [] [] with mSessions := [sampleSession 7 true] }).trace).map
        (fun sent => sent.2.lookup "async_message")
      = [some (QVariant.string "Settings Applied")] := by
  decide

/-! ## Cold boot -/

theorem setResolverCacheSize_rejected (e : Env) (s : OpenNICServer) (size : Int)
    (h : size < 0 ∨ size = s.mResolverCacheSize) :
    setResolverCacheSize e s size = s := by
  unfold setResolverCacheSize
  rw [if_neg]
  rintro ⟨h1, h2⟩
  rcases h with h | h
  · omega
  · exact h1 h.symm

theorem readSettings_of_stored (e : Env) (s : OpenNICServer)
    (hp : s.settings.refresh_timer_period.getD DEFAULT_REFRESH_TIMER_PERIOD
      = s.mRefreshTimerPeriod)
    (hs : s.settings.resolver_cache_size.getD DEFAULT_RESOLVER_CACHE_SIZE
      = s.mResolverCacheSize) :
    readSettings e s =
      { s with mTcpListenPort := s.settings.tcp_listen_port.getD DEFAULT_TCP_LISTEN_PORT } := by
  have h1 := setRefreshPeriod_rejected e
    { s with mTcpListenPort := s.settings.tcp_listen_port.getD DEFAULT_TCP_LISTEN_PORT }
    (s.settings.refresh_timer_period.getD DEFAULT_REFRESH_TIMER_PERIOD) (Or.inr hp)
  have h2 := setResolverCacheSize_rejected e
    { s with mTcpListenPort := s.settings.tcp_listen_port.getD DEFAULT_TCP_LISTEN_PORT }
    (s.settings.resolver_cache_size.getD DEFAULT_RESOLVER_CACHE_SIZE) (Or.inr hs)
  unfold readSettings
  simp only []
  rw [h1]
  exact h2

theorem initializeServer_fields (e : Env) (s : OpenNICServer) :
    (initializeServer e s).1.mResolversInitialized = s.mResolversInitialized ∧
    (initializeServer e s).1.mResolverCache = s.mResolverCache ∧
    installCalls (initializeServer e s).1.trace = installCalls s.trace := by
  unfold initializeServer
  split
  · split
    · simp [log, installCalls]
    · simp [installCalls]
  · exact ⟨rfl, rfl, rfl⟩

theorem installCalls_installEvents_nil (tr : List Event) :
    installCalls (tr ++ installEvents [] 0) = installCalls tr := by
  simp [installEvents]

/-- What `coldBoot` leaves when the stored settings agree with the current
configuration: the flag, the cache and the install calls of the bootstrap. -/
theorem coldBoot_of_stored (e : Env) (s : OpenNICServer)
    (hp : s.settings.refresh_timer_period.getD DEFAULT_REFRESH_TIMER_PERIOD
      = s.mRefreshTimerPeriod)
    (hs : s.settings.resolver_cache_size.getD DEFAULT_RESOLVER_CACHE_SIZE
      = s.mResolverCacheSize) :
    (coldBoot e s).mResolversInitialized
      = e.bootstrapT2List.any (fun a => !(trimmed a).isEmpty) ∧
    (coldBoot e s).mResolverCache = s.mResolverCache ∧
    installCalls (coldBoot e s).trace = installCalls (s.trace ++ installEvents
      ((bootstrapPool e).take
        (if s.mResolverCacheSize ≤ ((bootstrapPool e).length : Int)
          then s.mResolverCacheSize else ((bootstrapPool e).length : Int)).toNat) 0) := by
  have hr := readSettings_of_stored e
    (log e (log e (log e s "** COLD BOOT **") (copyright e)) (license e)) hp hs
  obtain ⟨l, c, hb⟩ := bootstrapResolvers_eq e
    (readSettings e (log e (log e (log e s "** COLD BOOT **") (copyright e)) (license e)))
  have hf := initializeServer_fields e (bootstrapResolvers e
    (readSettings e (log e (log e (log e s "** COLD BOOT **") (copyright e)) (license e)))).1
  unfold coldBoot
  simp only []
  split
  · rw [hf.1, hf.2.1, hf.2.2, hb, hr]
    exact ⟨rfl, rfl, rfl⟩
  · rw [hb, hr]
    exact ⟨rfl, rfl, rfl⟩

/-- C11, as the code has it: from a state with an empty active cache whose
stored settings equal the current configuration, `coldBoot` with an empty
tier-1 list (which the shuffle leaves empty) and a tier-2 list holding at
least one address that is not empty after trimming ends with the initialised
flag true, issues no install call and leaves the active cache empty. -/
theorem coldBoot_tier2_only (e : Env) (s : OpenNICServer)
    (hcache : s.mResolverCache = [])
    (hp : s.settings.refresh_timer_period.getD DEFAULT_REFRESH_TIMER_PERIOD
      = s.mRefreshTimerPeriod)
    (hs : s.settings.resolver_cache_size.getD DEFAULT_RESOLVER_CACHE_SIZE
      = s.mResolverCacheSize)
    (ht1 : e.bootstrapT1List = []) (hrand : e.randomize [] = [])
    (ht2 : ∃ address ∈ e.bootstrapT2List, (trimmed address).isEmpty = false) :
    (coldBoot e s).mResolversInitialized = true ∧
    installCalls (coldBoot e s).trace = installCalls s.trace ∧
    (coldBoot e s).mResolverCache = [] := by
  have h := coldBoot_of_stored e s hp hs
  have hpool : bootstrapPool e = [] := by
    unfold bootstrapPool
    rw [ht1]
    exact hrand
  rw [hpool] at h
  refine ⟨?_, ?_, ?_⟩
  · rw [h.1, List.any_eq_true]
    obtain ⟨a, ha, hne⟩ := ht2
    exact ⟨a, ha, by simp [hne]⟩
  · rw [h.2.2]
    simp [installEvents]
  · rw [h.2.1, hcache]

theorem coldBoot_tier2_only_witness :
    (coldBoot (sampleBootEnv [] ["10.0.1.1"])
        { sampleServer 3 [] [] with
          mResolversInitialized := false, settings := ⟨none, some 0, some 3⟩ }
      ).mResolversInitialized = true ∧
    installCalls (coldBoot (sampleBootEnv [] ["10.0.1.1"])
        { sampleServer 3 [] [] with
          mResolversInitialized := false, settings := ⟨none, some 0, some 3⟩ }).trace = [] ∧
    (coldBoot (sampleBootEnv [] ["10.0.1.1"])
        { sampleServer 3 [] [] with
          mResolversInitialized := false, settings := ⟨none, some 0, some 3⟩ }
      ).mResolverCache = [] :=
  coldBoot_tier2_only (sampleBootEnv [] ["10.0.1.1"])
    { sampleServer 3 [] [] with
      mResolversInitialized := false, settings := ⟨none, some 0, some 3⟩ }
    rfl rfl rfl rfl rfl ⟨"10.0.1.1", by decide, by decide⟩

/-- C11 as stated fails: with an empty tier-1 list and the tier-2 list `[" "]`,
which is not empty, `coldBoot` from a state with an empty cache and matching
stored settings ends with the initialised flag false. -/
theorem coldBoot_blank_tier2_not_initialized :
    (sampleBootEnv [] [" "]).bootstrapT1List = [] ∧
    (sampleBootEnv [] [" "]).bootstrapT2List ≠ [] ∧
    (coldBoot (sampleBootEnv [] [" "])
        { sampleServer 3 [] [] with
          mResolversInitialized := false, settings := ⟨none, some 0, some 3⟩ }
      ).mResolversInitialized = false := by
  decide

/-! ## The guard bit -/

theorem guard_updateDNS (e : Env) (s : OpenNICServer) (resolverCount : Int) :
    (updateDNS e s resolverCount).1.mUpdatingDNS = s.mUpdatingDNS := by
  cases hg : s.mUpdatingDNS with
  | true =>
    rw [updateDNS_guarded e s resolverCount hg]
    exact hg
  | false =>
    cases ha : shouldReplaceWithProposed e s (proposal e s resolverCount) with
    | true =>
      obtain ⟨l, c, h⟩ := updateDNS_accept e s resolverCount hg ha
      rw [h]
      exact hg
    | false =>
      obtain ⟨l, c, h⟩ := updateDNS_reject e s resolverCount hg ha
      rw [h]
      exact hg

theorem guard_of_view (s t : OpenNICServer) (h : cacheView t = cacheView s) :
    t.mUpdatingDNS = s.mUpdatingDNS :=
  congrArg Prod.fst h

theorem guard_setResolverCacheSize (e : Env) (s : OpenNICServer) (size : Int) :
    (setResolverCacheSize e s size).mUpdatingDNS = s.mUpdatingDNS := by
  unfold setResolverCacheSize
  split
  · rw [guard_updateDNS]
    rfl
  · rfl

theorem guard_readSettings (e : Env) (s : OpenNICServer) :
    (readSettings e s).mUpdatingDNS = s.mUpdatingDNS := by
  unfold readSettings
  simp only []
  rw [guard_setResolverCacheSize, guard_of_view _ _ (cacheView_setRefreshPeriod e _ _)]

theorem guard_coldBoot (e : Env) (s : OpenNICServer) :
    (coldBoot e s).mUpdatingDNS = s.mUpdatingDNS := by
  unfold coldBoot
  simp only []
  split
  · rw [guard_of_view _ _ (cacheView_initializeServer e _),
      guard_of_view _ _ (cacheView_bootstrapResolvers e _), guard_readSettings]
    rfl
  · rw [guard_of_view _ _ (cacheView_bootstrapResolvers e _), guard_readSettings]
    rfl

theorem guard_refreshResolvers (e : Env) (s : OpenNICServer) (force : Bool) :
    (refreshResolvers e s force).mUpdatingDNS = s.mUpdatingDNS := by
  have h1 : (if (!s.mResolversInitialized) = true then coldBoot e s else s).mUpdatingDNS
      = s.mUpdatingDNS := by
    split
    · exact guard_coldBoot e s
    · rfl
  have key : ∀ s1 : OpenNICServer,
      (if force = true ∨ s1.mResolverCache.length = 0 ∨
          (s1.mResolverCache.length : Int) < s1.mResolverCacheSize then
        (updateDNS e s1 s1.mResolverCacheSize).1
      else if s1.mResolverCache.length ≠ 0 then
        if (!(testResolverCache e s1).2) = true then
          (updateDNS e (testResolverCache e s1).1
            (testResolverCache e s1).1.mResolverCacheSize).1
        else
          (testResolverCache e s1).1
      else
        s1).mUpdatingDNS = s1.mUpdatingDNS := by
    intro s1
    have ht := guard_of_view _ _ (cacheView_testResolverCache e s1)
    split
    · exact guard_updateDNS e _ _
    · split
      · split
        · rw [guard_updateDNS, ht]
        · exact ht
      · rfl
  exact (key _).trans h1

theorem guard_readyReadKey (e : Env) (s : OpenNICServer) (key : String) (value : QVariant) :
    (readyReadKey e s key value).mUpdatingDNS = s.mUpdatingDNS := by
  unfold readyReadKey
  split
  · rw [guard_setResolverCacheSize]
    split <;> rfl
  · split
    · rw [guard_of_view _ _ (cacheView_setRefreshPeriod e _ _)]
      split <;> rfl
    · split
      · dsimp only
        split <;> rfl
      · split
        · dsimp only
          split <;> rfl
        · split
          · exact guard_updateDNS e s _
          · rfl

theorem guard_readyReadPacket (e : Env) :
    ∀ (packet : Packet) (s : OpenNICServer),
      (readyReadPacket e packet s).mUpdatingDNS = s.mUpdatingDNS := by
  intro packet
  induction packet with
  | nil => intro s; rfl
  | cons entry rest ih =>
    intro s
    simp only [readyReadPacket]
    rw [ih, guard_readyReadKey]

theorem guard_readyReadLoop (e : Env) :
    ∀ (sessions : List QTcpSocket) (s : OpenNICServer),
      (readyReadLoop e sessions s).mUpdatingDNS = s.mUpdatingDNS := by
  intro sessions
  induction sessions with
  | nil => intro s; rfl
  | cons session rest ih =>
    intro s
    simp only [readyReadLoop]
    split
    · rw [ih, guard_readyReadPacket]
      rfl
    · exact ih s

theorem guard_announcePackets (e : Env) (s : OpenNICServer) :
    (announcePackets e s).mUpdatingDNS = s.mUpdatingDNS := by
  unfold announcePackets
  split
  · simp only [announceLoop_eq, logPurge]
  · rfl

theorem guard_readyRead (e : Env) (s : OpenNICServer) :
    (readyRead e s).mUpdatingDNS = s.mUpdatingDNS := by
  unfold readyRead
  simp only []
  split
  · rw [guard_announcePackets]
    show (readyReadLoop e _ _).mUpdatingDNS = _
    rw [guard_readyReadLoop]
  · show (readyReadLoop e _ _).mUpdatingDNS = _
    rw [guard_readyReadLoop]

theorem guard_purgeLoop (e : Env) :
    ∀ (fuel n : Nat) (s : OpenNICServer),
      (purgeLoop e fuel n s).mUpdatingDNS = s.mUpdatingDNS := by
  intro fuel
  induction fuel with
  | zero => intro n s; rfl
  | succ fuel ih =>
    intro n s
    simp only [purgeLoop]
    split
    · split
      · split
        · rw [ih]
          rfl
        · exact ih _ _
      · rfl
    · rfl

theorem guard_purgeDeadSesssions (e : Env) (s : OpenNICServer) :
    (purgeDeadSesssions e s).mUpdatingDNS = s.mUpdatingDNS :=
  guard_purgeLoop e _ _ s

theorem guard_runOnce (e : Env) (s : OpenNICServer) :
    (runOnce e s).mUpdatingDNS = s.mUpdatingDNS := by
  have key : ∀ s2 : OpenNICServer,
      (if s2.mSessions.length ≠ 0 then
        pruneLog (announcePackets e (purgeDeadSesssions e s2))
      else s2).mUpdatingDNS = s2.mUpdatingDNS := by
    intro s2
    split
    · show (announcePackets e (purgeDeadSesssions e s2)).mUpdatingDNS = _
      rw [guard_announcePackets, guard_purgeDeadSesssions]
    · rfl
  have h2 : (refreshResolvers e (readSettings e s) false).mUpdatingDNS = s.mUpdatingDNS := by
    rw [guard_refreshResolvers, guard_readSettings]
  exact (key _).trans h2

theorem guard_newConnectionLoop (e : Env) :
    ∀ (clients : List QTcpSocket) (s : OpenNICServer),
      (newConnectionLoop e clients s).mUpdatingDNS = s.mUpdatingDNS := by
  intro clients
  induction clients with
  | nil => intro s; rfl
  | cons client rest ih =>
    intro s
    simp only [newConnectionLoop]
    rw [ih]
    rfl

theorem guard_timerEvent (e : Env) (s : OpenNICServer) (timerId : Int) :
    (timerEvent e s timerId).mUpdatingDNS = s.mUpdatingDNS := by
  unfold timerEvent
  split
  · exact guard_runOnce e s
  · split
    · exact guard_refreshResolvers e s true
    · rfl

theorem guard_serverStep (s : OpenNICServer) (c : Env × ServerOp) :
    (serverStep s c).mUpdatingDNS = s.mUpdatingDNS := by
  unfold serverStep
  split
  · exact guard_updateDNS _ _ _
  · exact guard_setResolverCacheSize _ _ _
  · exact guard_of_view _ _ (cacheView_setRefreshPeriod _ _ _)
  · exact guard_refreshResolvers _ _ _
  · exact guard_coldBoot _ _
  · exact guard_readyRead _ _
  · exact guard_runOnce _ _
  · exact guard_newConnectionLoop _ _ _
  · exact guard_timerEvent _ _ _

theorem guard_serverRun (ops : List (Env × ServerOp)) :
    ∀ s : OpenNICServer, (serverRun s ops).mUpdatingDNS = s.mUpdatingDNS := by
  induction ops with
  | nil => intro s; rfl
  | cons c rest ih =>
    intro s
    show (serverRun (serverStep s c) rest).mUpdatingDNS = _
    rw [ih, guard_serverStep]

theorem guard_construct (e : Env) (settings : Settings) :
    (construct e settings).mUpdatingDNS = false := by
  unfold construct
  simp only [startTimer]
  rw [guard_of_view _ _ (cacheView_initializeServer e _), guard_readSettings]
  rfl

theorem GuardInv_of_view (s t : OpenNICServer) (hv : guardView t = guardView s)
    (h : GuardInv s) : GuardInv t := by
  simp only [guardView, Prod.mk.injEq] at hv
  obtain ⟨h1, h2, h3⟩ := hv
  unfold GuardInv at h ⊢
  rw [h1, h2, h3]
  exact h

theorem updateDNSCalls_send (packet : Packet) (sessions : List QTcpSocket) :
    updateDNSCalls (sessions.map (fun session => Event.send session packet)) = [] := by
  induction sessions with
  | nil => rfl
  | cons session rest ih => simp [updateDNSCalls]

theorem guardView_setRefreshPeriod (e : Env) (s : OpenNICServer) (period : Int) :
    guardView (setRefreshPeriod e s period) = guardView s := by
  unfold setRefreshPeriod
  split
  · dsimp only
    split <;> simp [guardView, startTimer, killTimer, log, updateDNSCalls]
  · rfl

theorem guardView_initializeServer (e : Env) (s : OpenNICServer) :
    guardView (initializeServer e s).1 = guardView s := by
  unfold initializeServer
  split
  · split <;> simp [guardView, log, updateDNSCalls]
  · rfl

theorem guardView_bootstrapResolvers (e : Env) (s : OpenNICServer) :
    guardView (bootstrapResolvers e s).1 = guardView s := by
  obtain ⟨l, c, h⟩ := bootstrapResolvers_eq e s
  rw [h]
  simp [guardView, updateDNSCalls_append, updateDNSCalls_installEvents]

theorem guardView_testResolverCache (e : Env) (s : OpenNICServer) :
    guardView (testResolverCache e s).1 = guardView s := by
  unfold testResolverCache
  obtain ⟨l, c, h⟩ := testResolverCacheLoop_eq e s.mResolverCache s
  rw [h]
  simp [guardView, updateDNSCalls_append, updateDNSCalls_alive]

theorem guardView_writeSettings (s : OpenNICServer) :
    guardView (writeSettings s) = guardView s := by
  simp [guardView, writeSettings, updateDNSCalls]

theorem guardView_announcePackets (e : Env) (s : OpenNICServer) :
    guardView (announcePackets e s) = guardView s := by
  unfold announcePackets
  split
  · simp [announceLoop_eq, logPurge, guardView, updateDNSCalls_append, updateDNSCalls_send]
  · rfl

theorem guardView_purgeLoop (e : Env) :
    ∀ (fuel n : Nat) (s : OpenNICServer),
      guardView (purgeLoop e fuel n s) = guardView s := by
  intro fuel
  induction fuel with
  | zero => intro n s; rfl
  | succ fuel ih =>
    intro n s
    simp only [purgeLoop]
    split
    · split
      · split
        · rw [ih]
          simp [guardView, log, updateDNSCalls]
        · exact ih _ _
      · rfl
    · rfl

theorem guardView_newConnectionLoop (e : Env) :
    ∀ (clients : List QTcpSocket) (s : OpenNICServer),
      guardView (newConnectionLoop e clients s) = guardView s := by
  intro clients
  induction clients with
  | nil => intro s; rfl
  | cons client rest ih =>
    intro s
    simp only [newConnectionLoop]
    rw [ih]
    rfl

/-- A call of `updateDNS` with the guard clear enters the body. -/
theorem bodyRuns_updateDNS (e : Env) (s : OpenNICServer) (resolverCount : Int)
    (hg : s.mUpdatingDNS = false) :
    (updateDNS e s resolverCount).1.ghostBodyRuns = s.ghostBodyRuns + 1 := by
  cases ha : shouldReplaceWithProposed e s (proposal e s resolverCount) with
  | true =>
    obtain ⟨l, c, h⟩ := updateDNS_accept e s resolverCount hg ha
    rw [h]
  | false =>
    obtain ⟨l, c, h⟩ := updateDNS_reject e s resolverCount hg ha
    rw [h]

theorem GuardInv_updateDNS (e : Env) (s : OpenNICServer) (resolverCount : Int)
    (h : GuardInv s) : GuardInv (updateDNS e s resolverCount).1 := by
  refine ⟨(guard_updateDNS e s resolverCount).trans h.1, ?_⟩
  rw [bodyRuns_updateDNS e s resolverCount h.1, (updateDNS_calls e s resolverCount).1,
    List.length_append, h.2]
  rfl

theorem GuardInv_setResolverCacheSize (e : Env) (s : OpenNICServer) (size : Int)
    (h : GuardInv s) : GuardInv (setResolverCacheSize e s size) := by
  unfold setResolverCacheSize
  split
  · exact GuardInv_updateDNS e _ _ h
  · exact h

theorem GuardInv_readSettings (e : Env) (s : OpenNICServer) (h : GuardInv s) :
    GuardInv (readSettings e s) := by
  unfold readSettings
  apply GuardInv_setResolverCacheSize
  apply GuardInv_of_view _ _ (guardView_setRefreshPeriod e _ _)
  exact h

theorem GuardInv_coldBoot (e : Env) (s : OpenNICServer) (h : GuardInv s) :
    GuardInv (coldBoot e s) := by
  have h4 : GuardInv (readSettings e
      (log e (log e (log e s "** COLD BOOT **") (copyright e)) (license e))) :=
    GuardInv_readSettings e _ h
  have h5 := GuardInv_of_view _ _ (guardView_bootstrapResolvers e _) h4
  unfold coldBoot
  simp only []
  split
  · exact GuardInv_of_view _ _ (guardView_initializeServer e _) h5
  · exact h5

theorem GuardInv_refreshResolvers (e : Env) (s : OpenNICServer) (force : Bool)
    (h : GuardInv s) : GuardInv (refreshResolvers e s force) := by
  have h1 : GuardInv (if (!s.mResolversInitialized) = true then coldBoot e s else s) := by
    split
    · exact GuardInv_coldBoot e s h
    · exact h
  have key : ∀ s1 : OpenNICServer, GuardInv s1 →
      GuardInv (if force = true ∨ s1.mResolverCache.length = 0 ∨
          (s1.mResolverCache.length : Int) < s1.mResolverCacheSize then
        (updateDNS e s1 s1.mResolverCacheSize).1
      else if s1.mResolverCache.length ≠ 0 then
        if (!(testResolverCache e s1).2) = true then
          (updateDNS e (testResolverCache e s1).1
            (testResolverCache e s1).1.mResolverCacheSize).1
        else
          (testResolverCache e s1).1
      else
        s1) := by
    intro s1 hs1
    have ht := GuardInv_of_view _ _ (guardView_testResolverCache e s1) hs1
    split
    · exact GuardInv_updateDNS e _ _ hs1
    · split
      · split
        · exact GuardInv_updateDNS e _ _ ht
        · exact ht
      · exact hs1
  exact key _ h1

theorem GuardInv_readyReadKey (e : Env) (s : OpenNICServer) (key : String) (value : QVariant)
    (h : GuardInv s) : GuardInv (readyReadKey e s key value) := by
  unfold readyReadKey
  split
  · apply GuardInv_setResolverCacheSize
    split
    · exact h
    · exact h
  · split
    · apply GuardInv_of_view _ _ (guardView_setRefreshPeriod e _ _)
      split
      · exact h
      · exact h
    · split
      · apply GuardInv_of_view _ _ _ h
        dsimp only
        split <;> simp [guardView, updateDNSCalls]
      · split
        · apply GuardInv_of_view _ _ _ h
          dsimp only
          split <;> simp [guardView, updateDNSCalls]
        · split
          · exact GuardInv_updateDNS e s _ h
          · exact h

theorem GuardInv_readyReadPacket (e : Env) :
    ∀ (packet : Packet) (s : OpenNICServer), GuardInv s →
      GuardInv (readyReadPacket e packet s) := by
  intro packet
  induction packet with
  | nil => intro s h; exact h
  | cons entry rest ih =>
    intro s h
    simp only [readyReadPacket]
    exact ih _ (GuardInv_readyReadKey e s _ _ h)

theorem GuardInv_readyReadLoop (e : Env) :
    ∀ (sessions : List QTcpSocket) (s : OpenNICServer), GuardInv s →
      GuardInv (readyReadLoop e sessions s) := by
  intro sessions
  induction sessions with
  | nil => intro s h; exact h
  | cons session rest ih =>
    intro s h
    simp only [readyReadLoop]
    split
    · exact ih _ (GuardInv_readyReadPacket e _ _ h)
    · exact ih s h

theorem GuardInv_readyRead (e : Env) (s : OpenNICServer) (h : GuardInv s) :
    GuardInv (readyRead e s) := by
  have h1 : GuardInv (writeSettings (readyReadLoop e s.mSessions { s with mAsyncMessage := "" })) :=
    GuardInv_of_view _ _ (guardView_writeSettings _) (GuardInv_readyReadLoop e _ _ h)
  unfold readyRead
  simp only []
  split
  · exact GuardInv_of_view _ _ (guardView_announcePackets e _) h1
  · exact h1

theorem GuardInv_runOnce (e : Env) (s : OpenNICServer) (h : GuardInv s) :
    GuardInv (runOnce e s) := by
  have key : ∀ s2 : OpenNICServer, GuardInv s2 →
      GuardInv (if s2.mSessions.length ≠ 0 then
        pruneLog (announcePackets e (purgeDeadSesssions e s2))
      else s2) := by
    intro s2 h2
    split
    · have h3 : GuardInv (purgeDeadSesssions e s2) :=
        GuardInv_of_view _ _ (guardView_purgeLoop e _ _ s2) h2
      exact GuardInv_of_view _ _ (guardView_announcePackets e _) h3
    · exact h2
  exact key _ (GuardInv_refreshResolvers e _ false (GuardInv_readSettings e s h))

theorem GuardInv_timerEvent (e : Env) (s : OpenNICServer) (timerId : Int)
    (h : GuardInv s) : GuardInv (timerEvent e s timerId) := by
  unfold timerEvent
  split
  · exact GuardInv_runOnce e s h
  · split
    · exact GuardInv_refreshResolvers e s true h
    · exact h

theorem GuardInv_serverStep (s : OpenNICServer) (c : Env × ServerOp) (h : GuardInv s) :
    GuardInv (serverStep s c) := by
  unfold serverStep
  split
  · exact GuardInv_updateDNS _ _ _ h
  · exact GuardInv_setResolverCacheSize _ _ _ h
  · exact GuardInv_of_view _ _ (guardView_setRefreshPeriod _ _ _) h
  · exact GuardInv_refreshResolvers _ _ _ h
  · exact GuardInv_coldBoot _ _ h
  · exact GuardInv_readyRead _ _ h
  · exact GuardInv_runOnce _ _ h
  · exact GuardInv_of_view _ _ (guardView_newConnectionLoop _ _ _) h
  · exact GuardInv_timerEvent _ _ _ h

theorem GuardInv_serverRun (ops : List (Env × ServerOp)) :
    ∀ s : OpenNICServer, GuardInv s → GuardInv (serverRun s ops) := by
  induction ops with
  | nil => intro s h; exact h
  | cons c rest ih => intro s h; exact ih _ (GuardInv_serverStep s c h)

theorem GuardInv_constructed (settings : Settings) : GuardInv (constructed settings) :=
  ⟨rfl, rfl⟩

theorem GuardInv_construct (e : Env) (settings : Settings) :
    GuardInv (construct e settings) := by
  have h1 := GuardInv_readSettings e _ (GuardInv_constructed settings)
  have h2 := GuardInv_of_view _ _ (guardView_initializeServer e _) h1
  unfold construct
  refine GuardInv_of_view _ _ ?_ h2
  simp [guardView, startTimer, updateDNSCalls]

/-- With the guard clear `updateDNS` runs its body: it sorts the universe pool
and the active cache and the return value are decided by the policy. -/
theorem updateDNS_body (e : Env) (s : OpenNICServer) (resolverCount : Int)
    (hg : s.mUpdatingDNS = false) :
    (updateDNS e s resolverCount).1.mResolverPool
      = OpenNICResolverPool.sort e s.mResolverPool ∧
    (updateDNS e s resolverCount).1.mResolverCache
      = (if shouldReplaceWithProposed e s (proposal e s resolverCount) = true
          then OpenNICResolverPool.sort e (proposal e s resolverCount)
          else s.mResolverCache) ∧
    (updateDNS e s resolverCount).2
      = (if shouldReplaceWithProposed e s (proposal e s resolverCount) = true
          then ((OpenNICResolverPool.sort e (proposal e s resolverCount)).length : Int)
          else 0) := by
  cases ha : shouldReplaceWithProposed e s (proposal e s resolverCount) with
  | true =>
    obtain ⟨l, c, h⟩ := updateDNS_accept e s resolverCount hg ha
    rw [h]
    exact ⟨rfl, rfl, rfl⟩
  | false =>
    obtain ⟨l, c, h⟩ := updateDNS_reject e s resolverCount hg ha
    rw [h]
    exact ⟨rfl, by simp, by simp⟩

/-- C19: in every state reached from the constructed state (as the member
initialisers leave it, or after the constructor body) by completed calls of
`updateDNS`, `setResolverCacheSize`, `setRefreshPeriod`, `refreshResolvers`,
`coldBoot`, `readyRead`, `runOnce`, `newConnection` and `timerEvent`, the guard
bit is false, and as many calls of `updateDNS` have entered the body as were
made at all during the run, the calls made from inside `setResolverCacheSize`,
`readSettings`, `coldBoot`, `refreshResolvers`, `readyRead` and `runOnce`
included: no call took the no-op branch.  The counter of body entries means
what it says: any call of `updateDNS` either finds the guard set and leaves the
counter alone, or finds it clear, adds one to the counter, sorts the universe
pool and lets the policy decide the active cache and the return value.  So
does a further call of `updateDNS` in the state reached. -/
theorem guard_clear_when_reachable (e0 : Env) (settings : Settings)
    (ops : List (Env × ServerOp)) (s : OpenNICServer)
    (hs : s = serverRun (constructed settings) ops ∨
      s = serverRun (construct e0 settings) ops) :
    s.mUpdatingDNS = false ∧
    s.ghostBodyRuns = (updateDNSCalls s.trace).length ∧
    (∀ (t : OpenNICServer) (e : Env) (resolverCount : Int),
      (t.mUpdatingDNS = true ∧
        (updateDNS e t resolverCount).1.ghostBodyRuns = t.ghostBodyRuns ∧
        updateDNSCalls (updateDNS e t resolverCount).1.trace
          = updateDNSCalls t.trace ++ [resolverCount]) ∨
      (t.mUpdatingDNS = false ∧
        (updateDNS e t resolverCount).1.ghostBodyRuns = t.ghostBodyRuns + 1 ∧
        updateDNSCalls (updateDNS e t resolverCount).1.trace
          = updateDNSCalls t.trace ++ [resolverCount] ∧
        (updateDNS e t resolverCount).1.mResolverPool
          = OpenNICResolverPool.sort e t.mResolverPool ∧
        (updateDNS e t resolverCount).1.mResolverCache
          = (if shouldReplaceWithProposed e t (proposal e t resolverCount) = true
              then OpenNICResolverPool.sort e (proposal e t resolverCount)
              else t.mResolverCache) ∧
        (updateDNS e t resolverCount).2
          = (if shouldReplaceWithProposed e t (proposal e t resolverCount) = true
              then ((OpenNICResolverPool.sort e (proposal e t resolverCount)).length : Int)
              else 0))) ∧
    ∀ (e : Env) (resolverCount : Int),
      (updateDNS e s resolverCount).1.mResolverPool
        = OpenNICResolverPool.sort e s.mResolverPool ∧
      (updateDNS e s resolverCount).1.mResolverCache
        = (if shouldReplaceWithProposed e s (proposal e s resolverCount) = true
            then OpenNICResolverPool.sort e (proposal e s resolverCount)
            else s.mResolverCache) ∧
      (updateDNS e s resolverCount).2
        = (if shouldReplaceWithProposed e s (proposal e s resolverCount) = true
            then ((OpenNICResolverPool.sort e (proposal e s resolverCount)).length : Int)
            else 0) := by
  have hinv : GuardInv s := by
    rcases hs with hs | hs
    · rw [hs]
      exact GuardInv_serverRun ops _ (GuardInv_constructed settings)
    · rw [hs]
      exact GuardInv_serverRun ops _ (GuardInv_construct e0 settings)
  refine ⟨hinv.1, hinv.2, ?_, fun e resolverCount => updateDNS_body e s resolverCount hinv.1⟩
  intro t e resolverCount
  by_cases hg : t.mUpdatingDNS = true
  · refine Or.inl ⟨hg, ?_, (updateDNS_calls e t resolverCount).1⟩
    rw [updateDNS_guarded e t resolverCount hg]
  · rw [Bool.not_eq_true] at hg
    exact Or.inr ⟨hg, bodyRuns_updateDNS e t resolverCount hg,
      (updateDNS_calls e t resolverCount).1, updateDNS_body e t resolverCount hg⟩

theorem guard_clear_when_reachable_witness :
    (serverRun (constructed ⟨none, none, none⟩)
        [(sampleEnv, ServerOp.runOnce), (sampleEnv, ServerOp.setResolverCacheSize 2),
         (sampleEnv, ServerOp.updateDNS 3)]).mUpdatingDNS = false ∧
    updateDNSCalls (serverRun (constructed ⟨none, none, none⟩)
        [(sampleEnv, ServerOp.runOnce), (sampleEnv, ServerOp.setResolverCacheSize 2),
         (sampleEnv, ServerOp.updateDNS 3)]).trace = [3, 3, 2, 3] ∧
    (serverRun (constructed ⟨none, none, none⟩)
        [(sampleEnv, ServerOp.runOnce), (sampleEnv, ServerOp.setResolverCacheSize 2),
         (sampleEnv, ServerOp.updateDNS 3)]).ghostBodyRuns = 4 ∧
    (updateDNS sampleEnv
        (serverRun (constructed ⟨none, none, none⟩)
          [(sampleEnv, ServerOp.runOnce), (sampleEnv, ServerOp.setResolverCacheSize 2),
           (sampleEnv, ServerOp.updateDNS 3)]) 2).1.mResolverPool
      = OpenNICResolverPool.sort sampleEnv
          (serverRun (constructed ⟨none, none, none⟩)
            [(sampleEnv, ServerOp.runOnce), (sampleEnv, ServerOp.setResolverCacheSize 2),
             (sampleEnv, ServerOp.updateDNS 3)]).mResolverPool :=
  have h := guard_clear_when_reachable sampleEnv ⟨none, none, none⟩
    [(sampleEnv, ServerOp.runOnce), (sampleEnv, ServerOp.setResolverCacheSize 2),
     (sampleEnv, ServerOp.updateDNS 3)]
    (serverRun (constructed ⟨none, none, none⟩)
      [(sampleEnv, ServerOp.runOnce), (sampleEnv, ServerOp.setResolverCacheSize 2),
       (sampleEnv, ServerOp.updateDNS 3)]) (Or.inl rfl)
  have hcalls : updateDNSCalls (serverRun (constructed ⟨none, none, none⟩)
      [(sampleEnv, ServerOp.runOnce), (sampleEnv, ServerOp.setResolverCacheSize 2),
       (sampleEnv, ServerOp.updateDNS 3)]).trace = [3, 3, 2, 3] := by decide
  ⟨h.1, hcalls, h.2.1.trans (by rw [hcalls]; rfl), (h.2.2.2 sampleEnv 2).1⟩

/-! ## A single resolver -/

theorem target_updateDNS (e : Env) (s : OpenNICServer) (resolverCount : Int) :
    (updateDNS e s resolverCount).1.mResolverCacheSize = s.mResolverCacheSize := by
  cases hg : s.mUpdatingDNS with
  | true =>
    rw [updateDNS_guarded e s resolverCount hg]
  | false =>
    cases ha : shouldReplaceWithProposed e s (proposal e s resolverCount) with
    | true =>
      obtain ⟨l, c, h⟩ := updateDNS_accept e s resolverCount hg ha
      rw [h]
    | false =>
      obtain ⟨l, c, h⟩ := updateDNS_reject e s resolverCount hg ha
      rw [h]

/-- What `updateDNS(1)` does to a cache of one candidate when the pool is not
empty. -/
theorem updateDNS_single (e : Env) (s : OpenNICServer) (a : OpenNICResolverPoolItem)
    (hg : s.mUpdatingDNS = false) (hc : s.mResolverCache = [a])
    (hpool : s.mResolverPool ≠ []) :
    ∃ p, (OpenNICResolverPool.sort e s.mResolverPool).head? = some p ∧
      (e.itemEq p a = true →
        (updateDNS e s 1).1.mResolverCache = [p] ∧ (updateDNS e s 1).2 = 1 ∧
        installCalls (updateDNS e s 1).1.trace
          = installCalls s.trace ++ [(p.hostAddress, 1)]) ∧
      (e.itemEq p a = false →
        (updateDNS e s 1).1.mResolverCache = [a] ∧ (updateDNS e s 1).2 = 0 ∧
        installCalls (updateDNS e s 1).1.trace = installCalls s.trace) := by
  have hlen := sort_length e s.mResolverPool
  cases hsort : OpenNICResolverPool.sort e s.mResolverPool with
  | nil =>
    rw [hsort] at hlen
    exact absurd (List.length_eq_zero.mp hlen.symm) hpool
  | cons p rest =>
    have hprop : proposal e s 1 = [p] := by
      unfold proposal
      rw [hsort]
      rfl
    have hshould : shouldReplaceWithProposed e s [p] = e.itemEq p a := by
      unfold shouldReplaceWithProposed
      rw [hc]
      simp
    have hsort1 : OpenNICResolverPool.sort e [p] = [p] := rfl
    refine ⟨p, rfl, ?_, ?_⟩
    · intro heq
      obtain ⟨l, c, h⟩ := updateDNS_accept e s 1 hg (by rw [hprop, hshould]; exact heq)
      rw [h, hprop, hsort1]
      refine ⟨rfl, rfl, ?_⟩
      simp [installCalls, installEvents]
    · intro hne
      obtain ⟨l, c, h⟩ := updateDNS_reject e s 1 hg (by rw [hprop, hshould]; exact hne)
      rw [h]
      refine ⟨hc, rfl, ?_⟩
      simp [installCalls]

theorem updateDNS_single_step (e : Env) (s : OpenNICServer) (x : OpenNICResolverPoolItem)
    (hg : s.mUpdatingDNS = false) (hc : s.mResolverCache = [x])
    (hp : (updateDNS e s 1).1.mResolverPool ≠ []) :
    ∃ y, (updateDNS e s 1).1.mResolverCache = [y] ∧ (y = x ∨ e.itemEq y x = true) := by
  have hpool : s.mResolverPool ≠ [] := by
    intro hnil
    apply hp
    rw [(updateDNS_body e s 1 hg).1, hnil]
    rfl
  obtain ⟨p, _, hyes, hno⟩ := updateDNS_single e s x hg hc hpool
  cases heq : e.itemEq p x with
  | true => exact ⟨p, (hyes heq).1, Or.inr heq⟩
  | false => exact ⟨x, (hno heq).1, Or.inl rfl⟩

theorem setResolverCacheSize_of_target (e : Env) (s : OpenNICServer) (size : Int)
    (h : (setResolverCacheSize e s size).mResolverCacheSize = s.mResolverCacheSize) :
    setResolverCacheSize e s size = s := by
  by_cases hc : s.mResolverCacheSize ≠ size ∧ size ≥ 0
  · exfalso
    unfold setResolverCacheSize at h
    rw [if_pos hc, target_updateDNS] at h
    exact hc.1 h.symm
  · unfold setResolverCacheSize
    rw [if_neg hc]

theorem readSettings_of_target (e : Env) (s : OpenNICServer)
    (h : (readSettings e s).mResolverCacheSize = s.mResolverCacheSize) :
    cacheView (readSettings e s) = cacheView s := by
  have hv := cacheView_setRefreshPeriod e
    { s with mTcpListenPort := s.settings.tcp_listen_port.getD DEFAULT_TCP_LISTEN_PORT }
    (s.settings.refresh_timer_period.getD DEFAULT_REFRESH_TIMER_PERIOD)
  have ht : (setRefreshPeriod e
      { s with mTcpListenPort := s.settings.tcp_listen_port.getD DEFAULT_TCP_LISTEN_PORT }
      (s.settings.refresh_timer_period.getD DEFAULT_REFRESH_TIMER_PERIOD)).mResolverCacheSize
      = s.mResolverCacheSize := congrArg (fun v => v.2.1) hv
  have hS : readSettings e s = setResolverCacheSize e
      (setRefreshPeriod e
        { s with mTcpListenPort := s.settings.tcp_listen_port.getD DEFAULT_TCP_LISTEN_PORT }
        (s.settings.refresh_timer_period.getD DEFAULT_REFRESH_TIMER_PERIOD))
      ((setRefreshPeriod e
        { s with mTcpListenPort := s.settings.tcp_listen_port.getD DEFAULT_TCP_LISTEN_PORT }
        (s.settings.refresh_timer_period.getD DEFAULT_REFRESH_TIMER_PERIOD)
        ).settings.resolver_cache_size.getD DEFAULT_RESOLVER_CACHE_SIZE) := rfl
  rw [hS] at h ⊢
  rw [setResolverCacheSize_of_target e _ _ (h.trans ht.symm)]
  exact hv

theorem cacheView_coldBoot (e : Env) (s : OpenNICServer) :
    cacheView (coldBoot e s) = cacheView (readSettings e
      (log e (log e (log e s "** COLD BOOT **") (copyright e)) (license e))) := by
  unfold coldBoot
  simp only []
  split
  · rw [cacheView_initializeServer, cacheView_bootstrapResolvers]
  · rw [cacheView_bootstrapResolvers]

theorem coldBoot_of_target (e : Env) (s : OpenNICServer)
    (h : (coldBoot e s).mResolverCacheSize = s.mResolverCacheSize) :
    cacheView (coldBoot e s) = cacheView s := by
  have hv := cacheView_coldBoot e s
  have ht : (readSettings e
      (log e (log e (log e s "** COLD BOOT **") (copyright e)) (license e))).mResolverCacheSize
      = (log e (log e (log e s "** COLD BOOT **") (copyright e))
          (license e)).mResolverCacheSize := by
    have := congrArg (fun v => v.2.1) hv
    simp only [cacheView] at this
    rw [← this]
    exact h
  rw [hv, readSettings_of_target e _ ht]
  rfl

theorem refreshResolvers_single_step (e : Env) (s : OpenNICServer) (force : Bool)
    (x : OpenNICResolverPoolItem)
    (ht : s.mResolverCacheSize = 1) (hg : s.mUpdatingDNS = false)
    (hc : s.mResolverCache = [x])
    (ht1 : (refreshResolvers e s force).mResolverCacheSize = 1)
    (hp1 : (refreshResolvers e s force).mResolverPool ≠ []) :
    ∃ y, (refreshResolvers e s force).mResolverCache = [y] ∧
      (y = x ∨ e.itemEq y x = true) := by
  have tkey : ∀ s1 : OpenNICServer,
      (if force = true ∨ s1.mResolverCache.length = 0 ∨
          (s1.mResolverCache.length : Int) < s1.mResolverCacheSize then
        (updateDNS e s1 s1.mResolverCacheSize).1
      else if s1.mResolverCache.length ≠ 0 then
        if (!(testResolverCache e s1).2) = true then
          (updateDNS e (testResolverCache e s1).1
            (testResolverCache e s1).1.mResolverCacheSize).1
        else
          (testResolverCache e s1).1
      else
        s1).mResolverCacheSize = s1.mResolverCacheSize := by
    intro s1
    have hv := cacheView_testResolverCache e s1
    have htt : (testResolverCache e s1).1.mResolverCacheSize = s1.mResolverCacheSize :=
      congrArg (fun v => v.2.1) hv
    split
    · exact target_updateDNS e _ _
    · split
      · split
        · rw [target_updateDNS, htt]
        · exact htt
      · rfl
  have key : ∀ s1 : OpenNICServer, s1.mUpdatingDNS = false → s1.mResolverCache = [x] →
      s1.mResolverCacheSize = 1 →
      (if force = true ∨ s1.mResolverCache.length = 0 ∨
          (s1.mResolverCache.length : Int) < s1.mResolverCacheSize then
        (updateDNS e s1 s1.mResolverCacheSize).1
      else if s1.mResolverCache.length ≠ 0 then
        if (!(testResolverCache e s1).2) = true then
          (updateDNS e (testResolverCache e s1).1
            (testResolverCache e s1).1.mResolverCacheSize).1
        else
          (testResolverCache e s1).1
      else
        s1).mResolverPool ≠ [] →
      ∃ y, (if force = true ∨ s1.mResolverCache.length = 0 ∨
          (s1.mResolverCache.length : Int) < s1.mResolverCacheSize then
        (updateDNS e s1 s1.mResolverCacheSize).1
      else if s1.mResolverCache.length ≠ 0 then
        if (!(testResolverCache e s1).2) = true then
          (updateDNS e (testResolverCache e s1).1
            (testResolverCache e s1).1.mResolverCacheSize).1
        else
          (testResolverCache e s1).1
      else
        s1).mResolverCache = [y] ∧ (y = x ∨ e.itemEq y x = true) := by
    intro s1 hg1 hc1 ht1'
    have hv := cacheView_testResolverCache e s1
    simp only [cacheView, Prod.mk.injEq] at hv
    obtain ⟨hvg, hvt, hvc, _⟩ := hv
    rw [ht1', hvt, ht1']
    split
    · intro hp
      exact updateDNS_single_step e s1 x hg1 hc1 hp
    · split
      · split
        · intro hp
          exact updateDNS_single_step e _ x (hvg.trans hg1) (hvc.trans hc1) hp
        · intro _
          exact ⟨x, hvc.trans hc1, Or.inl rfl⟩
      · intro _
        exact ⟨x, hc1, Or.inl rfl⟩
  have hs1t : (if (!s.mResolversInitialized) = true then coldBoot e s else s).mResolverCacheSize
      = s.mResolverCacheSize := by
    have := tkey (if (!s.mResolversInitialized) = true then coldBoot e s else s)
    rw [← this, ← ht] at *
    exact ht1.trans ht.symm
  have hs1v : cacheView (if (!s.mResolversInitialized) = true then coldBoot e s else s)
      = cacheView s := by
    split
    · rename_i hi
      rw [if_pos hi] at hs1t
      exact coldBoot_of_target e s hs1t
    · rfl
  simp only [cacheView, Prod.mk.injEq] at hs1v
  obtain ⟨hg1, ht1', hc1, _⟩ := hs1v
  exact key _ (hg1.trans hg) (hc1.trans hc) (ht1'.trans ht) hp1

theorem refreshAll_single (eq : OpenNICResolverPoolItem → OpenNICResolverPoolItem → Bool)
    (htrans : ∀ x y z, eq x y = true → eq y z = true → eq x z = true)
    (a : OpenNICResolverPoolItem) :
    ∀ (calls : List (Env × Bool)) (s : OpenNICServer) (x : OpenNICResolverPoolItem),
      s.mResolverCacheSize = 1 → s.mUpdatingDNS = false → s.mResolverCache = [x] →
      (x = a ∨ eq x a = true) → (∀ c ∈ calls, c.1.itemEq = eq) → StaysSingle s calls →
      ∃ y, (refreshAll s calls).mResolverCache = [y] ∧ (y = a ∨ eq y a = true) := by
  intro calls
  induction calls with
  | nil =>
    intro s x _ _ hc hx _ _
    exact ⟨x, hc, hx⟩
  | cons c rest ih =>
    intro s x ht hg hc hx henv hstay
    obtain ⟨ht1, hp1, hrest⟩ := hstay
    obtain ⟨y, hy, hyx⟩ := refreshResolvers_single_step c.1 s c.2 x ht hg hc ht1 hp1
    have hceq : c.1.itemEq = eq := henv c (List.mem_cons_self c rest)
    rw [hceq] at hyx
    have hya : y = a ∨ eq y a = true := by
      rcases hyx with hyx | hyx
      · rw [hyx]; exact hx
      · rcases hx with hx | hx
        · rw [← hx]; exact Or.inr hyx
        · exact Or.inr (htrans y x a hyx hx)
    exact ih (refreshResolvers c.1 s c.2) y ht1
      ((guard_refreshResolvers c.1 s c.2).trans hg) hy hya
      (fun d hd => henv d (List.mem_cons_of_mem c hd)) hrest

/-- C20, as the code has it: in a state with target cache size 1, the guard
clear and an active cache holding exactly one candidate `a`, `updateDNS(1)` over
a non-empty universe pool does not change the membership of the cache: when the
lowest-order pool candidate `p` equals `a` the cache is installed again, as
`[p]`, and 1 is returned; when it differs from `a` nothing is installed, 0 is
returned and the cache stays `[a]`.  Hence no sequence of
`refreshResolvers(force)` calls (forced or not, whatever the probes answer),
under one transitive candidate equality, along which the target cache size
stays 1 and the pool stays non-empty, replaces `a` by a different resolver: the
cache always holds one candidate, `a` itself or one equal to it. -/
theorem single_resolver_lock_in (s : OpenNICServer) (a : OpenNICResolverPoolItem)
    (ht : s.mResolverCacheSize = 1) (hg : s.mUpdatingDNS = false)
    (hc : s.mResolverCache = [a]) :
    (∀ e : Env, s.mResolverPool ≠ [] →
      ∃ p, (OpenNICResolverPool.sort e s.mResolverPool).head? = some p ∧
        (e.itemEq p a = true →
          (updateDNS e s 1).1.mResolverCache = [p] ∧ (updateDNS e s 1).2 = 1 ∧
          installCalls (updateDNS e s 1).1.trace
            = installCalls s.trace ++ [(p.hostAddress, 1)]) ∧
        (e.itemEq p a = false →
          (updateDNS e s 1).1.mResolverCache = [a] ∧ (updateDNS e s 1).2 = 0 ∧
          installCalls (updateDNS e s 1).1.trace = installCalls s.trace)) ∧
    (∀ (eq : OpenNICResolverPoolItem → OpenNICResolverPoolItem → Bool)
      (calls : List (Env × Bool)),
      (∀ x y z, eq x y = true → eq y z = true → eq x z = true) →
      (∀ c ∈ calls, c.1.itemEq = eq) → StaysSingle s calls →
      ∃ y, (refreshAll s calls).mResolverCache = [y] ∧ (y = a ∨ eq y a = true)) := by
  refine ⟨?_, ?_⟩
  · intro e hpool
    exact updateDNS_single e s a hg hc hpool
  · intro eq calls htrans henv hstay
    exact refreshAll_single eq htrans a calls s a ht hg hc (Or.inl rfl) henv hstay

theorem single_resolver_lock_in_witness :
    ((updateDNS sampleEnv
        (sampleServer 1 [sampleItem "c", sampleItem "b"] [sampleItem "a"]) 1).1.mResolverCache
        = [sampleItem "a"] ∧
      (updateDNS sampleEnv
        (sampleServer 1 [sampleItem "c", sampleItem "b"] [sampleItem "a"]) 1).2 = 0) ∧
    (∃ y, (refreshAll (sampleServer 1 [sampleItem "c", sampleItem "b"] [sampleItem "a"])
          [(sampleEnv, true), (sampleEnvDead, false)]).mResolverCache = [y] ∧
      (y = sampleItem "a" ∨ sampleEnv.itemEq y (sampleItem "a") = true)) := by
  have h := single_resolver_lock_in
    (sampleServer 1 [sampleItem "c", sampleItem "b"] [sampleItem "a"]) (sampleItem "a")
    rfl rfl rfl
  constructor
  · obtain ⟨p, hp, _, hno⟩ := h.1 sampleEnv (by decide)
    have hb : p = sampleItem "b" := by
      have hd : (OpenNICResolverPool.sort sampleEnv
          (sampleServer 1 [sampleItem "c", sampleItem "b"] [sampleItem "a"]).mResolverPool).head?
          = some (sampleItem "b") := by decide
      rw [hd] at hp
      exact (Option.some.inj hp).symm
    rw [hb] at hno
    exact ⟨(hno (by decide)).1, (hno (by decide)).2.1⟩
  · refine h.2 sampleEnv.itemEq [(sampleEnv, true), (sampleEnvDead, false)]
      sampleEnv_itemEq_trans ?_ ?_
    · intro c hc
      simp only [List.mem_cons, List.mem_singleton, List.not_mem_nil, or_false] at hc
      rcases hc with hc | hc
      · rw [hc]
      · rw [hc]; rfl
    · exact ⟨by decide, by decide, by decide, by decide, trivial⟩

/-- C20 as stated fails: a state with target cache size 1, the guard clear, the
cache `[a]` and a non-empty pool need not be initialised; when the stored
cache size is 3 one `refreshResolvers(false)` cold boots and re-reads the
target size as 3, whereupon `updateDNS(3)` installs `b` and `c` from the pool
as it stands, in place of `a`; the refresh ends with three other resolvers in
the cache and a pool that is not empty. -/
theorem refreshResolvers_replaces_single_resolver :
    ({ sampleServer 1 [sampleItem "b", sampleItem "c"] [sampleItem "a"] with
        mResolversInitialized := false, settings := ⟨none, some 0, some 3⟩ }
      : OpenNICServer).mResolverCacheSize = 1 ∧
    ({ sampleServer 1 [sampleItem "b", sampleItem "c"] [sampleItem "a"] with
        mResolversInitialized := false, settings := ⟨none, some 0, some 3⟩ }
      : OpenNICServer).mUpdatingDNS = false ∧
    ({ sampleServer 1 [sampleItem "b", sampleItem "c"] [sampleItem "a"] with
        mResolversInitialized := false, settings := ⟨none, some 0, some 3⟩ }
      : OpenNICServer).mResolverCache = [sampleItem "a"] ∧
    ({ sampleServer 1 [sampleItem "b", sampleItem "c"] [sampleItem "a"] with
        mResolversInitialized := false, settings := ⟨none, some 0, some 3⟩ }
      : OpenNICServer).mResolverPool ≠ [] ∧
    (refreshResolvers sampleEnv
        { sampleServer 1 [sampleItem "b", sampleItem "c"] [sampleItem "a"] with
          mResolversInitialized := false, settings := ⟨none, some 0, some 3⟩ }
        false).mResolverPool ≠ [] ∧
    (refreshResolvers sampleEnv
        { sampleServer 1 [sampleItem "b", sampleItem "c"] [sampleItem "a"] with
          mResolversInitialized := false, settings := ⟨none, some 0, some 3⟩ }
        false).mResolverCache
      = [sampleItem "10.0.0.1", sampleItem "10.0.0.2", sampleItem "10.0.0.3"] ∧
    OpenNICResolverPool.contains sampleEnv
      (refreshResolvers sampleEnv
        { sampleServer 1 [sampleItem "b", sampleItem "c"] [sampleItem "a"] with
          mResolversInitialized := false, settings := ⟨none, some 0, some 3⟩ }
        false).mResolverCache (sampleItem "a") = false ∧
    (refreshResolvers sampleEnv
        { sampleServer 1 [sampleItem "b", sampleItem "c"] [sampleItem "a"] with
          mResolversInitialized := false, settings := ⟨none, some 0, some 3⟩ }
        false).trace.take 3
      = [Event.updateDNS 3, Event.insertSystemResolver "b" 1,
          Event.insertSystemResolver "c" 2] := by
  decide

/-! ## Lines logged by the operations -/

theorem LogExt_rfl (k : Nat) (a : List String) : LogExt k a a := Or.inl rfl

theorem LogExt_trans {j k n : Nat} {a b c : List String}
    (h1 : LogExt j a b) (h2 : LogExt k b c) (hn : j + k ≤ n) : LogExt n a c := by
  rcases h1 with h1 | ⟨l1, hl1, h1⟩
  · rcases h2 with h2 | ⟨l2, hl2, h2⟩
    · exact Or.inl (h2.trans h1)
    · exact Or.inr ⟨l2, by omega, by rw [h2, h1]⟩
  · rcases h2 with h2 | ⟨l2, hl2, h2⟩
    · exact Or.inr ⟨l1, by omega, by rw [h2, h1]⟩
    · refine Or.inr ⟨l1 ++ l2, by rw [List.length_append]; omega, ?_⟩
      rw [h2, h1, keepLast_append_keepLast, List.append_assoc]

theorem LogExt_log (e : Env) (s : OpenNICServer) (msg : String) :
    LogExt 1 s.mLog (log e s msg).mLog :=
  Or.inr ⟨[e.clock s.clockReads ++ "|" ++ msg], by simp, log_mLog e s msg⟩

/-- A line is still in the log when at most 99 lines were logged after it. -/
theorem mem_of_LogExt (k : Nat) (a0 b : List String) (x : String)
    (h : LogExt k (keepLast (a0 ++ [x])) b) (hk : k ≤ 99) : x ∈ b := by
  have hsuffix : ∀ (l r : List String), r.length ≤ MAX_LOG_LINES → ∀ y ∈ r, y ∈ keepLast (l ++ r) := by
    intro l r hr y hy
    unfold keepLast
    have hle : (l ++ r).length - MAX_LOG_LINES ≤ l.length := by
      rw [List.length_append]; omega
    rw [List.drop_append_of_le_length hle]
    exact List.mem_append_right _ hy
  rcases h with h | ⟨lines, hl, h⟩
  · rw [h]
    exact hsuffix a0 [x] (by simp [MAX_LOG_LINES]) x (List.mem_singleton_self x)
  · rw [h, keepLast_append_keepLast, List.append_assoc]
    refine hsuffix a0 ([x] ++ lines) ?_ x (by simp)
    simp only [List.length_append, List.length_singleton, MAX_LOG_LINES]
    omega

theorem LogExt_replaceLoop (e : Env) :
    ∀ (items : OpenNICResolverPool) (n : Nat) (s : OpenNICServer),
      LogExt items.length s.mLog (replaceLoop e items n s).mLog := by
  intro items
  induction items with
  | nil => intro n s; exact LogExt_rfl _ _
  | cons item rest ih =>
    intro n s
    simp only [replaceLoop]
    refine LogExt_trans (LogExt_log e _ _) (ih _ _) ?_
    simp only [List.length_cons]
    omega

theorem LogExt_replaceActiveResolvers (e : Env) (s : OpenNICServer)
    (proposed : OpenNICResolverPool) :
    LogExt (1 + proposed.length) s.mLog (replaceActiveResolvers e s proposed).mLog := by
  unfold replaceActiveResolvers
  simp only []
  refine LogExt_trans (LogExt_log e _ _) (LogExt_replaceLoop e _ _ _) ?_
  rw [sort_length]

theorem proposeLoop_length (resolverCount : Int) (pool : OpenNICResolverPool) :
    (proposeLoop resolverCount pool 0 []).length ≤ resolverCount.toNat := by
  rw [proposeLoop_eq]
  simp only [List.nil_append, Nat.cast_zero, sub_zero, List.length_take]
  omega

theorem LogExt_updateDNS (e : Env) (s : OpenNICServer) (resolverCount : Int) :
    LogExt (4 + resolverCount.toNat) s.mLog (updateDNS e s resolverCount).1.mLog := by
  unfold updateDNS
  simp only []
  split
  · split
    · refine LogExt_trans (j := 3) ?_ (LogExt_replaceActiveResolvers e _ _) ?_
      · refine LogExt_trans (j := 2) ?_ (LogExt_log e _ _) (le_refl _)
        refine LogExt_trans (j := 1) ?_ (LogExt_log e _ _) (le_refl _)
        exact LogExt_log e _ _
      · refine Nat.le_trans (Nat.add_le_add_left
          (Nat.add_le_add_left (proposeLoop_length resolverCount _) 1) 3) ?_
        omega
    · refine LogExt_trans (j := 2) (k := 1) ?_ (LogExt_log e _ _) (by omega)
      refine LogExt_trans (j := 1) ?_ (LogExt_log e _ _) (le_refl _)
      exact LogExt_log e _ _
  · exact LogExt_rfl _ _

/-- The effect of `updateDNS`, whatever the guard: only the pool, the cache, the
trace and the log change, the trace by the entry of the call and install
calls, the log by at most `4 + resolverCount` lines. -/
theorem updateDNS_frame (e : Env) (s : OpenNICServer) (resolverCount : Int) :
    ∃ (pool cache : OpenNICResolverPool) (ghost : Nat × Nat) (items : OpenNICResolverPool)
        (l : List String) (c : Nat),
      LogExt (4 + resolverCount.toNat) s.mLog l ∧
      (updateDNS e s resolverCount).1 =
        { s with
          mResolverPool := pool, mResolverCache := cache, ghostPoolCountAtReplace := ghost.1, ghostBodyRuns := ghost.2,
          trace := s.trace ++ Event.updateDNS resolverCount :: installEvents items 0,
          mLog := l, clockReads := c } := by
  have hlog := LogExt_updateDNS e s resolverCount
  by_cases hg : s.mUpdatingDNS = true
  · rw [updateDNS_guarded e s resolverCount hg] at hlog ⊢
    exact ⟨s.mResolverPool, s.mResolverCache, (s.ghostPoolCountAtReplace, s.ghostBodyRuns),
      [], s.mLog, s.clockReads, hlog, by simp [installEvents]⟩
  · rw [Bool.not_eq_true] at hg
    by_cases ha : shouldReplaceWithProposed e s (proposal e s resolverCount) = true
    · obtain ⟨l, c, h⟩ := updateDNS_accept e s resolverCount hg ha
      rw [h] at hlog ⊢
      exact ⟨_, _, (_, _), _, l, c, hlog, rfl⟩
    · rw [Bool.not_eq_true] at ha
      obtain ⟨l, c, h⟩ := updateDNS_reject e s resolverCount hg ha
      rw [h] at hlog ⊢
      exact ⟨OpenNICResolverPool.sort e s.mResolverPool, s.mResolverCache,
        (s.ghostPoolCountAtReplace, s.ghostBodyRuns + 1), [], l, c, hlog,
        by simp [installEvents]⟩

theorem readyReadLoop_append (e : Env) :
    ∀ (first second : List QTcpSocket) (s : OpenNICServer),
      readyReadLoop e (first ++ second) s
        = readyReadLoop e second (readyReadLoop e first s) := by
  intro first
  induction first with
  | nil => intro second s; rfl
  | cons session rest ih =>
    intro second s
    simp only [List.cons_append, readyReadLoop]
    split
    · exact ih _ _
    · exact ih _ _

/-- Sessions that deliver an empty packet only add their line to the log. -/
theorem readyReadLoop_idle (e : Env) :
    ∀ (sessions : List QTcpSocket) (s : OpenNICServer),
      (∀ x ∈ sessions, openValid x = true → e.clientPacket x = []) →
      ∃ l c, LogExt (sessions.filter openValid).length s.mLog l ∧
        readyReadLoop e sessions s = { s with mLog := l, clockReads := c } := by
  intro sessions
  induction sessions with
  | nil => intro s _; exact ⟨s.mLog, s.clockReads, LogExt_rfl _ _, rfl⟩
  | cons session rest ih =>
    intro s h
    have hrest : ∀ x ∈ rest, openValid x = true → e.clientPacket x = [] :=
      fun x hx => h x (List.mem_cons_of_mem session hx)
    by_cases ho : openValid session = true
    · have hpkt := h session (List.mem_cons_self session rest) ho
      have ho2 : (session.isOpen && session.isValid) = true := ho
      obtain ⟨l, c, hl, heq⟩ := ih
        (log e s ("got " ++ number (e.bytesAvailable session) ++ " bytes from client")) hrest
      refine ⟨l, c, ?_, ?_⟩
      · refine LogExt_trans (LogExt_log e s _) hl ?_
        simp only [List.filter_cons, ho, if_true, List.length_cons]
        omega
      · simp only [readyReadLoop, ho2, if_true, hpkt, readyReadPacket]
        rw [heq]
        rfl
    · have ho2 : ¬ (session.isOpen && session.isValid) = true := ho
      obtain ⟨l, c, hl, heq⟩ := ih s hrest
      refine ⟨l, c, ?_, ?_⟩
      · simp only [List.filter_cons, ho, if_false]
        exact hl
      · simp only [readyReadLoop, ho2, if_false]
        exact heq

/-- The session that delivers `resolver_cache_size = 5` while the target size
is 3: the notice is marked, the target size is set, the change is logged and
`updateDNS(5)` is called. -/
theorem readyReadLoop_resize (e : Env) (s : OpenNICServer) (c : QTcpSocket)
    (ho : openValid c = true)
    (hpkt : e.clientPacket c = [("resolver_cache_size", QVariant.int 5)])
    (ht : s.mResolverCacheSize = 3) :
    ∃ (pool cache : OpenNICResolverPool) (ghost : Nat × Nat) (items : OpenNICResolverPool)
        (l : List String) (cr : Nat) (l0 : List String) (k : Nat),
      LogExt 9 (keepLast (l0 ++
        [e.clock k ++ "|" ++ ("** ACTIVE CACHE SET TO " ++ number 5 ++ " RESOLVERS **")])) l ∧
      readyReadLoop e [c] s =
        { s with
          mResolverCacheSize := 5, mAsyncMessage := "Settings Applied",
          mResolverPool := pool, mResolverCache := cache, ghostPoolCountAtReplace := ghost.1, ghostBodyRuns := ghost.2,
          trace := s.trace ++ Event.updateDNS 5 :: installEvents items 0,
          mLog := l, clockReads := cr } := by
  have ho2 : (c.isOpen && c.isValid) = true := ho
  have hstep : readyReadLoop e [c] s = (updateDNS e
      (log e
        { log e s ("got " ++ number (e.bytesAvailable c) ++ " bytes from client") with
          mAsyncMessage := "Settings Applied", mResolverCacheSize := 5 }
        ("** ACTIVE CACHE SET TO " ++ number 5 ++ " RESOLVERS **")) 5).1 := by
    simp only [readyReadLoop, ho2, if_true, hpkt, readyReadPacket]
    unfold readyReadKey
    rw [if_pos rfl]
    simp only [QVariant.toInt]
    have hB : (log e s ("got " ++ number (e.bytesAvailable c) ++ " bytes from client")
        ).mResolverCacheSize = 3 := ht
    have hne : (log e s ("got " ++ number (e.bytesAvailable c) ++ " bytes from client")
        ).mResolverCacheSize ≠ 5 := by rw [hB]; decide
    rw [if_pos hne]
    unfold setResolverCacheSize
    rw [if_pos ⟨hne, by decide⟩]
    rfl
  obtain ⟨pool, cache, ghost, items, l, cr, hl, hu⟩ := updateDNS_frame e
      (log e
        { log e s ("got " ++ number (e.bytesAvailable c) ++ " bytes from client") with
          mAsyncMessage := "Settings Applied", mResolverCacheSize := 5 }
        ("** ACTIVE CACHE SET TO " ++ number 5 ++ " RESOLVERS **")) 5
  refine ⟨pool, cache, ghost, items, l, cr,
    (log e s ("got " ++ number (e.bytesAvailable c) ++ " bytes from client")).mLog,
    (log e s ("got " ++ number (e.bytesAvailable c) ++ " bytes from client")).clockReads,
    ?_, ?_⟩
  · rw [log_mLog] at hl
    exact LogExt_trans (LogExt_rfl 0 _) hl (by decide)
  · rw [hstep, hu]
    rfl

/-- C15: an open and valid session delivers `resolver_cache_size = 5` while
the target size is 3, and the other open sessions of the list deliver nothing.
Then `readyRead` sets the target size to 5 and calls `updateDNS(5)`, after that
writes the settings with `resolver_cache_size = 5`, and after that sends one
and the same snapshot to every open and valid session, in list order; the
snapshot has `resolver_cache_size` 5 and `async_message` "Settings Applied", and
its journal is the log to which the line recording the change was appended,
after at most 9 further lines and one per open session behind the sender, so
that it holds that line when at most 90 open sessions are behind the sender.
Afterwards the notice and the log are empty. -/
theorem readyRead_resize (e : Env) (s : OpenNICServer) (c : QTcpSocket)
    (pre post : List QTcpSocket)
    (hs : s.mSessions = pre ++ c :: post) (ho : openValid c = true)
    (hpkt : e.clientPacket c = [("resolver_cache_size", QVariant.int 5)])
    (hidle : ∀ x ∈ pre ++ post, openValid x = true → e.clientPacket x = [])
    (ht : s.mResolverCacheSize = 3) :
    (readyRead e s).mResolverCacheSize = 5 ∧
    (readyRead e s).settings.resolver_cache_size = some 5 ∧
    (readyRead e s).mAsyncMessage = "" ∧
    (readyRead e s).mLog = [] ∧
    ∃ (items : OpenNICResolverPool) (snapshot : OpenNICServer) (k : Nat),
      (readyRead e s).trace
        = s.trace ++ Event.updateDNS 5 :: installEvents items 0
          ++ Event.writeSettings ⟨some s.mTcpListenPort, some s.mRefreshTimerPeriod, some 5⟩
          :: ((pre ++ c :: post).filter openValid).map
              (fun x => Event.send x (makeServerPacket e snapshot)) ∧
      snapshot.mResolverCacheSize = 5 ∧
      snapshot.settings.resolver_cache_size = some 5 ∧
      snapshot.mAsyncMessage = "Settings Applied" ∧
      (∃ earlier : List String, LogExt (9 + (post.filter openValid).length)
        (keepLast (earlier ++
          [e.clock k ++ "|" ++ ("** ACTIVE CACHE SET TO " ++ number 5 ++ " RESOLVERS **")]))
        snapshot.mLog) ∧
      ((post.filter openValid).length ≤ 90 →
        (e.clock k ++ "|" ++ ("** ACTIVE CACHE SET TO " ++ number 5 ++ " RESOLVERS **"))
          ∈ snapshot.mLog) ∧
      (makeServerPacket e snapshot).lookup "resolver_cache_size" = some (QVariant.int 5) ∧
      (makeServerPacket e snapshot).lookup "async_message"
        = some (QVariant.string "Settings Applied") ∧
      (makeServerPacket e snapshot).lookup "journal_text"
        = some (QVariant.stringList snapshot.mLog) := by
  have hpre : ∀ x ∈ pre, openValid x = true → e.clientPacket x = [] :=
    fun x hx => hidle x (List.mem_append_left post hx)
  have hpostidle : ∀ x ∈ post, openValid x = true → e.clientPacket x = [] :=
    fun x hx => hidle x (List.mem_append_right pre hx)
  obtain ⟨l1, c1, _, h1⟩ := readyReadLoop_idle e pre { s with mAsyncMessage := "" } hpre
  obtain ⟨pool, cache, ghost, items, l2, c2, l0, k, hl2, h2⟩ := readyReadLoop_resize e
    { s with mAsyncMessage := "", mLog := l1, clockReads := c1 } c ho hpkt ht
  obtain ⟨l3, c3, hl3, h3⟩ := readyReadLoop_idle e post
    { s with
      mResolverCacheSize := 5, mAsyncMessage := "Settings Applied",
      mResolverPool := pool, mResolverCache := cache, ghostPoolCountAtReplace := ghost.1, ghostBodyRuns := ghost.2,
      trace := s.trace ++ Event.updateDNS 5 :: installEvents items 0,
      mLog := l2, clockReads := c2 } hpostidle
  have hloop : readyReadLoop e (pre ++ c :: post) { s with mAsyncMessage := "" } =
      { s with
        mResolverCacheSize := 5, mAsyncMessage := "Settings Applied",
        mResolverPool := pool, mResolverCache := cache, ghostPoolCountAtReplace := ghost.1, ghostBodyRuns := ghost.2,
        trace := s.trace ++ Event.updateDNS 5 :: installEvents items 0,
        mLog := l3, clockReads := c3 } := by
    have hsplit : pre ++ c :: post = pre ++ ([c] ++ post) := rfl
    rw [hsplit, readyReadLoop_append, readyReadLoop_append, h1]
    exact (congrArg (readyReadLoop e post) h2).trans h3
  have hne : (pre ++ c :: post).length ≠ 0 := by simp
  have hfinal : readyRead e s =
      { s with
        mResolverCacheSize := 5, mAsyncMessage := "",
        mResolverPool := pool, mResolverCache := cache, ghostPoolCountAtReplace := ghost.1, ghostBodyRuns := ghost.2,
        settings := ⟨some s.mTcpListenPort, some s.mRefreshTimerPeriod, some 5⟩,
        trace := s.trace ++ Event.updateDNS 5 :: installEvents items 0
          ++ Event.writeSettings ⟨some s.mTcpListenPort, some s.mRefreshTimerPeriod, some 5⟩
          :: ((pre ++ c :: post).filter openValid).map
              (fun x => Event.send x (makeServerPacket e
                { s with
                  mResolverCacheSize := 5, mAsyncMessage := "Settings Applied",
                  mResolverPool := pool, mResolverCache := cache,
                  ghostPoolCountAtReplace := ghost.1, ghostBodyRuns := ghost.2,
                  settings := ⟨some s.mTcpListenPort, some s.mRefreshTimerPeriod, some 5⟩,
                  trace := s.trace ++ Event.updateDNS 5 :: installEvents items 0
                    ++ [Event.writeSettings
                      ⟨some s.mTcpListenPort, some s.mRefreshTimerPeriod, some 5⟩],
                  mLog := l3, clockReads := c3 })),
        mLog := [], clockReads := c3 } := by
    have hr : readyRead e s =
        (if (!(writeSettings (readyReadLoop e (pre ++ c :: post)
              { s with mAsyncMessage := "" })).mAsyncMessage.isEmpty) = true then
          announcePackets e (writeSettings (readyReadLoop e (pre ++ c :: post)
              { s with mAsyncMessage := "" }))
        else
          writeSettings (readyReadLoop e (pre ++ c :: post)
              { s with mAsyncMessage := "" })) := by
      unfold readyRead
      simp only []
      rw [hs]
    rw [hr, hloop]
    have hmsg : (!(writeSettings
        { s with
          mResolverCacheSize := 5, mAsyncMessage := "Settings Applied",
          mResolverPool := pool, mResolverCache := cache, ghostPoolCountAtReplace := ghost.1, ghostBodyRuns := ghost.2,
          trace := s.trace ++ Event.updateDNS 5 :: installEvents items 0,
          mLog := l3, clockReads := c3 }).mAsyncMessage.isEmpty) = true := by
      show (!("Settings Applied" : String).isEmpty) = true
      decide
    rw [if_pos hmsg]
    unfold announcePackets
    have hlen : (writeSettings
        { s with
          mResolverCacheSize := 5, mAsyncMessage := "Settings Applied",
          mResolverPool := pool, mResolverCache := cache, ghostPoolCountAtReplace := ghost.1, ghostBodyRuns := ghost.2,
          trace := s.trace ++ Event.updateDNS 5 :: installEvents items 0,
          mLog := l3, clockReads := c3 }).mSessions.length ≠ 0 := by
      show s.mSessions.length ≠ 0
      rw [hs]
      exact hne
    rw [if_pos hlen]
    simp only [announceLoop_eq, logPurge, writeSettings, hs, List.append_assoc,
      List.cons_append, List.nil_append]
  rw [hfinal]
  have hjournal : LogExt (9 + (post.filter openValid).length)
      (keepLast (l0 ++
        [e.clock k ++ "|" ++ ("** ACTIVE CACHE SET TO " ++ number 5 ++ " RESOLVERS **")]))
      l3 := LogExt_trans hl2 hl3 (le_refl _)
  refine ⟨rfl, rfl, rfl, rfl, items, _, k, rfl, rfl, rfl, rfl, ⟨l0, hjournal⟩, ?_,
    rfl, rfl, rfl⟩
  intro hpost
  show _ ∈ l3
  exact mem_of_LogExt _ l0 l3 _ hjournal (by omega)

theorem readyRead_resize_witness :
    (readyRead (sampleClientEnv [("resolver_cache_size", QVariant.int 5)])
        { sampleServer 3 [sampleItem "b", sampleItem "a"] [] with
          mSessions := [sampleSession 1 true, sampleSession 7 true, sampleSession 3 false] }
      ).mResolverCacheSize = 5 ∧
    (readyRead (sampleClientEnv [("resolver_cache_size", QVariant.int 5)])
        { sampleServer 3 [sampleItem "b", sampleItem "a"] [] with
          mSessions := [sampleSession 1 true, sampleSession 7 true, sampleSession 3 false] }
      ).settings.resolver_cache_size = some 5 ∧
    (readyRead (sampleClientEnv [("resolver_cache_size", QVariant.int 5)])
        { sampleServer 3 [sampleItem "b", sampleItem "a"] [] with
          mSessions := [sampleSession 1 true, sampleSession 7 true, sampleSession 3 false] }
      ).mAsyncMessage = "" ∧
    (readyRead (sampleClientEnv [("resolver_cache_size", QVariant.int 5)])
        { sampleServer 3 [sampleItem "b", sampleItem "a"] [] with
          mSessions := [sampleSession 1 true, sampleSession 7 true, sampleSession 3 false] }
      ).mLog = [] :=
  have h := readyRead_resize (sampleClientEnv [("resolver_cache_size", QVariant.int 5)])
    { sampleServer 3 [sampleItem "b", sampleItem "a"] [] with
      mSessions := [sampleSession 1 true, sampleSession 7 true, sampleSession 3 false] }
    (sampleSession 7 true) [sampleSession 1 true] [sampleSession 3 false]
    rfl (by decide) (by decide) (by decide) rfl
  ⟨h.1, h.2.1, h.2.2.1, h.2.2.2.1⟩

end OpenNIC
